import Mathlib

/-!
# Verification of the Tetris-clone game-state engine

Shallow embedding of the deterministic Tetris game-state engine
(`src/main.ts` in the repository, together with its utility module
`src/utils.ts`).  Coordinates and numeric state fields are modelled as `ℤ`
(JavaScript numbers holding integer values); cell collections are `List`s in
source order; the seven-variant action set is an inductive type dispatched by
`applyAction`, mirroring the class-per-action pattern of the source.

Where exact IEEE-754 binary64 behaviour of JavaScript numbers is observable
(the linear-congruential RNG multiplies a 31-bit seed by 1103515245, whose
product exceeds 2^53), the embedding models the double rounding exactly via
`rnd53` (round to 53 significant bits, ties to even), so that the RNG is
reproduced bit-for-bit.
-/

namespace Tetris

/-! ## IEEE-754 binary64 integer arithmetic

JavaScript numbers are binary64 floats.  An integer-valued double carries 53
significant bits; products and sums whose exact value needs more bits are
rounded to nearest, ties to even.  `rnd53` performs exactly that rounding for
a natural number, and `jsRound53` extends it to `ℤ` (rounding is symmetric
under negation). -/

/-- The unit in the last place of the binary64 representation of `m`: `1`
below `2^53`, doubling with each further binade.  The fuel argument (`128`,
far above the 11 binades a double's integer range spans beyond `2^53`) keeps
the recursion structural. -/
def rnd53Ulp : ℕ → ℕ → ℕ
  | 0, _ => 1
  | fuel + 1, m => if m < 2 ^ 53 then 1 else 2 * rnd53Ulp fuel (m / 2)

/-- Round a natural number to 53 significant bits, nearest, ties to even:
exactly the binary64 rounding of an integer real value. -/
def rnd53 (n : ℕ) : ℕ :=
  let u := rnd53Ulp 128 n
  let q := n / u
  let r := n % u
  if 2 * r < u then q * u
  else if u < 2 * r then (q + 1) * u
  else if q % 2 = 0 then q * u else (q + 1) * u

def jsRound53 (z : ℤ) : ℤ :=
  if z < 0 then -(rnd53 z.natAbs : ℤ) else (rnd53 z.natAbs : ℤ)

/-! ## `src/utils.ts` -/

/-- The `Colour` union type of the source: exactly the seven tetromino
colours. -/
inductive Colour where
  | yellow | blue | orange | red | green | purple | cyan
deriving DecidableEq, Repr

/-- A cell (`Cube` in the source): grid coordinates, colour and a string
identity used by the renderer. -/
structure Cube where
  x : ℤ
  y : ℤ
  colour : Colour
  id : String
deriving DecidableEq, Repr

instance : Inhabited Cube := ⟨⟨0, 0, .yellow, ""⟩⟩

/-- `RNG` from `src/utils.ts`: a linear-congruential generator evaluated on
JavaScript doubles.  `hash seed = (a * seed + c) % m` where the
multiplication and the addition each round to binary64 (`jsRound53`) and `%`
is the exact JavaScript remainder (sign of the dividend, exact for these
magnitudes).  `scale` maps a hash to `hash % 7`. -/
def RNG.m : ℤ := 0x80000000

def RNG.a : ℤ := 1103515245

def RNG.c : ℤ := 12345

def RNG.hash (seed : ℤ) : ℤ :=
  Int.tmod (jsRound53 (jsRound53 (RNG.a * seed) + RNG.c)) RNG.m

def RNG.scale (hash : ℤ) : ℤ := Int.tmod hash 7

/-- `createTetromino` of the source takes the array of exactly four
coordinate pairs of a shape; here the four pairs are explicit arguments. -/
def createTetromino (colour : Colour) (c1 c2 c3 c4 : ℤ × ℤ) (group : String) :
    List Cube :=
  [⟨c1.1, c1.2, colour, group ++ "1"⟩,
   ⟨c2.1, c2.2, colour, group ++ "2"⟩,
   ⟨c3.1, c3.2, colour, group ++ "3"⟩,
   ⟨c4.1, c4.2, colour, group ++ "4"⟩]

def createYellowTetromino (x y : ℤ) : String → List Cube :=
  createTetromino .yellow (x, y) (x + 1, y) (x, y + 1) (x + 1, y + 1)

def createBlueTetromino (x y : ℤ) : String → List Cube :=
  createTetromino .blue (x, y + 1) (x + 1, y + 1) (x - 1, y + 1) (x - 1, y)

def createOrangeTetromino (x y : ℤ) : String → List Cube :=
  createTetromino .orange (x, y + 1) (x + 1, y + 1) (x - 1, y + 1) (x + 1, y)

def createRedTetromino (x y : ℤ) : String → List Cube :=
  createTetromino .red (x, y) (x - 1, y) (x, y + 1) (x + 1, y + 1)

def createGreenTetromino (x y : ℤ) : String → List Cube :=
  createTetromino .green (x, y) (x + 1, y) (x, y + 1) (x - 1, y + 1)

def createPurpleTetromino (x y : ℤ) : String → List Cube :=
  createTetromino .purple (x, y + 1) (x + 1, y + 1) (x - 1, y + 1) (x, y)

def createCyanTetromino (x y : ℤ) : String → List Cube :=
  createTetromino .cyan (x, y) (x - 1, y) (x + 1, y) (x + 2, y)

/-- `generateTetromino(index, x, y)`: picks `tetrominos[RNG.scale(index)]`.
In the source a negative scaled index would be a runtime fault (indexing
past the array); the game only ever passes non-negative indices, and the
embedding totalises the array access with `List.getD`. -/
def generateTetromino (index : ℤ) (x y : ℤ) : String → List Cube :=
  let tetrominos := [createYellowTetromino, createBlueTetromino,
    createOrangeTetromino, createRedTetromino, createGreenTetromino,
    createPurpleTetromino, createCyanTetromino]
  tetrominos.getD (RNG.scale index).toNat createYellowTetromino x y

/-- `findIndexByColour`: index of the colour in the fixed colour array
(`indexOf` over a closed enumeration, hence total). -/
def findIndexByColour (colour : Colour) : ℤ :=
  match colour with
  | .yellow => 0
  | .blue => 1
  | .orange => 2
  | .red => 3
  | .green => 4
  | .purple => 5
  | .cyan => 6

/-- `range(start, end)`: the inclusive integer range; a negative computed
length yields the empty array in the source (`Array.from` with negative
length), matched here by `Int.toNat`. -/
def range (start stop : ℤ) : List ℤ :=
  (List.range (stop - start + 1).toNat).map fun (i : ℕ) => start + (i : ℤ)

/-! ## `src/main.ts` : constants and state -/

def Constants.BASE_TICK_RATE_MS : ℤ := 10

def Constants.INITIAL_DROP_TICK : ℤ := 500

def Constants.MAX_SCORE_PER_LEVEL : ℤ := 1000

def Constants.GRID_WIDTH : ℤ := 10

def Constants.GRID_HEIGHT : ℤ := 20

def Constants.MAIN_GRID_X : ℤ := 4

def Constants.MAIN_GRID_Y : ℤ := -2

def Constants.PREVIEW_GRID_X : ℤ := 3

def Constants.PREVIEW_GRID_Y : ℤ := 1

/-- The game `State` record, field for field as in `src/types.ts` /
`src/main.ts`. -/
structure State where
  gameTick : ℤ
  currentTick : ℤ
  dropTick : ℤ
  currentCubes : List Cube
  mainGridCubes : List Cube
  previousMainGridCubes : List Cube
  previewGridCubes : List Cube
  holdOnCooldown : Bool
  updateGrid : Bool
  rng : ℤ
  level : ℤ
  score : ℤ
  linesCleared : ℤ
  highScore : ℤ
  gameEnd : Bool
deriving DecidableEq, Repr

/-- `calculateDropTick(level) = Math.round(500 * 5 ** (-0.1*(level-1)) / 10)`.
The transcendental is evaluated here with exact real-number rounding
(`round(50 * 5^(-(level-1)/10))`, round half up like `Math.round`),
characterised by integer inequalities: the result is the greatest `m` with
`2*m - 1 ≤ 100 * 5^(-(level-1)/10)`, i.e. `(2*m-1)^10 * 5^(level-1) ≤ 100^10`.
(`Math.pow` is allowed to be an implementation-defined approximation; at
`level = 1`, the only level at which any theorem below evaluates this
function, the source computation is exact and agrees: both give 50.) -/
def calculateDropTick (level : ℤ) : ℤ :=
  if 1 ≤ level then
    (Nat.findGreatest
      (fun m => (2 * (m : ℤ) - 1) ^ 10 * 5 ^ (level - 1).toNat ≤ 100 ^ 10)
      50 : ℤ)
  else
    (Nat.findGreatest
      (fun m => (2 * (m : ℤ) - 1) ^ 10 ≤ 100 ^ 10 * 5 ^ (1 - level).toNat)
      (50 * 5 ^ (1 - level).toNat) : ℤ)

/-- `cubes[0]` of the source, totalised: the source only evaluates the head
on lists it has just checked (or constructed) to be non-empty. -/
def head0 (l : List Cube) : Cube := l.headD default

/-- `isCollide`: some current cube coincides with a settled cube or lies at
or below the floor `y >= GRID_HEIGHT`. -/
def isCollide (s : State) : Bool :=
  decide (0 < (s.currentCubes.filter fun cube =>
    decide (0 < (s.mainGridCubes.filter fun mainCube =>
        mainCube.x == cube.x && mainCube.y == cube.y).length)
    || decide (Constants.GRID_HEIGHT ≤ cube.y)).length)

/-- `isOutOfBound`: some current cube has `x < 0`, `x >= GRID_WIDTH` or
`y >= GRID_HEIGHT`. -/
def isOutOfBound (s : State) : Bool :=
  decide (0 < (s.currentCubes.filter fun cube =>
    decide (cube.x < 0)
    || decide (Constants.GRID_WIDTH ≤ cube.x)
    || decide (Constants.GRID_HEIGHT ≤ cube.y)).length)

def isValid (s : State) : Bool := !isCollide s && !isOutOfBound s && !s.gameEnd

/-- `generateNewCubes`: per-cube translation; with `id := true` the identity
is recomputed from the new coordinates. -/
def generateNewCubes (currentCubes : List Cube) (relativeX relativeY : ℤ)
    (id : Bool := false) : List Cube :=
  currentCubes.map fun cube =>
    { x := cube.x + relativeX
      y := cube.y + relativeY
      colour := cube.colour
      id := if id then
          "x" ++ toString (cube.x + relativeX) ++ "y" ++
            toString (cube.y + relativeY)
        else cube.id }

/-- `convertTo2D`: fold the cube list into `GRID_HEIGHT` rows, appending each
cube to the row whose index equals its `y` (cubes with `y` outside
`[0, GRID_HEIGHT)` land in no row). -/
def convertTo2D (cubes : List Cube) : List (List Cube) :=
  cubes.foldl
    (fun grid cube =>
      grid.enum.map fun p => if (p.1 : ℤ) = cube.y then p.2 ++ [cube] else p.2)
    (List.replicate Constants.GRID_HEIGHT.toNat [])

/-- `findLinesToClear`: the `y` of the first cube of every full row
(length `GRID_WIDTH`), in row order; `-1` marks a non-full row and is
filtered out. -/
def findLinesToClear (grid : List (List Cube)) : List ℤ :=
  (grid.map fun row =>
    match row with
    | [] => (-1 : ℤ)
    | cube :: _ =>
      if (row.length : ℤ) = Constants.GRID_WIDTH then cube.y else -1).filter
    fun r => decide (r ≠ -1)

/-- `clearLines(cubes, line)`: drop every cube on `line`; every remaining
cube with `y <= line` shifts down one row with its identity recomputed from
the new coordinates; cubes below are copied unchanged. -/
def clearLines (cubes : List Cube) (line : ℤ) : List Cube :=
  (cubes.filter fun cube => decide (cube.y ≠ line)).map fun cube =>
    if cube.y ≤ line then
      { cube with
        y := cube.y + 1
        id := "x" ++ toString cube.x ++ "y" ++ toString (cube.y + 1) }
    else cube

def shouldUpdateGrid (s : State) : Bool :=
  (isCollide s || decide (s.currentCubes.length = 0)) && !s.gameEnd

/-- `findMinMaxNum`: the source's two-element `[min, max]` array is modelled
as a pair. -/
def findMinMaxNum (minMaxArr : ℤ × ℤ) (num : ℤ) : ℤ × ℤ :=
  (if minMaxArr.1 < num then minMaxArr.1 else num,
   if minMaxArr.2 > num then minMaxArr.2 else num)

/-- `calculateRotation`: the 90° rotation `(rx, ry) ↦ (-ry, rx)` about the
pivot. -/
def calculateRotation (pivotPointPos currentPos : ℤ × ℤ) : ℤ × ℤ :=
  let relativeX := currentPos.1 - pivotPointPos.1
  let relativeY := currentPos.2 - pivotPointPos.2
  (pivotPointPos.1 + -relativeY, pivotPointPos.2 + relativeX)

/-- JavaScript array indexing with an integer index: out-of-range (or
negative) access yields `undefined`, modelled as `none` (any comparison
against it is false). -/
def jsIndex? (l : List ℤ) (i : ℤ) : Option ℤ :=
  if 0 ≤ i then l.get? i.toNat else none

/-! ## The seven actions -/

/-- `GameTick.apply`: the internal automatic drop triggered by `Tick`
rollover. -/
def GameTick.apply (s : State) : State :=
  let newCubes := generateNewCubes s.currentCubes 0 1
  let newState := { s with currentCubes := newCubes }
  let updatedID := generateNewCubes s.currentCubes 0 0 true
  let updatedMainGridCubes :=
    if isCollide newState then s.mainGridCubes ++ updatedID else s.mainGridCubes
  let mainGridCubes2D := convertTo2D updatedMainGridCubes
  let linesToClear := findLinesToClear mainGridCubes2D
  let finalMainGridCubes :=
    if 0 < linesToClear.length then linesToClear.foldl clearLines updatedMainGridCubes
    else updatedMainGridCubes
  let newScore := s.score + (linesToClear.length : ℤ) * 100
  let gameOver :=
    decide (0 < (finalMainGridCubes.filter fun cube => decide (cube.y < 0)).length)
  { s with
    gameTick := s.gameTick + 1
    currentCubes :=
      if shouldUpdateGrid newState then
        generateTetromino (findIndexByColour (head0 s.previewGridCubes).colour)
          Constants.MAIN_GRID_X Constants.MAIN_GRID_Y "c"
      else newCubes
    mainGridCubes := if s.gameEnd then s.mainGridCubes else finalMainGridCubes
    previousMainGridCubes := s.mainGridCubes
    previewGridCubes :=
      if shouldUpdateGrid newState then
        generateTetromino (RNG.scale s.rng)
          Constants.PREVIEW_GRID_X Constants.PREVIEW_GRID_Y "p"
      else s.previewGridCubes
    holdOnCooldown := if shouldUpdateGrid newState then false else s.holdOnCooldown
    updateGrid := shouldUpdateGrid newState
    rng := if shouldUpdateGrid newState then RNG.hash s.rng else s.rng
    level := Int.fdiv newScore Constants.MAX_SCORE_PER_LEVEL + 1
    score := newScore
    linesCleared := s.linesCleared + (linesToClear.length : ℤ)
    highScore := if s.highScore < newScore then newScore else s.highScore
    gameEnd := gameOver }

/-- `Tick.apply`: advances `currentTick`; on rollover resets it, recomputes
`dropTick` from the level and performs one `GameTick`. -/
def Tick.apply (s : State) : State :=
  let newCurrentTick := if s.currentTick + 1 = s.dropTick then 0 else s.currentTick + 1
  let newState :=
    if newCurrentTick = 0 then
      { s with
        currentTick := newCurrentTick
        dropTick := calculateDropTick s.level
        updateGrid := false }
    else
      { s with currentTick := newCurrentTick, updateGrid := false }
  if newCurrentTick = 0 then GameTick.apply newState else newState

def MoveLeft.apply (s : State) : State :=
  let newCubes := generateNewCubes s.currentCubes (-1) 0
  let newState := { s with currentCubes := newCubes }
  { s with
    currentCubes := if isValid newState then newCubes else s.currentCubes
    updateGrid := false }

def MoveRight.apply (s : State) : State :=
  let newCubes := generateNewCubes s.currentCubes 1 0
  let newState := { s with currentCubes := newCubes }
  { s with
    currentCubes := if isValid newState then newCubes else s.currentCubes
    updateGrid := false }

def MoveDown.apply (s : State) : State :=
  let newCubes := generateNewCubes s.currentCubes 0 1
  let newState := { s with currentCubes := newCubes }
  { s with
    currentCubes := if isValid newState then newCubes else s.currentCubes
    updateGrid := false }

/-- `Rotate.apply`: pivot rotation with the horizontal wall kick; the empty
piece and the yellow square are returned unchanged; a rotation whose kicked
result still collides is rejected. -/
def Rotate.apply (s : State) : State :=
  if s.currentCubes.length = 0 ∨ (head0 s.currentCubes).colour = Colour.yellow then s
  else
    let initialPos : ℤ × ℤ := ((head0 s.currentCubes).x, (head0 s.currentCubes).y)
    let newCubes := s.currentCubes.map fun cube =>
      let newRotation := calculateRotation initialPos (cube.x, cube.y)
      { x := newRotation.1, y := newRotation.2, colour := cube.colour, id := cube.id }
    let mm := newCubes.foldl (fun acc c => findMinMaxNum acc c.x)
      (Constants.GRID_WIDTH, -1)
    let minX := mm.1
    let maxX := mm.2
    let relativeX :=
      if minX < 0 then -minX
      else if maxX ≥ Constants.GRID_WIDTH then Constants.GRID_WIDTH - maxX - 1
      else 0
    let adjustedCubes := generateNewCubes newCubes relativeX 0
    let newState := { s with currentCubes := adjustedCubes }
    let finalCubes := if isCollide newState then s.currentCubes else adjustedCubes
    { s with currentCubes := finalCubes, updateGrid := false }

/-- `HardDrop.apply`: drop the piece by the fold-computed distance, merge
with regenerated identities, then clear lines, score and respawn exactly as
the `GameTick` landing path does. -/
def HardDrop.apply (s : State) : State :=
  let mm := s.currentCubes.foldl (fun acc c => findMinMaxNum acc c.x)
    (Constants.GRID_WIDTH, -1)
  let minX := mm.1
  let maxX := mm.2
  let currentCubesInRange := (range minX maxX).map fun x =>
    s.currentCubes.filter fun cube => decide (cube.x = x)
  let highestCurrentYs := currentCubesInRange.map fun cubeArr =>
    cubeArr.foldl (fun acc c => if c.y > acc then c.y else acc) Constants.MAIN_GRID_Y
  let gridCubesInRange := (range minX maxX).map fun x =>
    s.mainGridCubes.filter fun cube => decide (cube.x = x)
  let lowestGridYs := gridCubesInRange.map fun cubeArr =>
    cubeArr.foldl
      (fun acc c =>
        match jsIndex? highestCurrentYs (c.x - minX) with
        | some h => if c.y < acc ∧ c.y > h then c.y else acc
        | none => acc)
      Constants.GRID_HEIGHT
  let relativeY := (lowestGridYs.zip highestCurrentYs).foldl
    (fun acc p => let newY := p.1 - p.2 - 1; if newY < acc then newY else acc)
    Constants.GRID_HEIGHT
  let newCubes := generateNewCubes s.currentCubes 0 relativeY true
  let updatedMainGridCubes := s.mainGridCubes ++ newCubes
  let mainGridCubes2D := convertTo2D updatedMainGridCubes
  let linesToClear := findLinesToClear mainGridCubes2D
  let finalMainGridCubes :=
    if 0 < linesToClear.length then linesToClear.foldl clearLines updatedMainGridCubes
    else updatedMainGridCubes
  let newScore := s.score + (linesToClear.length : ℤ) * 100
  let gameOver :=
    decide (0 < (finalMainGridCubes.filter fun cube => decide (cube.y < 0)).length)
  { s with
    currentCubes :=
      generateTetromino (findIndexByColour (head0 s.previewGridCubes).colour)
        Constants.MAIN_GRID_X Constants.MAIN_GRID_Y "c"
    mainGridCubes := if s.gameEnd then s.mainGridCubes else finalMainGridCubes
    previousMainGridCubes := s.mainGridCubes
    previewGridCubes :=
      generateTetromino (RNG.scale s.rng)
        Constants.PREVIEW_GRID_X Constants.PREVIEW_GRID_Y "p"
    holdOnCooldown := false
    updateGrid := true
    rng := RNG.hash s.rng
    level := Int.fdiv newScore Constants.MAX_SCORE_PER_LEVEL + 1
    score := newScore
    linesCleared := s.linesCleared + (linesToClear.length : ℤ)
    highScore := if s.highScore < newScore then newScore else s.highScore
    gameEnd := gameOver }

/-- `Reset.apply`: no-op unless `gameEnd`; then zeroes the tick counters and
score counters, clears the boards and keeps `highScore`, `rng`, `dropTick`,
`holdOnCooldown` and the preview. -/
def Reset.apply (s : State) : State :=
  if s.gameEnd then
    { s with
      gameTick := 0
      currentTick := 0
      currentCubes := []
      mainGridCubes := []
      previousMainGridCubes := s.mainGridCubes
      previewGridCubes := s.previewGridCubes
      updateGrid := false
      level := 1
      score := 0
      linesCleared := 0
      gameEnd := false }
  else s

/-- The closed action vocabulary of the engine. -/
inductive Action where
  | tick | moveLeft | moveRight | moveDown | rotate | hardDrop | reset
deriving DecidableEq, Repr

/-- The state transducer `reduceState (s, a) = a.apply(s)`. -/
def applyAction (a : Action) (s : State) : State :=
  match a with
  | .tick => Tick.apply s
  | .moveLeft => MoveLeft.apply s
  | .moveRight => MoveRight.apply s
  | .moveDown => MoveDown.apply s
  | .rotate => Rotate.apply s
  | .hardDrop => HardDrop.apply s
  | .reset => Reset.apply s

def reduceState (s : State) (a : Action) : State := applyAction a s

/-- The bootstrap state, parameterised by the initial seed `initialRNG`
(in the source, `Math.round(RNG.hash(Math.random() * 1000))`). -/
def initialState (initialRNG : ℤ) : State :=
  { gameTick := 0
    currentTick := 0
    dropTick := Constants.INITIAL_DROP_TICK / Constants.BASE_TICK_RATE_MS
    currentCubes := []
    mainGridCubes := []
    previousMainGridCubes := []
    previewGridCubes :=
      generateTetromino initialRNG
        Constants.PREVIEW_GRID_X Constants.PREVIEW_GRID_Y "p"
    holdOnCooldown := false
    updateGrid := false
    rng := RNG.hash initialRNG
    level := 1
    score := 0
    linesCleared := 0
    highScore := 0
    gameEnd := false }

/-- Reachability: the states produced from the bootstrap state for seed
`seed` by folding any sequence of actions. -/
inductive Reach (seed : ℤ) : State → Prop where
  | init : Reach seed (initialState seed)
  | step {s : State} (a : Action) : Reach seed s → Reach seed (applyAction a s)

/-! ## Basic facts about the binary64 rounding -/

theorem rnd53_eq_of_le {n : ℕ} (h : n ≤ 2 ^ 53) : rnd53 n = n := by
  rcases Nat.lt_or_ge n (2 ^ 53) with hlt | hge
  · have hu : rnd53Ulp 128 n = 1 := by
      show (if n < 2 ^ 53 then 1 else 2 * rnd53Ulp 127 (n / 2)) = 1
      rw [if_pos hlt]
    unfold rnd53
    rw [hu]
    simp [Nat.mod_one, Nat.div_one]
  · have : n = 2 ^ 53 := le_antisymm h hge
    subst this
    decide

theorem jsRound53_eq_of {z : ℤ} (h0 : 0 ≤ z) (h1 : z ≤ 2 ^ 53) :
    jsRound53 z = z := by
  have hz : ¬ z < 0 := not_lt.mpr h0
  have hna : (z.natAbs : ℤ) = z := Int.natAbs_of_nonneg h0
  have hle : z.natAbs ≤ 2 ^ 53 := by omega
  simp only [jsRound53, hz, if_false, rnd53_eq_of_le hle, hna]

theorem jsRound53_nonneg {z : ℤ} (h0 : 0 ≤ z) : 0 ≤ jsRound53 z := by
  have hz : ¬ z < 0 := not_lt.mpr h0
  simp only [jsRound53, hz, if_false]
  exact Int.natCast_nonneg _

/-!
## Claim C6 — the RNG contract

The claim asserts that for every non-negative seed below `2^31`,
`hash(seed)` equals `(1103515245 * seed + 12345) mod 2^31` *bit-for-bit
under exact integer arithmetic*.  The source computes on JavaScript binary64
doubles, and the product `1103515245 * seed` exceeds `2^53` for seeds above
8162278, so the multiplication rounds and the result diverges from the exact
integer formula.  The claim is therefore false as stated (counterexample at
`seed = 2^30`); it holds exactly on the rounding-free range, and the `scale`
range claim holds for every non-negative seed.
-/

/-- C6 (counterexample): at `seed = 2^30 < 2^31` the double-rounded product
makes `hash` differ from the exact integer formula (`1073754112` against
`1073754169`). -/
theorem claim6_cex :
    RNG.hash (2 ^ 30) ≠ (RNG.a * 2 ^ 30 + RNG.c) % RNG.m := by decide

/-- C6 (amended): for every non-negative seed small enough that
`a * seed + c` stays within the 53-bit exactly-representable range
(`seed ≤ 8162278`; in particular well below `2^31`), `hash` coincides
bit-for-bit with the exact integer formula `(a * seed + c) mod 2^31`, and
for every non-negative seed `scale (hash seed)` lies in `[0, 6]`. -/
theorem claim6_thm (seed : ℤ) (hseed : 0 ≤ seed) :
    (RNG.a * seed + RNG.c ≤ 2 ^ 53 →
      RNG.hash seed = (RNG.a * seed + RNG.c) % RNG.m) ∧
    0 ≤ RNG.scale (RNG.hash seed) ∧ RNG.scale (RNG.hash seed) ≤ 6 := by
  have hprod : 0 ≤ RNG.a * seed := by
    have : (0 : ℤ) ≤ RNG.a := by decide
    exact mul_nonneg this hseed
  refine ⟨fun hbound => ?_, ?_, ?_⟩
  · have h1 : RNG.a * seed ≤ 2 ^ 53 := by
      have : (0 : ℤ) < RNG.c := by decide
      omega
    have e1 : jsRound53 (RNG.a * seed) = RNG.a * seed := jsRound53_eq_of hprod h1
    have h2 : 0 ≤ RNG.a * seed + RNG.c := by
      have : (0 : ℤ) < RNG.c := by decide
      omega
    have e2 : jsRound53 (RNG.a * seed + RNG.c) = RNG.a * seed + RNG.c :=
      jsRound53_eq_of h2 hbound
    have hm : (0 : ℤ) ≤ RNG.m := by decide
    rw [RNG.hash, e1, e2, Int.tmod_eq_emod h2 hm]
  · exact Int.tmod_nonneg _ <| Int.tmod_nonneg _ <| jsRound53_nonneg <|
      add_nonneg (jsRound53_nonneg hprod) (by decide)
  · have h7 : (0 : ℤ) < 7 := by decide
    have := Int.tmod_lt_of_pos (RNG.hash seed) h7
    show Int.tmod (RNG.hash seed) 7 ≤ 6
    omega

/-- C6 (witness): the amended theorem applied at the concrete seed 5. -/
theorem claim6_witness :
    RNG.hash 5 = (RNG.a * 5 + RNG.c) % RNG.m ∧
    0 ≤ RNG.scale (RNG.hash 5) ∧ RNG.scale (RNG.hash 5) ≤ 6 :=
  ⟨(claim6_thm 5 (by decide)).1 (by decide),
   (claim6_thm 5 (by decide)).2.1, (claim6_thm 5 (by decide)).2.2⟩

/-!
## Claim C1 — the terminal state and non-Reset actions

The claim asserts that a `gameEnd = true` state is left *completely
unchanged* by every non-Reset action.  The code does not guard `Tick` (or
the other actions) on `gameEnd`: `Tick` still advances `currentTick`,
the movement actions still clear the render hint, `Rotate` can still rotate
the piece (its rejection test never consults `gameEnd`), and `HardDrop`
still advances the RNG and regenerates both pieces.  What does survive is
the settled grid (`mainGridCubes` is explicitly frozen while `gameEnd`) and,
for the three movement actions, the active piece.
-/

/-- C1 (counterexample): in a concrete game-over state, `Tick` is not a
no-op — it advances `currentTick`. -/
theorem claim1_cex :
    ({ initialState 0 with gameEnd := true } : State).gameEnd = true ∧
    Tick.apply { initialState 0 with gameEnd := true } ≠
      { initialState 0 with gameEnd := true } := by decide

/-- C1 (amended): once `gameEnd` is true, every non-Reset action leaves the
settled grid `mainGridCubes` unchanged, and the three movement actions leave
the active piece unchanged; the rest of the state is *not* in general
preserved (tick counters advance, the render hint is rewritten, `HardDrop`
advances the RNG, `Rotate` may rotate the piece). -/
theorem claim1_thm (s : State) (h : s.gameEnd = true) :
    (∀ a : Action, a ≠ Action.reset →
      (applyAction a s).mainGridCubes = s.mainGridCubes) ∧
    (MoveLeft.apply s).currentCubes = s.currentCubes ∧
    (MoveRight.apply s).currentCubes = s.currentCubes ∧
    (MoveDown.apply s).currentCubes = s.currentCubes := by
  refine ⟨fun a ha => ?_, ?_, ?_, ?_⟩
  · cases a with
    | tick =>
      show (Tick.apply s).mainGridCubes = s.mainGridCubes
      simp only [Tick.apply]
      split_ifs <;> simp [GameTick.apply, h]
    | moveLeft => rfl
    | moveRight => rfl
    | moveDown => rfl
    | rotate =>
      show (Rotate.apply s).mainGridCubes = s.mainGridCubes
      simp only [Rotate.apply]
      split_ifs <;> rfl
    | hardDrop =>
      show (HardDrop.apply s).mainGridCubes = s.mainGridCubes
      simp [HardDrop.apply, h]
    | reset => exact absurd rfl ha
  · simp [MoveLeft.apply, isValid, h]
  · simp [MoveRight.apply, isValid, h]
  · simp [MoveDown.apply, isValid, h]

/-- C1 (witness): the amended theorem applied at a concrete game-over
state. -/
theorem claim1_witness :
    (applyAction .hardDrop { initialState 0 with gameEnd := true }).mainGridCubes =
      ({ initialState 0 with gameEnd := true } : State).mainGridCubes ∧
    (MoveLeft.apply { initialState 0 with gameEnd := true }).currentCubes =
      ({ initialState 0 with gameEnd := true } : State).currentCubes :=
  ⟨(claim1_thm { initialState 0 with gameEnd := true } rfl).1 .hardDrop
      (by decide),
   (claim1_thm { initialState 0 with gameEnd := true } rfl).2.1⟩

/-!
## Claim C5 — Reset

The claim asserts that `Reset` zeroes *all three* tick counters, including
`dropTick`.  The code resets only `gameTick` and `currentTick`; `dropTick`
is carried over unchanged (it is recomputed from the level only at the next
`Tick` rollover).  Also, `level` is reset to 1, not 0.  Everything else in
the claim matches the code.
-/

/-- C5 (counterexample): `Reset` on a game-over state with `dropTick = 30`
leaves `dropTick` at 30 instead of zeroing it. -/
theorem claim5_cex :
    ({ initialState 0 with gameEnd := true, dropTick := 30 } : State).gameEnd = true ∧
    (Reset.apply { initialState 0 with gameEnd := true, dropTick := 30 }).dropTick = 30 ∧
    (Reset.apply { initialState 0 with gameEnd := true, dropTick := 30 }).dropTick ≠ 0 := by
  decide

/-- C5 (amended): when `gameEnd` is true, `Reset` zeroes `gameTick`,
`currentTick`, `score` and `linesCleared`, sets `level` to 1, clears the
active piece and the settled grid, and preserves `dropTick`, `highScore`,
the preview piece and the RNG seed; when `gameEnd` is false it returns the
state unchanged. -/
theorem claim5_thm (s : State) :
    (s.gameEnd = true →
      (Reset.apply s).gameTick = 0 ∧
      (Reset.apply s).currentTick = 0 ∧
      (Reset.apply s).dropTick = s.dropTick ∧
      (Reset.apply s).score = 0 ∧
      (Reset.apply s).level = 1 ∧
      (Reset.apply s).linesCleared = 0 ∧
      (Reset.apply s).currentCubes = [] ∧
      (Reset.apply s).mainGridCubes = [] ∧
      (Reset.apply s).highScore = s.highScore ∧
      (Reset.apply s).previewGridCubes = s.previewGridCubes ∧
      (Reset.apply s).rng = s.rng ∧
      (Reset.apply s).gameEnd = false) ∧
    (s.gameEnd = false → Reset.apply s = s) := by
  constructor <;> intro h <;> simp [Reset.apply, h]

/-- C5 (witness): the amended theorem applied at a concrete game-over
state. -/
theorem claim5_witness :
    (Reset.apply { initialState 0 with gameEnd := true, dropTick := 37 }).dropTick = 37 ∧
    (Reset.apply { initialState 0 with gameEnd := true, dropTick := 37 }).highScore =
      ({ initialState 0 with gameEnd := true, dropTick := 37 } : State).highScore ∧
    Reset.apply { initialState 0 with dropTick := 37 } =
      { initialState 0 with dropTick := 37 } :=
  ⟨((claim5_thm { initialState 0 with gameEnd := true, dropTick := 37 }).1 rfl).2.2.1,
   ((claim5_thm { initialState 0 with gameEnd := true, dropTick := 37 }).1 rfl).2.2.2.2.2.2.2.2.1,
   (claim5_thm { initialState 0 with dropTick := 37 }).2 rfl⟩

/-!
## Claim C8 — the movement actions

The claim's translation-and-validity behaviour matches the code, but "the
state is returned unchanged" on rejection does not: every movement action
unconditionally clears the render hint `updateGrid`, so a rejected move from
a state with `updateGrid = true` produces a different state (with the same
piece).  Rejection is indeed silent — the actions are total.
-/

/-- C8 (counterexample): a piece at the left wall with `updateGrid = true`;
`MoveLeft` is rejected (the translated piece would be out of bounds) and the
piece is unchanged, yet the resulting state differs from the input because
the render hint is cleared. -/
theorem claim8_cex :
    isValid { initialState 0 with
        currentCubes := generateNewCubes [⟨0, 5, Colour.cyan, "c1"⟩] (-1) 0,
        updateGrid := true } = false ∧
    (MoveLeft.apply { initialState 0 with
        currentCubes := [⟨0, 5, Colour.cyan, "c1"⟩],
        updateGrid := true }).currentCubes = [⟨0, 5, Colour.cyan, "c1"⟩] ∧
    MoveLeft.apply { initialState 0 with
        currentCubes := [⟨0, 5, Colour.cyan, "c1"⟩], updateGrid := true } ≠
      { initialState 0 with
        currentCubes := [⟨0, 5, Colour.cyan, "c1"⟩], updateGrid := true } := by
  decide

/-- C8 (amended): `MoveLeft`/`MoveRight`/`MoveDown` translate the active
piece by `(-1,0)`/`(+1,0)`/`(0,+1)` exactly when the translated placement is
valid (no collision with settled cells, in bounds, game not over) and
otherwise leave the piece unchanged; the rejection is silent (no fault — the
actions are total functions) but the state is not literally unchanged: the
render hint `updateGrid` is cleared in all cases, and every other field is
preserved. -/
theorem claim8_thm (s : State) :
    ((isValid { s with currentCubes := generateNewCubes s.currentCubes (-1) 0 } = true →
        (MoveLeft.apply s).currentCubes = generateNewCubes s.currentCubes (-1) 0) ∧
      (isValid { s with currentCubes := generateNewCubes s.currentCubes (-1) 0 } = false →
        (MoveLeft.apply s).currentCubes = s.currentCubes) ∧
      (MoveLeft.apply s).updateGrid = false ∧
      (MoveLeft.apply s).mainGridCubes = s.mainGridCubes ∧
      (MoveLeft.apply s).score = s.score ∧
      (MoveLeft.apply s).gameEnd = s.gameEnd) ∧
    ((isValid { s with currentCubes := generateNewCubes s.currentCubes 1 0 } = true →
        (MoveRight.apply s).currentCubes = generateNewCubes s.currentCubes 1 0) ∧
      (isValid { s with currentCubes := generateNewCubes s.currentCubes 1 0 } = false →
        (MoveRight.apply s).currentCubes = s.currentCubes) ∧
      (MoveRight.apply s).updateGrid = false ∧
      (MoveRight.apply s).mainGridCubes = s.mainGridCubes ∧
      (MoveRight.apply s).score = s.score ∧
      (MoveRight.apply s).gameEnd = s.gameEnd) ∧
    ((isValid { s with currentCubes := generateNewCubes s.currentCubes 0 1 } = true →
        (MoveDown.apply s).currentCubes = generateNewCubes s.currentCubes 0 1) ∧
      (isValid { s with currentCubes := generateNewCubes s.currentCubes 0 1 } = false →
        (MoveDown.apply s).currentCubes = s.currentCubes) ∧
      (MoveDown.apply s).updateGrid = false ∧
      (MoveDown.apply s).mainGridCubes = s.mainGridCubes ∧
      (MoveDown.apply s).score = s.score ∧
      (MoveDown.apply s).gameEnd = s.gameEnd) := by
  refine ⟨⟨?_, ?_, rfl, rfl, rfl, rfl⟩, ⟨?_, ?_, rfl, rfl, rfl, rfl⟩,
    ⟨?_, ?_, rfl, rfl, rfl, rfl⟩⟩ <;>
    intro h <;> simp [MoveLeft.apply, MoveRight.apply, MoveDown.apply, h]

/-- C8 (witness): the amended theorem applied at a concrete state (the
wall-rejected move of the counterexample state). -/
theorem claim8_witness :
    (MoveLeft.apply { initialState 0 with
        currentCubes := [⟨0, 5, Colour.cyan, "c1"⟩],
        updateGrid := true }).currentCubes = [⟨0, 5, Colour.cyan, "c1"⟩] ∧
    (MoveLeft.apply { initialState 0 with
        currentCubes := [⟨0, 5, Colour.cyan, "c1"⟩],
        updateGrid := true }).updateGrid = false :=
  ⟨(claim8_thm { initialState 0 with
      currentCubes := [⟨0, 5, Colour.cyan, "c1"⟩],
      updateGrid := true }).1.2.1 (by decide),
   (claim8_thm { initialState 0 with
      currentCubes := [⟨0, 5, Colour.cyan, "c1"⟩],
      updateGrid := true }).1.2.2.1⟩

/-!
## Claim C9 — scoring and leveling after a landing step

Both landing paths (`GameTick` and `HardDrop`) add `100 * linesClearedThisStep`
to the score and recompute `level = floor(score / 1000) + 1` from the new
score, so the level first reaches 2 exactly when the cumulative score
reaches 1000.  The number of lines cleared in a step is exposed as the
increment of the cumulative `linesCleared` field.
-/

/-- C9: after a `GameTick` or `HardDrop` step, the score grows by exactly
100 per line cleared in that step, the level is recomputed as
`floor(score/1000) + 1` from the resulting score, and (for non-negative
scores) the resulting level is 2 exactly when the resulting score lies in
`[1000, 2000)`. -/
theorem claim9_thm (s : State) :
    (GameTick.apply s).score =
      s.score + 100 * ((GameTick.apply s).linesCleared - s.linesCleared) ∧
    (GameTick.apply s).level = Int.fdiv (GameTick.apply s).score 1000 + 1 ∧
    (HardDrop.apply s).score =
      s.score + 100 * ((HardDrop.apply s).linesCleared - s.linesCleared) ∧
    (HardDrop.apply s).level = Int.fdiv (HardDrop.apply s).score 1000 + 1 ∧
    (0 ≤ (GameTick.apply s).score →
      ((GameTick.apply s).level = 2 ↔
        1000 ≤ (GameTick.apply s).score ∧ (GameTick.apply s).score < 2000)) ∧
    (0 ≤ (HardDrop.apply s).score →
      ((HardDrop.apply s).level = 2 ↔
        1000 ≤ (HardDrop.apply s).score ∧ (HardDrop.apply s).score < 2000)) := by
  have hg : (GameTick.apply s).score =
      s.score + 100 * ((GameTick.apply s).linesCleared - s.linesCleared) := by
    simp only [GameTick.apply]
    ring
  have hh : (HardDrop.apply s).score =
      s.score + 100 * ((HardDrop.apply s).linesCleared - s.linesCleared) := by
    simp only [HardDrop.apply]
    ring
  have hgl : (GameTick.apply s).level = Int.fdiv (GameTick.apply s).score 1000 + 1 := by
    simp [GameTick.apply, Constants.MAX_SCORE_PER_LEVEL]
  have hhl : (HardDrop.apply s).level = Int.fdiv (HardDrop.apply s).score 1000 + 1 := by
    simp [HardDrop.apply, Constants.MAX_SCORE_PER_LEVEL]
  refine ⟨hg, hgl, hh, hhl, fun h0 => ?_, fun h0 => ?_⟩
  · rw [hgl, Int.fdiv_eq_ediv _ (by norm_num)]
    omega
  · rw [hhl, Int.fdiv_eq_ediv _ (by norm_num)]
    omega

/-- C9 (witness): the theorem applied at a concrete state (its two
implications discharged at that state). -/
theorem claim9_witness :
    (GameTick.apply (initialState 0)).score =
      (initialState 0).score +
        100 * ((GameTick.apply (initialState 0)).linesCleared -
          (initialState 0).linesCleared) ∧
    ((GameTick.apply (initialState 0)).level = 2 ↔
      1000 ≤ (GameTick.apply (initialState 0)).score ∧
        (GameTick.apply (initialState 0)).score < 2000) :=
  ⟨(claim9_thm (initialState 0)).1,
   (claim9_thm (initialState 0)).2.2.2.2.1 (by decide)⟩

/-!
## Claim C10 — high-score monotonicity

`highScore` is monotonically non-decreasing under every action (both landing
paths update it with a max, everything else carries it over).  The second
part of the claim — `highScore ≥ score` is preserved by *every* transition —
fails for `Reset`: `Reset` zeroes the score while preserving `highScore`,
so from a (not reachable in normal play, but in the claim's full state
space) state with negative `highScore ≥ score`, the property is broken.
With the additional assumption `highScore ≥ 0` it is preserved by every
action.
-/

/-- C10 (counterexample): `highScore = -1 ≥ score = -1` holds before
`Reset`, but after `Reset` the score is 0 while `highScore` is still -1. -/
theorem claim10_cex :
    ({ initialState 0 with gameEnd := true, highScore := -1, score := -1 } : State).score ≤
      ({ initialState 0 with gameEnd := true, highScore := -1, score := -1 } : State).highScore ∧
    ¬ (Reset.apply { initialState 0 with gameEnd := true, highScore := -1, score := -1 }).score ≤
        (Reset.apply { initialState 0 with gameEnd := true, highScore := -1, score := -1 }).highScore := by
  decide

/-- C10 (amended): for every state and action, `highScore` never decreases;
and if additionally `highScore ≥ score` and `highScore ≥ 0` held before the
transition, then `highScore ≥ score` holds after it (the non-negativity
assumption, true of every reachable state, is what the `Reset` path
needs). -/
theorem claim10_thm (s : State) (a : Action) :
    s.highScore ≤ (applyAction a s).highScore ∧
    (s.score ≤ s.highScore → 0 ≤ s.highScore →
      (applyAction a s).score ≤ (applyAction a s).highScore) := by
  have hgt : ∀ t : State, t.highScore ≤ (GameTick.apply t).highScore ∧
      (GameTick.apply t).score ≤ (GameTick.apply t).highScore := by
    intro t
    constructor <;> · simp only [GameTick.apply]; split_ifs <;> omega
  have hhd : ∀ t : State, t.highScore ≤ (HardDrop.apply t).highScore ∧
      (HardDrop.apply t).score ≤ (HardDrop.apply t).highScore := by
    intro t
    constructor <;> · simp only [HardDrop.apply]; split_ifs <;> omega
  cases a with
  | tick =>
    show s.highScore ≤ (Tick.apply s).highScore ∧
      (s.score ≤ s.highScore → 0 ≤ s.highScore →
        (Tick.apply s).score ≤ (Tick.apply s).highScore)
    simp only [Tick.apply]
    split_ifs <;>
      first
        | exact ⟨(hgt _).1, fun _ _ => (hgt _).2⟩
        | exact ⟨le_refl _, fun h _ => h⟩
  | moveLeft => exact ⟨le_refl _, fun h _ => h⟩
  | moveRight => exact ⟨le_refl _, fun h _ => h⟩
  | moveDown => exact ⟨le_refl _, fun h _ => h⟩
  | rotate =>
    show s.highScore ≤ (Rotate.apply s).highScore ∧
      (s.score ≤ s.highScore → 0 ≤ s.highScore →
        (Rotate.apply s).score ≤ (Rotate.apply s).highScore)
    simp only [Rotate.apply]
    split_ifs <;> exact ⟨le_refl _, fun h _ => h⟩
  | hardDrop => exact ⟨(hhd s).1, fun _ _ => (hhd s).2⟩
  | reset =>
    show s.highScore ≤ (Reset.apply s).highScore ∧
      (s.score ≤ s.highScore → 0 ≤ s.highScore →
        (Reset.apply s).score ≤ (Reset.apply s).highScore)
    simp only [Reset.apply]
    split_ifs <;>
      first
        | exact ⟨le_refl _, fun _ h0 => h0⟩
        | exact ⟨le_refl _, fun h _ => h⟩

/-- C10 (witness): the amended theorem applied at a concrete state and
action, both hypotheses discharged there. -/
theorem claim10_witness :
    (initialState 3).highScore ≤ (applyAction .hardDrop (initialState 3)).highScore ∧
    (applyAction .hardDrop (initialState 3)).score ≤
      (applyAction .hardDrop (initialState 3)).highScore :=
  ⟨(claim10_thm (initialState 3) .hardDrop).1,
   (claim10_thm (initialState 3) .hardDrop).2 (by decide) (by decide)⟩

/-! ## Generic list lemmas used by several claims -/

lemma length_filter_pos {α : Type} (p : α → Bool) (l : List α) :
    0 < (l.filter p).length ↔ ∃ a ∈ l, p a = true := by
  rw [List.length_pos]
  constructor
  · intro h
    obtain ⟨a, ha⟩ := List.exists_mem_of_ne_nil _ h
    exact ⟨a, (List.mem_filter.mp ha).1, (List.mem_filter.mp ha).2⟩
  · rintro ⟨a, ha, hp⟩
    exact List.ne_nil_of_mem (List.mem_filter.mpr ⟨ha, hp⟩)

/-- `isColliding(piece, settled)` as the specification states it (§4.3):
some piece cell coincides with a settled cell, or lies at or below the
floor. -/
def specIsColliding (piece settled : List Cube) : Prop :=
  ∃ c ∈ piece, (∃ m ∈ settled, m.x = c.x ∧ m.y = c.y) ∨ Constants.GRID_HEIGHT ≤ c.y

instance specIsColliding.decidable (piece settled : List Cube) :
    Decidable (specIsColliding piece settled) := by
  unfold specIsColliding; infer_instance

/-- The code's `isCollide` computes exactly the specification's
`isColliding` predicate. -/
lemma isCollide_iff (s : State) :
    isCollide s = true ↔ specIsColliding s.currentCubes s.mainGridCubes := by
  rw [isCollide, decide_eq_true_eq, length_filter_pos]
  unfold specIsColliding
  refine exists_congr fun c => and_congr_right fun _ => ?_
  simp [length_filter_pos]

lemma findMinMaxNum_eq (p : ℤ × ℤ) (x : ℤ) :
    findMinMaxNum p x = (min p.1 x, max p.2 x) := by
  simp only [findMinMaxNum, min_def, max_def, Prod.mk.injEq]
  constructor <;> split_ifs <;> omega

/-- The `[min, max]` fold of the source computes the componentwise min/max
folds. -/
lemma foldl_findMinMaxNum (l : List Cube) (p : ℤ × ℤ) :
    l.foldl (fun acc c => findMinMaxNum acc c.x) p =
      (l.foldl (fun a c => min a c.x) p.1, l.foldl (fun a c => max a c.x) p.2) := by
  induction l generalizing p with
  | nil => rfl
  | cons d t ih =>
    rw [List.foldl_cons, ih, findMinMaxNum_eq]
    rfl

lemma foldl_min_swap (l : List Cube) (a b : ℤ) :
    l.foldl (fun x c => min x c.x) (min a b) =
      min a (l.foldl (fun x c => min x c.x) b) := by
  induction l generalizing b with
  | nil => rfl
  | cons d t ih => simp only [List.foldl_cons, min_assoc, ih]

lemma foldl_max_swap (l : List Cube) (a b : ℤ) :
    l.foldl (fun x c => max x c.x) (max a b) =
      max a (l.foldl (fun x c => max x c.x) b) := by
  induction l generalizing b with
  | nil => rfl
  | cons d t ih => simp only [List.foldl_cons, max_assoc, ih]

lemma foldl_min_le (l : List Cube) (a : ℤ) :
    l.foldl (fun x c => min x c.x) a ≤ a := by
  induction l generalizing a with
  | nil => exact le_refl a
  | cons d t ih => exact le_trans (ih _) (min_le_left _ _)

lemma le_foldl_max (l : List Cube) (a : ℤ) :
    a ≤ l.foldl (fun x c => max x c.x) a := by
  induction l generalizing a with
  | nil => exact le_refl a
  | cons d t ih => exact le_trans (le_max_left _ _) (ih _)

/-- The true minimum of the `x` coordinates of a non-empty cell list (the
value for `[]` is irrelevant and chosen as the fold seed of the source). -/
def minXOf : List Cube → ℤ
  | [] => Constants.GRID_WIDTH
  | c :: t => t.foldl (fun a d => min a d.x) c.x

/-- The true maximum of the `x` coordinates of a non-empty cell list. -/
def maxXOf : List Cube → ℤ
  | [] => -1
  | c :: t => t.foldl (fun a d => max a d.x) c.x

lemma foldl_min_init (l : List Cube) (a : ℤ) :
    l.foldl (fun x c => min x c.x) a = if l = [] then a else min a (minXOf l) := by
  cases l with
  | nil => rfl
  | cons c t =>
    simp only [List.foldl_cons, minXOf, reduceCtorEq, if_false]
    exact foldl_min_swap t a c.x

lemma foldl_max_init (l : List Cube) (a : ℤ) :
    l.foldl (fun x c => max x c.x) a = if l = [] then a else max a (maxXOf l) := by
  cases l with
  | nil => rfl
  | cons c t =>
    simp only [List.foldl_cons, maxXOf, reduceCtorEq, if_false]
    exact foldl_max_swap t a c.x

lemma minXOf_le_maxXOf (l : List Cube) (h : l ≠ []) : minXOf l ≤ maxXOf l := by
  cases l with
  | nil => exact absurd rfl h
  | cons c t =>
    exact le_trans (foldl_min_le t c.x) (le_foldl_max t c.x)

/-!
## Claim C3 — rotation with wall kick

What the claim describes, written from its own words: rotate every cell by
`(rx,ry) ↦ (-ry,rx)` about cell 0, kick horizontally using the *true*
min/max of the rotated xs, and reject (returning the pre-rotation piece)
exactly when the kicked piece still collides (`isColliding` of §4.3, which
includes the floor).  This matches the code for every non-empty, non-yellow
piece.  The claim however says "for every state": the code exempts the
yellow square (and the empty piece) from rotation entirely, so on a yellow
square the claimed rotate-then-kick result differs from the code's no-op.
-/

/-- The rotation operation exactly as claim C3 words it (no exemptions):
per-cell pivot rotation, wall kick from the min/max of the rotated cells,
collision-rejection of the corrected piece. -/
def claimRotate (s : State) : List Cube :=
  let pivot : ℤ × ℤ := ((head0 s.currentCubes).x, (head0 s.currentCubes).y)
  let rotated := s.currentCubes.map fun cube =>
    { x := pivot.1 + -(cube.y - pivot.2), y := pivot.2 + (cube.x - pivot.1),
      colour := cube.colour, id := cube.id : Cube }
  let minX := minXOf rotated
  let maxX := maxXOf rotated
  let shift : ℤ :=
    if minX < 0 then -minX
    else if maxX ≥ Constants.GRID_WIDTH then -(maxX - Constants.GRID_WIDTH + 1)
    else 0
  let corrected := generateNewCubes rotated shift 0
  if specIsColliding corrected s.mainGridCubes then s.currentCubes else corrected

/-- C3 (counterexample): on a yellow square (away from walls, empty settled
grid) the code returns the state unchanged, while the claimed
rotation-for-every-state would move the square's cells. -/
theorem claim3_cex :
    Rotate.apply { initialState 0 with currentCubes := createYellowTetromino 4 5 "c" } =
      { initialState 0 with currentCubes := createYellowTetromino 4 5 "c" } ∧
    (Rotate.apply { initialState 0 with
        currentCubes := createYellowTetromino 4 5 "c" }).currentCubes ≠
      claimRotate { initialState 0 with currentCubes := createYellowTetromino 4 5 "c" } := by
  decide

/-- C3 (amended): for the empty piece and the yellow square, `Rotate` is a
no-op returning the state unchanged; for every other piece it implements
exactly the claim's pivot rotation, wall kick (computed from the true
min/max of the rotated cells) and all-or-nothing collision rejection, while
touching nothing but the active piece and the render hint. -/
theorem claim3_thm (s : State) :
    (s.currentCubes = [] ∨ (head0 s.currentCubes).colour = Colour.yellow →
      Rotate.apply s = s) ∧
    (s.currentCubes ≠ [] → (head0 s.currentCubes).colour ≠ Colour.yellow →
      (Rotate.apply s).currentCubes = claimRotate s ∧
      (Rotate.apply s).mainGridCubes = s.mainGridCubes ∧
      (Rotate.apply s).updateGrid = false) := by
  constructor
  · intro h
    have hcond : s.currentCubes.length = 0 ∨ (head0 s.currentCubes).colour = Colour.yellow := by
      rcases h with h | h
      · exact Or.inl (by rw [h]; rfl)
      · exact Or.inr h
    rw [Rotate.apply, if_pos hcond]
  · intro hne hy
    have hcond : ¬(s.currentCubes.length = 0 ∨
        (head0 s.currentCubes).colour = Colour.yellow) := by
      simp [List.length_eq_zero, hne, hy]
    refine ⟨?_, ?_, ?_⟩
    · unfold Rotate.apply
      rw [if_neg hcond]
      simp only [claimRotate, calculateRotation]
      rw [foldl_findMinMaxNum]
      set piv : ℤ × ℤ := ((head0 s.currentCubes).x, (head0 s.currentCubes).y) with hpiv
      set rotated := s.currentCubes.map fun cube =>
        ({ x := piv.1 + -(cube.y - piv.2), y := piv.2 + (cube.x - piv.1),
           colour := cube.colour, id := cube.id } : Cube) with hrot
      have hrne : rotated ≠ [] := by
        rw [hrot]
        simpa using hne
      rw [foldl_min_init, foldl_max_init, if_neg hrne, if_neg hrne]
      have hmM : minXOf rotated ≤ maxXOf rotated := minXOf_le_maxXOf rotated hrne
      have hsh :
          (if (min (Constants.GRID_WIDTH, (-1 : ℤ)).1 (minXOf rotated)) < 0 then
              -(min (Constants.GRID_WIDTH, (-1 : ℤ)).1 (minXOf rotated))
            else if (max (Constants.GRID_WIDTH, (-1 : ℤ)).2 (maxXOf rotated)) ≥
                Constants.GRID_WIDTH then
              Constants.GRID_WIDTH -
                max (Constants.GRID_WIDTH, (-1 : ℤ)).2 (maxXOf rotated) - 1
            else 0) =
          (if minXOf rotated < 0 then -minXOf rotated
            else if maxXOf rotated ≥ Constants.GRID_WIDTH then
              -(maxXOf rotated - Constants.GRID_WIDTH + 1)
            else 0) := by
        simp only [Constants.GRID_WIDTH, min_def, max_def]
        split_ifs <;> omega
      rw [hsh]
      apply if_congr _ rfl rfl
      rw [show (Tetris.isCollide _ = true) ↔ _ from isCollide_iff _]
    · unfold Rotate.apply
      rw [if_neg hcond]
    · unfold Rotate.apply
      rw [if_neg hcond]

/-- C3 (witness): the amended theorem applied at a purple piece (both
hypotheses discharged) and at the empty piece. -/
theorem claim3_witness :
    (Rotate.apply { initialState 0 with
        currentCubes := createPurpleTetromino 4 5 "c" }).currentCubes =
      claimRotate { initialState 0 with currentCubes := createPurpleTetromino 4 5 "c" } ∧
    Rotate.apply (initialState 0) = initialState 0 :=
  ⟨((claim3_thm { initialState 0 with
      currentCubes := createPurpleTetromino 4 5 "c" }).2
        (by decide) (by decide)).1,
   (claim3_thm (initialState 0)).1 (Or.inl rfl)⟩

/-!
## Claim C2 — HardDrop

Mirror definitions (`hardDropHighs`, `hardDropLows`, `hardDropRelativeY`,
`hardDropNewCubes`, `hardDropMerged`, `hardDropLines`, `hardDropFinal`)
restate the internals of `HardDrop.apply` as named definitions; they are
definitionally equal to the inline lets of the action (`hardDrop_apply_eq`
is proved by `rfl`).  The claim-side definitions (`columnBottom`,
`claimColumnDist`, `claimDropDistance`, `claimDropped`, `claimMerged`,
`claimLines`, `claimFinal`) follow the claim's words.

Two discrepancies against the claim as stated:
* the code's drop distance is capped at `GRID_HEIGHT = 20` by the fold seed,
  so a flat cyan piece at the spawn row (bottom `y = -2`, free-fall distance
  21 to the floor) is hard-dropped only 20 rows and comes to rest hovering
  one row above the floor;
* the code folds over *every* column of the `[minX, maxX]` x-range, not only
  the occupied ones, so a piece with a gap column is stopped by settled
  cells under the gap.
With the distance corrected to `min(GRID_HEIGHT, claimed minimum)` and the
piece assumed column-contiguous, within x-bounds and at `y ≥ MAIN_GRID_Y`
(true of every real tetromino), the claimed behaviour — including the
post-landing pipeline being the same `convertTo2D`/`findLinesToClear`/
`clearLines` path `GameTick` uses, and the render hint being forced true —
holds as a full characterisation of the resulting state.
-/


def zminOf : List ℤ → ℤ
  | [] => Constants.GRID_HEIGHT
  | y :: t => t.foldl min y

lemma zfoldl_min_swap (l : List ℤ) (a b : ℤ) :
    l.foldl min (min a b) = min a (l.foldl min b) := by
  induction l generalizing b with
  | nil => rfl
  | cons d t ih => simp only [List.foldl_cons, min_assoc, ih]

lemma zfoldl_min_init (l : List ℤ) (a : ℤ) :
    l.foldl min a = if l = [] then a else min a (zminOf l) := by
  cases l with
  | nil => rfl
  | cons c t =>
    simp only [List.foldl_cons, zminOf, reduceCtorEq, if_false]
    exact zfoldl_min_swap t a c

lemma zfoldl_min_le (l : List ℤ) (a : ℤ) : l.foldl min a ≤ a := by
  induction l generalizing a with
  | nil => exact le_refl a
  | cons d t ih => exact le_trans (ih _) (min_le_left _ _)

lemma zfoldl_min_le_mem (l : List ℤ) (a : ℤ) : ∀ x ∈ l, l.foldl min a ≤ x := by
  induction l generalizing a with
  | nil => intro x hx; cases hx
  | cons d t ih =>
    intro x hx
    rcases List.mem_cons.mp hx with rfl | hx
    · exact le_trans (zfoldl_min_le t _) (min_le_right _ _)
    · exact ih _ x hx

lemma zfoldl_min_mem (l : List ℤ) (a : ℤ) : l.foldl min a = a ∨ l.foldl min a ∈ l := by
  induction l generalizing a with
  | nil => exact Or.inl rfl
  | cons d t ih =>
    rcases ih (min a d) with h | h
    · rw [List.foldl_cons, h]
      rcases le_or_lt a d with had | had
      · exact Or.inl (min_eq_left had)
      · right
        rw [min_eq_right had.le]
        exact List.mem_cons_self d t
    · exact Or.inr (List.mem_cons_of_mem d h)

lemma zfoldl_min_set_eq (A B : List ℤ) (d : ℤ) (h : ∀ x, x ∈ A ↔ x ∈ B) :
    A.foldl min d = B.foldl min d := by
  apply le_antisymm
  · rcases zfoldl_min_mem B d with hB | hB
    · rw [hB]; exact zfoldl_min_le A d
    · exact zfoldl_min_le_mem A d _ ((h _).mpr hB)
  · rcases zfoldl_min_mem A d with hA | hA
    · rw [hA]; exact zfoldl_min_le B d
    · exact zfoldl_min_le_mem B d _ ((h _).mp hA)

lemma foldl_if_min {α : Type} (l : List α) (f : α → ℤ) (a : ℤ) :
    l.foldl (fun acc p => if f p < acc then f p else acc) a = (l.map f).foldl min a := by
  induction l generalizing a with
  | nil => rfl
  | cons c t ih =>
    simp only [List.foldl_cons, List.map_cons, ih]
    congr 1
    simp only [min_def]
    split_ifs <;> omega

lemma foldl_if_max (l : List Cube) (a : ℤ) :
    l.foldl (fun acc c => if c.y > acc then c.y else acc) a = (l.map Cube.y).foldl max a := by
  induction l generalizing a with
  | nil => rfl
  | cons c t ih =>
    simp only [List.foldl_cons, List.map_cons, ih]
    congr 1
    simp only [max_def]
    split_ifs <;> omega

lemma mem_range_iff (a b x : ℤ) : x ∈ range a b ↔ a ≤ x ∧ x ≤ b := by
  unfold range
  rw [List.mem_map]
  constructor
  · rintro ⟨i, hi, rfl⟩
    rw [List.mem_range] at hi
    omega
  · rintro ⟨h1, h2⟩
    refine ⟨(x - a).toNat, ?_, ?_⟩
    · rw [List.mem_range]
      omega
    · omega

lemma range_get? (a b : ℤ) (i : ℕ) (h : (i : ℤ) ≤ b - a) :
    (range a b).get? i = some (a + i) := by
  unfold range
  rw [List.get?_eq_getElem?, List.getElem?_map,
    List.getElem?_range (by omega : i < (b - a + 1).toNat)]
  rfl



def zmaxOf : List ℤ → ℤ
  | [] => Constants.MAIN_GRID_Y
  | y :: t => t.foldl max y

lemma zfoldl_max_swap (l : List ℤ) (a b : ℤ) :
    l.foldl max (max a b) = max a (l.foldl max b) := by
  induction l generalizing b with
  | nil => rfl
  | cons d t ih => simp only [List.foldl_cons, max_assoc, ih]

lemma zfoldl_max_init (l : List ℤ) (a : ℤ) :
    l.foldl max a = if l = [] then a else max a (zmaxOf l) := by
  cases l with
  | nil => rfl
  | cons c t =>
    simp only [List.foldl_cons, zmaxOf, reduceCtorEq, if_false]
    exact zfoldl_max_swap t a c

lemma le_zfoldl_max (l : List ℤ) (a : ℤ) : a ≤ l.foldl max a := by
  induction l generalizing a with
  | nil => exact le_refl a
  | cons d t ih => exact le_trans (le_max_left _ _) (ih _)

lemma foldl_minx_attained (t : List Cube) (a : ℤ) :
    t.foldl (fun x d => min x d.x) a = a ∨
      ∃ c ∈ t, t.foldl (fun x d => min x d.x) a = c.x := by
  induction t generalizing a with
  | nil => exact Or.inl rfl
  | cons d t ih =>
    rw [List.foldl_cons]
    rcases ih (min a d.x) with h | ⟨c, hc, hcx⟩
    · rw [h]
      rcases le_or_lt a d.x with had | had
      · exact Or.inl (min_eq_left had)
      · exact Or.inr ⟨d, List.mem_cons_self d t, min_eq_right had.le⟩
    · exact Or.inr ⟨c, List.mem_cons_of_mem d hc, hcx⟩

lemma foldl_maxx_attained (t : List Cube) (a : ℤ) :
    t.foldl (fun x d => max x d.x) a = a ∨
      ∃ c ∈ t, t.foldl (fun x d => max x d.x) a = c.x := by
  induction t generalizing a with
  | nil => exact Or.inl rfl
  | cons d t ih =>
    rw [List.foldl_cons]
    rcases ih (max a d.x) with h | ⟨c, hc, hcx⟩
    · rw [h]
      rcases le_or_lt d.x a with had | had
      · exact Or.inl (max_eq_left had)
      · exact Or.inr ⟨d, List.mem_cons_self d t, max_eq_right had.le⟩
    · exact Or.inr ⟨c, List.mem_cons_of_mem d hc, hcx⟩

lemma minXOf_attained (l : List Cube) (h : l ≠ []) : ∃ c ∈ l, minXOf l = c.x := by
  cases l with
  | nil => exact absurd rfl h
  | cons c t =>
    simp only [minXOf]
    rcases foldl_minx_attained t c.x with h0 | ⟨c1, hc1, hx⟩
    · exact ⟨c, List.mem_cons_self c t, h0⟩
    · exact ⟨c1, List.mem_cons_of_mem c hc1, hx⟩

lemma maxXOf_attained (l : List Cube) (h : l ≠ []) : ∃ c ∈ l, maxXOf l = c.x := by
  cases l with
  | nil => exact absurd rfl h
  | cons c t =>
    simp only [maxXOf]
    rcases foldl_maxx_attained t c.x with h0 | ⟨c1, hc1, hx⟩
    · exact ⟨c, List.mem_cons_self c t, h0⟩
    · exact ⟨c1, List.mem_cons_of_mem c hc1, hx⟩

lemma foldl_minx_le_mem (t : List Cube) (a : ℤ) :
    ∀ c ∈ t, t.foldl (fun x d => min x d.x) a ≤ c.x := by
  induction t generalizing a with
  | nil => intro c hc; cases hc
  | cons d t ih =>
    intro c hc
    rw [List.foldl_cons]
    rcases List.mem_cons.mp hc with rfl | hc
    · exact le_trans (foldl_min_le t _) (min_le_right _ _)
    · exact ih _ c hc

lemma foldl_maxx_ge_mem (t : List Cube) (a : ℤ) :
    ∀ c ∈ t, c.x ≤ t.foldl (fun x d => max x d.x) a := by
  induction t generalizing a with
  | nil => intro c hc; cases hc
  | cons d t ih =>
    intro c hc
    rw [List.foldl_cons]
    rcases List.mem_cons.mp hc with rfl | hc
    · exact le_trans (le_max_right _ _) (le_foldl_max t _)
    · exact ih _ c hc

lemma minXOf_le_mem (l : List Cube) : ∀ c ∈ l, minXOf l ≤ c.x := by
  cases l with
  | nil => intro c hc; cases hc
  | cons c0 t =>
    intro c hc
    simp only [minXOf]
    rcases List.mem_cons.mp hc with rfl | hc
    · exact foldl_min_le t c.x
    · exact foldl_minx_le_mem t c0.x c hc

lemma mem_le_maxXOf (l : List Cube) : ∀ c ∈ l, c.x ≤ maxXOf l := by
  cases l with
  | nil => intro c hc; cases hc
  | cons c0 t =>
    intro c hc
    simp only [maxXOf]
    rcases List.mem_cons.mp hc with rfl | hc
    · exact le_foldl_max t c.x
    · exact foldl_maxx_ge_mem t c0.x c hc



def hardDropHighs (s : State) (minX maxX : ℤ) : List ℤ :=
  ((range minX maxX).map fun x =>
    s.currentCubes.filter fun cube => decide (cube.x = x)).map fun cubeArr =>
      cubeArr.foldl (fun acc c => if c.y > acc then c.y else acc) Constants.MAIN_GRID_Y

def hardDropLows (s : State) (minX maxX : ℤ) : List ℤ :=
  ((range minX maxX).map fun x =>
    s.mainGridCubes.filter fun cube => decide (cube.x = x)).map fun cubeArr =>
      cubeArr.foldl
        (fun acc c =>
          match jsIndex? (hardDropHighs s minX maxX) (c.x - minX) with
          | some h => if c.y < acc ∧ c.y > h then c.y else acc
          | none => acc)
        Constants.GRID_HEIGHT

def hardDropRelativeY (s : State) : ℤ :=
  let mm := s.currentCubes.foldl (fun acc c => findMinMaxNum acc c.x)
    (Constants.GRID_WIDTH, -1)
  ((hardDropLows s mm.1 mm.2).zip (hardDropHighs s mm.1 mm.2)).foldl
    (fun acc p => let newY := p.1 - p.2 - 1; if newY < acc then newY else acc)
    Constants.GRID_HEIGHT

def hardDropNewCubes (s : State) : List Cube :=
  generateNewCubes s.currentCubes 0 (hardDropRelativeY s) true

def hardDropMerged (s : State) : List Cube := s.mainGridCubes ++ hardDropNewCubes s

def hardDropLines (s : State) : List ℤ := findLinesToClear (convertTo2D (hardDropMerged s))

def hardDropFinal (s : State) : List Cube :=
  if 0 < (hardDropLines s).length then (hardDropLines s).foldl clearLines (hardDropMerged s)
  else hardDropMerged s

lemma hardDrop_apply_eq (s : State) :
    HardDrop.apply s =
      { s with
        currentCubes :=
          generateTetromino (findIndexByColour (head0 s.previewGridCubes).colour)
            Constants.MAIN_GRID_X Constants.MAIN_GRID_Y "c"
        mainGridCubes := if s.gameEnd then s.mainGridCubes else hardDropFinal s
        previousMainGridCubes := s.mainGridCubes
        previewGridCubes :=
          generateTetromino (RNG.scale s.rng)
            Constants.PREVIEW_GRID_X Constants.PREVIEW_GRID_Y "p"
        holdOnCooldown := false
        updateGrid := true
        rng := RNG.hash s.rng
        level := Int.fdiv (s.score + ((hardDropLines s).length : ℤ) * 100)
          Constants.MAX_SCORE_PER_LEVEL + 1
        score := s.score + ((hardDropLines s).length : ℤ) * 100
        linesCleared := s.linesCleared + ((hardDropLines s).length : ℤ)
        highScore :=
          if s.highScore < s.score + ((hardDropLines s).length : ℤ) * 100 then
            s.score + ((hardDropLines s).length : ℤ) * 100
          else s.highScore
        gameEnd :=
          decide (0 < ((hardDropFinal s).filter fun cube => decide (cube.y < 0)).length) } :=
  rfl



/-- The lowest cell (largest `y`) of the piece in column `x`, as claim C2
describes it (only used for occupied columns). -/
def columnBottom (piece : List Cube) (x : ℤ) : ℤ :=
  zmaxOf ((piece.filter fun c => decide (c.x = x)).map Cube.y)

/-- The free-fall distance of the piece in column `x`, as claim C2 words
it: the maximum distance before hitting either the floor `y = GRID_HEIGHT`
or the highest settled cell in the column lying strictly below the piece's
lowest cell there. -/
def claimColumnDist (s : State) (x : ℤ) : ℤ :=
  let b := columnBottom s.currentCubes x
  let floorDist := Constants.GRID_HEIGHT - 1 - b
  match (s.mainGridCubes.filter fun c => decide (c.x = x ∧ b < c.y)).map Cube.y with
  | [] => floorDist
  | y :: t => min floorDist (t.foldl min y - 1 - b)

/-- The drop distance claim C2 asserts: the minimum of the per-column
free-fall distances over the piece's occupied columns. -/
def claimDropDistance (s : State) : ℤ :=
  match ((s.currentCubes.map Cube.x).dedup).map (claimColumnDist s) with
  | [] => Constants.GRID_HEIGHT
  | d :: t => t.foldl min d

lemma foldl_stop (l : List Cube) (b acc : ℤ) :
    l.foldl (fun a c => if c.y < a ∧ c.y > b then c.y else a) acc =
      ((l.filter fun c => decide (b < c.y)).map Cube.y).foldl min acc := by
  induction l generalizing acc with
  | nil => rfl
  | cons c t ih =>
    rw [List.foldl_cons]
    by_cases hb : b < c.y
    · have hfil : (c :: t).filter (fun c => decide (b < c.y)) =
        c :: t.filter (fun c => decide (b < c.y)) := by
        rw [List.filter_cons_of_pos (by simpa using hb)]
      rw [hfil, List.map_cons, List.foldl_cons, ← ih]
      congr 1
      simp only [min_def]
      split_ifs <;> omega
    · have hfil : (c :: t).filter (fun c => decide (b < c.y)) =
        t.filter (fun c => decide (b < c.y)) := by
        rw [List.filter_cons_of_neg (by simpa using hb)]
      rw [hfil, ← ih]
      congr 1
      have : ¬ (c.y < acc ∧ c.y > b) := fun h => hb h.2
      rw [if_neg this]



lemma jsIndex?_range_map (f : ℤ → ℤ) (a b x : ℤ) (hax : a ≤ x) (hxb : x ≤ b) :
    jsIndex? ((range a b).map f) (x - a) = some (f x) := by
  unfold jsIndex?
  rw [if_pos (by omega : (0 : ℤ) ≤ x - a)]
  rw [List.get?_eq_getElem?, List.getElem?_map]
  unfold range
  rw [List.getElem?_map,
    List.getElem?_range (by omega : (x - a).toNat < (b - a + 1).toNat)]
  simp only [Option.map_some']
  congr 2
  omega

lemma hardDropHighs_eq (s : State) (tm tM : ℤ)
    (hocc : ∀ x : ℤ, tm ≤ x → x ≤ tM → ∃ c ∈ s.currentCubes, c.x = x)
    (h3 : ∀ c ∈ s.currentCubes, Constants.MAIN_GRID_Y ≤ c.y) :
    hardDropHighs s tm tM = (range tm tM).map fun x => columnBottom s.currentCubes x := by
  unfold hardDropHighs
  rw [List.map_map]
  apply List.map_congr_left
  intro x hx
  rw [mem_range_iff] at hx
  show (s.currentCubes.filter fun cube => decide (cube.x = x)).foldl
      (fun acc c => if c.y > acc then c.y else acc) Constants.MAIN_GRID_Y =
    columnBottom s.currentCubes x
  rw [foldl_if_max, zfoldl_max_init]
  obtain ⟨c, hc, hcx⟩ := hocc x hx.1 hx.2
  have hmem : c ∈ s.currentCubes.filter fun cube => decide (cube.x = x) :=
    List.mem_filter.mpr ⟨hc, by simpa using hcx⟩
  have hne : (s.currentCubes.filter fun cube => decide (cube.x = x)).map Cube.y ≠ [] := by
    intro hnil
    rw [List.map_eq_nil_iff] at hnil
    rw [hnil] at hmem
    cases hmem
  rw [if_neg hne]
  rw [columnBottom]
  rcases hys : (s.currentCubes.filter fun cube => decide (cube.x = x)).map Cube.y with _ | ⟨y, t⟩
  · exact absurd hys hne
  · have hy3 : Constants.MAIN_GRID_Y ≤ y := by
      have : y ∈ (s.currentCubes.filter fun cube => decide (cube.x = x)).map Cube.y := by
        rw [hys]; exact List.mem_cons_self y t
      obtain ⟨c', hc', hcy⟩ := List.mem_map.mp this
      exact hcy ▸ h3 c' (List.mem_filter.mp hc').1
    rw [hys]
    show max Constants.MAIN_GRID_Y (zmaxOf (y :: t)) = zmaxOf (y :: t)
    apply max_eq_right
    exact le_trans hy3 (le_zfoldl_max t y)

/-- The value computed for a column by the lows fold: the least settled `y`
strictly below the column bottom, floored at `GRID_HEIGHT`. -/
def stopVal (s : State) (x : ℤ) : ℤ :=
  ((s.mainGridCubes.filter fun c =>
      decide (c.x = x ∧ columnBottom s.currentCubes x < c.y)).map Cube.y).foldl min
    Constants.GRID_HEIGHT

lemma hardDropLows_eq (s : State) (tm tM : ℤ)
    (hocc : ∀ x : ℤ, tm ≤ x → x ≤ tM → ∃ c ∈ s.currentCubes, c.x = x)
    (h3 : ∀ c ∈ s.currentCubes, Constants.MAIN_GRID_Y ≤ c.y) :
    hardDropLows s tm tM = (range tm tM).map fun x => stopVal s x := by
  unfold hardDropLows
  rw [List.map_map]
  apply List.map_congr_left
  intro x hx
  have hx' := (mem_range_iff tm tM x).mp hx
  show (s.mainGridCubes.filter fun cube => decide (cube.x = x)).foldl _ Constants.GRID_HEIGHT
    = stopVal s x
  have hstep : ∀ a : ℤ, ∀ c ∈ (s.mainGridCubes.filter fun cube => decide (cube.x = x)),
      (match jsIndex? (hardDropHighs s tm tM) (c.x - tm) with
        | some h => if c.y < a ∧ c.y > h then c.y else a
        | none => a) =
      (if c.y < a ∧ c.y > columnBottom s.currentCubes x then c.y else a) := by
    intro a c hc
    have hcx : c.x = x := by
      have := (List.mem_filter.mp hc).2
      simpa using this
    rw [hcx, hardDropHighs_eq s tm tM hocc h3, jsIndex?_range_map _ tm tM x hx'.1 hx'.2]
  rw [List.foldl_ext _
    (fun a c => if c.y < a ∧ c.y > columnBottom s.currentCubes x then c.y else a)
    Constants.GRID_HEIGHT hstep]
  rw [foldl_stop, List.filter_filter]
  rw [stopVal]
  congr 2
  apply List.filter_congr
  intro c _
  rw [Bool.decide_and, Bool.and_comm]



lemma stopVal_sub_eq (s : State) (x : ℤ) :
    stopVal s x - columnBottom s.currentCubes x - 1 = claimColumnDist s x := by
  rw [stopVal]
  simp only [claimColumnDist]
  rcases hys : (s.mainGridCubes.filter fun c =>
      decide (c.x = x ∧ columnBottom s.currentCubes x < c.y)).map Cube.y with _ | ⟨y, t⟩ <;>
    rw [hys]
  · show ([] : List ℤ).foldl min Constants.GRID_HEIGHT - columnBottom s.currentCubes x - 1 =
      Constants.GRID_HEIGHT - 1 - columnBottom s.currentCubes x
    simp only [List.foldl_nil]
    omega
  · rw [zfoldl_min_init, if_neg (by simp : (y :: t : List ℤ) ≠ [])]
    show min Constants.GRID_HEIGHT (zminOf (y :: t)) - columnBottom s.currentCubes x - 1 =
      min (Constants.GRID_HEIGHT - 1 - columnBottom s.currentCubes x)
        (t.foldl min y - 1 - columnBottom s.currentCubes x)
    unfold zminOf
    simp only [min_def]
    split_ifs <;> omega

lemma foldl_zipstep (l : List (ℤ × ℤ)) (a : ℤ) :
    l.foldl (fun acc p => let newY := p.1 - p.2 - 1; if newY < acc then newY else acc) a =
      (l.map fun p => p.1 - p.2 - 1).foldl min a := by
  induction l generalizing a with
  | nil => rfl
  | cons c t ih =>
    simp only [List.foldl_cons, List.map_cons, ih]
    congr 1
    simp only [min_def]
    split_ifs <;> omega

lemma hardDropRelativeY_eq (s : State) (h1 : s.currentCubes ≠ [])
    (h2 : ∀ x : ℤ, minXOf s.currentCubes ≤ x → x ≤ maxXOf s.currentCubes →
      ∃ c ∈ s.currentCubes, c.x = x)
    (h3 : ∀ c ∈ s.currentCubes, Constants.MAIN_GRID_Y ≤ c.y)
    (h4 : ∀ c ∈ s.currentCubes, 0 ≤ c.x ∧ c.x < Constants.GRID_WIDTH) :
    hardDropRelativeY s = min Constants.GRID_HEIGHT (claimDropDistance s) := by
  obtain ⟨cm, hcm, hcmx⟩ := minXOf_attained s.currentCubes h1
  obtain ⟨cM, hcM, hcMx⟩ := maxXOf_attained s.currentCubes h1
  have htm : min Constants.GRID_WIDTH (minXOf s.currentCubes) =
      minXOf s.currentCubes := by
    apply min_eq_right
    have h9 := (h4 cm hcm).2
    rw [hcmx]
    unfold Constants.GRID_WIDTH at h9 ⊢
    omega
  have htM : max (-1 : ℤ) (maxXOf s.currentCubes) = maxXOf s.currentCubes := by
    apply max_eq_right
    have h0 := (h4 cM hcM).1
    rw [hcMx]
    omega
  unfold hardDropRelativeY
  rw [foldl_findMinMaxNum]
  dsimp only
  rw [foldl_min_init, foldl_max_init, if_neg h1, if_neg h1, htm, htM]
  rw [hardDropLows_eq s _ _ h2 h3, hardDropHighs_eq s _ _ h2 h3]
  rw [List.zip_map', foldl_zipstep, List.map_map]
  have hcong : ∀ x ∈ range (minXOf s.currentCubes) (maxXOf s.currentCubes),
      ((fun p : ℤ × ℤ => p.1 - p.2 - 1) ∘ fun x => (stopVal s x, columnBottom s.currentCubes x)) x =
        claimColumnDist s x := by
    intro x _
    exact stopVal_sub_eq s x
  rw [List.map_congr_left hcong]
  have hsets : ∀ v : ℤ,
      v ∈ (range (minXOf s.currentCubes) (maxXOf s.currentCubes)).map (claimColumnDist s) ↔
        v ∈ ((s.currentCubes.map Cube.x).dedup).map (claimColumnDist s) := by
    intro v
    rw [List.mem_map, List.mem_map]
    constructor
    · rintro ⟨x, hx, rfl⟩
      rw [mem_range_iff] at hx
      obtain ⟨c, hc, hcx⟩ := h2 x hx.1 hx.2
      exact ⟨x, List.mem_dedup.mpr (List.mem_map.mpr ⟨c, hc, hcx⟩), rfl⟩
    · rintro ⟨x, hx, rfl⟩
      obtain ⟨c, hc, hcx⟩ := List.mem_map.mp (List.mem_dedup.mp hx)
      refine ⟨x, (mem_range_iff _ _ x).mpr ⟨?_, ?_⟩, rfl⟩
      · exact hcx ▸ minXOf_le_mem s.currentCubes c hc
      · exact hcx ▸ mem_le_maxXOf s.currentCubes c hc
  rw [zfoldl_min_set_eq _ _ Constants.GRID_HEIGHT hsets]
  have hdne : ((s.currentCubes.map Cube.x).dedup).map (claimColumnDist s) ≠ [] := by
    intro hnil
    rw [List.map_eq_nil_iff, List.dedup_eq_nil, List.map_eq_nil_iff] at hnil
    exact h1 hnil
  rw [zfoldl_min_init, if_neg hdne]
  have hcd : claimDropDistance s =
      zminOf (((s.currentCubes.map Cube.x).dedup).map (claimColumnDist s)) := by
    unfold claimDropDistance zminOf
    rcases ((s.currentCubes.map Cube.x).dedup).map (claimColumnDist s) with _ | ⟨d, t⟩
    · rfl
    · rfl
  rw [hcd]



def claimDropped (s : State) : List Cube :=
  generateNewCubes s.currentCubes 0 (min Constants.GRID_HEIGHT (claimDropDistance s)) true

def claimMerged (s : State) : List Cube := s.mainGridCubes ++ claimDropped s

def claimLines (s : State) : List ℤ := findLinesToClear (convertTo2D (claimMerged s))

def claimFinal (s : State) : List Cube :=
  if 0 < (claimLines s).length then (claimLines s).foldl clearLines (claimMerged s)
  else claimMerged s

theorem claim2_thm (s : State) (h1 : s.currentCubes ≠ [])
    (h2 : ∀ x : ℤ, minXOf s.currentCubes ≤ x → x ≤ maxXOf s.currentCubes →
      ∃ c ∈ s.currentCubes, c.x = x)
    (h3 : ∀ c ∈ s.currentCubes, Constants.MAIN_GRID_Y ≤ c.y)
    (h4 : ∀ c ∈ s.currentCubes, 0 ≤ c.x ∧ c.x < Constants.GRID_WIDTH) :
    hardDropRelativeY s = min Constants.GRID_HEIGHT (claimDropDistance s) ∧
    HardDrop.apply s =
      { s with
        currentCubes :=
          generateTetromino (findIndexByColour (head0 s.previewGridCubes).colour)
            Constants.MAIN_GRID_X Constants.MAIN_GRID_Y "c"
        mainGridCubes := if s.gameEnd then s.mainGridCubes else claimFinal s
        previousMainGridCubes := s.mainGridCubes
        previewGridCubes :=
          generateTetromino (RNG.scale s.rng)
            Constants.PREVIEW_GRID_X Constants.PREVIEW_GRID_Y "p"
        holdOnCooldown := false
        updateGrid := true
        rng := RNG.hash s.rng
        level := Int.fdiv (s.score + ((claimLines s).length : ℤ) * 100)
          Constants.MAX_SCORE_PER_LEVEL + 1
        score := s.score + ((claimLines s).length : ℤ) * 100
        linesCleared := s.linesCleared + ((claimLines s).length : ℤ)
        highScore :=
          if s.highScore < s.score + ((claimLines s).length : ℤ) * 100 then
            s.score + ((claimLines s).length : ℤ) * 100
          else s.highScore
        gameEnd :=
          decide (0 < ((claimFinal s).filter fun cube => decide (cube.y < 0)).length) } := by
  have hrel := hardDropRelativeY_eq s h1 h2 h3 h4
  have hnc : hardDropNewCubes s = claimDropped s := by
    unfold hardDropNewCubes claimDropped
    rw [hrel]
  have hmg : hardDropMerged s = claimMerged s := by
    unfold hardDropMerged claimMerged
    rw [hnc]
  have hlin : hardDropLines s = claimLines s := by
    unfold hardDropLines claimLines
    rw [hmg]
  have hfin : hardDropFinal s = claimFinal s := by
    unfold hardDropFinal claimFinal
    rw [hmg, hlin]
  refine ⟨hrel, ?_⟩
  rw [hardDrop_apply_eq, hlin, hfin]

theorem claim2_cex :
    claimDropDistance { initialState 0 with
      currentCubes := createCyanTetromino 4 (-2) "c" } = 21 ∧
    hardDropRelativeY { initialState 0 with
      currentCubes := createCyanTetromino 4 (-2) "c" } = 20 ∧
    (∀ c ∈ (HardDrop.apply { initialState 0 with
        currentCubes := createCyanTetromino 4 (-2) "c" }).mainGridCubes, c.y ≠ 19) ∧
    (∃ c ∈ (HardDrop.apply { initialState 0 with
        currentCubes := createCyanTetromino 4 (-2) "c" }).mainGridCubes, c.y = 18) ∧
    hardDropRelativeY { initialState 0 with
      currentCubes := [⟨0, 0, Colour.cyan, "a"⟩, ⟨2, 0, Colour.cyan, "b"⟩],
      mainGridCubes := [⟨1, 5, Colour.red, "m"⟩] } = 6 ∧
    min Constants.GRID_HEIGHT (claimDropDistance { initialState 0 with
      currentCubes := [⟨0, 0, Colour.cyan, "a"⟩, ⟨2, 0, Colour.cyan, "b"⟩],
      mainGridCubes := [⟨1, 5, Colour.red, "m"⟩] }) = 19 := by
  decide

theorem claim2_witness :
    hardDropRelativeY { initialState 0 with
        currentCubes := createPurpleTetromino 4 5 "c" } =
      min Constants.GRID_HEIGHT (claimDropDistance { initialState 0 with
        currentCubes := createPurpleTetromino 4 5 "c" }) :=
  (claim2_thm { initialState 0 with currentCubes := createPurpleTetromino 4 5 "c" }
    (by decide)
    (by
      intro x hx1 hx2
      have e1 : minXOf ({ initialState 0 with
          currentCubes := createPurpleTetromino 4 5 "c" } : State).currentCubes = 3 := by
        decide
      have e2 : maxXOf ({ initialState 0 with
          currentCubes := createPurpleTetromino 4 5 "c" } : State).currentCubes = 5 := by
        decide
      rw [e1] at hx1
      rw [e2] at hx2
      interval_cases x
      · exact ⟨⟨3, 6, Colour.purple, "c3"⟩, by decide, rfl⟩
      · exact ⟨⟨4, 6, Colour.purple, "c1"⟩, by decide, rfl⟩
      · exact ⟨⟨5, 6, Colour.purple, "c2"⟩, by decide, rfl⟩)
    (by decide) (by decide)).1


/-!
## Claim C4 — row clearing

`convertTo2D` is characterised row-by-row (`convertTo2D_eq`): row `i` of the
materialised grid is exactly the settled cells with `y = i`, in order.  A
row index is in `findLinesToClear` exactly when its row holds `GRID_WIDTH`
cells (`mem_findLinesToClear`), and the returned indices are strictly
ascending (`sorted_findLinesToClear`).  `clearLines` removes the cleared
row, shifts every cell above (`y < line`) down one row with its identity
recomputed (`shiftCube`), and copies the cells below unchanged
(`clearLines_mem`); it removes exactly `GRID_WIDTH` cells when the row is
full (`clearLines_length`), preserves coordinate-distinctness
(`clearLines_pairwiseCoords`), and left-folding it over the ascending
full-row indices collapses all of them (`clear_fold`).
-/


/-- No two cells share a coordinate. -/
def PairwiseCoords (l : List Cube) : Prop :=
  l.Pairwise fun a b => a.x ≠ b.x ∨ a.y ≠ b.y

instance PairwiseCoords.decidable (l : List Cube) : Decidable (PairwiseCoords l) := by
  unfold PairwiseCoords; infer_instance

/-- The cells of `l` lying on row `y`, in order. -/
def rowAt (l : List Cube) (y : ℤ) : List Cube := l.filter fun c => decide (c.y = y)

lemma convertTo2D_step_getElem? (g : List (List Cube)) (c : Cube) (i : ℕ) :
    (g.enum.map fun p => if (p.1 : ℤ) = c.y then p.2 ++ [c] else p.2)[i]? =
      (g[i]?).map fun row => if (i : ℤ) = c.y then row ++ [c] else row := by
  rw [List.getElem?_map, List.getElem?_enum]
  cases g[i]? with
  | none => rfl
  | some row => rfl

lemma convertTo2D_foldl_getElem? (l : List Cube) (g : List (List Cube)) (i : ℕ) :
    (l.foldl
      (fun grid cube =>
        grid.enum.map fun p => if (p.1 : ℤ) = cube.y then p.2 ++ [cube] else p.2) g)[i]? =
      (g[i]?).map fun row => row ++ rowAt l (i : ℤ) := by
  induction l generalizing g with
  | nil =>
    rw [List.foldl_nil]
    cases g[i]? with
    | none => rfl
    | some row => simp [rowAt]
  | cons c t ih =>
    rw [List.foldl_cons, ih, convertTo2D_step_getElem?]
    cases g[i]? with
    | none => rfl
    | some row =>
      simp only [Option.map_some', Option.some.injEq]
      unfold rowAt
      by_cases hc : c.y = (i : ℤ)
      · rw [List.filter_cons_of_pos (by simpa using hc), if_pos hc.symm]
        rw [List.append_assoc]
        rfl
      · rw [List.filter_cons_of_neg (by simpa using hc),
          if_neg (fun h => hc h.symm)]

lemma convertTo2D_getElem? (l : List Cube) (i : ℕ) :
    (convertTo2D l)[i]? = if i < 20 then some (rowAt l (i : ℤ)) else none := by
  unfold convertTo2D
  rw [convertTo2D_foldl_getElem?]
  by_cases hi : i < 20
  · rw [List.getElem?_replicate]
    show (if i < Constants.GRID_HEIGHT.toNat then some [] else none).map _ = _
    rw [if_pos (by simpa [Constants.GRID_HEIGHT] using hi), if_pos hi]
    simp
  · rw [List.getElem?_replicate]
    show (if i < Constants.GRID_HEIGHT.toNat then some [] else none).map _ = _
    rw [if_neg (by simpa [Constants.GRID_HEIGHT] using hi), if_neg hi]
    rfl

lemma convertTo2D_eq (l : List Cube) :
    convertTo2D l = (List.range 20).map fun (i : ℕ) => rowAt l (i : ℤ) := by
  apply List.ext_getElem?
  intro i
  rw [convertTo2D_getElem?, List.getElem?_map]
  by_cases hi : i < 20
  · rw [if_pos hi, List.getElem?_range hi]
    rfl
  · rw [if_neg hi, List.getElem?_eq_none (by simpa using not_lt.mp hi)]
    rfl



lemma rowAt_cons (c : Cube) (t : List Cube) (y : ℤ) :
    rowAt (c :: t) y = if c.y = y then c :: rowAt t y else rowAt t y := by
  unfold rowAt
  by_cases h : c.y = y
  · rw [List.filter_cons_of_pos (by simpa using h), if_pos h]
  · rw [List.filter_cons_of_neg (by simpa using h), if_neg h]

lemma findLinesToClear_convertTo2D (l : List Cube) :
    findLinesToClear (convertTo2D l) =
      ((List.range 20).map fun (i : ℕ) =>
        if (rowAt l (i : ℤ)).length = 10 then (i : ℤ) else -1).filter
          fun r => decide (r ≠ -1) := by
  rw [convertTo2D_eq]
  unfold findLinesToClear
  rw [List.map_map]
  congr 1
  apply List.map_congr_left
  intro i _
  show (match rowAt l (i : ℤ) with
    | [] => (-1 : ℤ)
    | cube :: _ =>
      if ((rowAt l (i : ℤ)).length : ℤ) = Constants.GRID_WIDTH then cube.y else -1) =
    if (rowAt l (i : ℤ)).length = 10 then (i : ℤ) else -1
  rcases hrow : rowAt l (i : ℤ) with _ | ⟨c, t⟩
  · rw [if_neg (by decide)]
  · have hcy : c.y = (i : ℤ) := by
      have hc : c ∈ rowAt l (i : ℤ) := by rw [hrow]; exact List.mem_cons_self c t
      have := (List.mem_filter.mp hc).2
      simpa using this
    show (if ((c :: t).length : ℤ) = Constants.GRID_WIDTH then c.y else -1) =
      if (c :: t).length = 10 then (i : ℤ) else -1
    by_cases hlen : (c :: t).length = 10
    · rw [if_pos (by rw [hlen]; decide), if_pos hlen, hcy]
    · rw [if_neg (by unfold Constants.GRID_WIDTH; exact_mod_cast hlen), if_neg hlen]

lemma mem_findLinesToClear (l : List Cube) (y : ℤ) :
    y ∈ findLinesToClear (convertTo2D l) ↔
      0 ≤ y ∧ y < 20 ∧ (rowAt l y).length = 10 := by
  rw [findLinesToClear_convertTo2D]
  rw [List.mem_filter, List.mem_map]
  constructor
  · rintro ⟨⟨i, hi, hval⟩, hne⟩
    rw [List.mem_range] at hi
    rw [decide_eq_true_eq] at hne
    by_cases hlen : (rowAt l (i : ℤ)).length = 10
    · rw [if_pos hlen] at hval
      subst hval
      exact ⟨by omega, by omega, hlen⟩
    · rw [if_neg hlen] at hval
      exact absurd hval.symm hne
  · rintro ⟨h0, h20, hlen⟩
    refine ⟨⟨y.toNat, ?_, ?_⟩, by simp only [decide_eq_true_eq]; omega⟩
    · rw [List.mem_range]
      omega
    · rw [show ((y.toNat : ℤ)) = y by omega, if_pos hlen]

lemma sorted_findLinesToClear (l : List Cube) :
    List.Pairwise (· < ·) (findLinesToClear (convertTo2D l)) := by
  rw [findLinesToClear_convertTo2D]
  rw [List.pairwise_filter, List.pairwise_map]
  apply (List.pairwise_lt_range 20).imp
  intro i j hij
  intro hi hj
  split_ifs at hi hj ⊢ <;> omega

/-- The per-cell shift of `clearLines`: one row down, identity recomputed
from the new coordinates. -/
def shiftCube (c : Cube) : Cube :=
  { c with y := c.y + 1, id := "x" ++ toString c.x ++ "y" ++ toString (c.y + 1) }

lemma clearLines_cons (c : Cube) (t : List Cube) (line : ℤ) :
    clearLines (c :: t) line =
      if c.y = line then clearLines t line
      else (if c.y ≤ line then shiftCube c else c) :: clearLines t line := by
  unfold clearLines
  by_cases h : c.y = line
  · rw [List.filter_cons_of_neg (by simpa using h), if_pos h]
  · rw [List.filter_cons_of_pos (by simpa using h), List.map_cons, if_neg h]
    rfl

lemma clearLines_length (l : List Cube) (line : ℤ) :
    (clearLines l line).length + (rowAt l line).length = l.length := by
  induction l with
  | nil => rfl
  | cons c t ih =>
    rw [clearLines_cons, rowAt_cons]
    by_cases h : c.y = line
    · rw [if_pos h, if_pos h]
      simp only [List.length_cons]
      omega
    · rw [if_neg h, if_neg h]
      simp only [List.length_cons]
      omega

lemma clearLines_pairwiseCoords (l : List Cube) (line : ℤ) (h : PairwiseCoords l) :
    PairwiseCoords (clearLines l line) := by
  unfold PairwiseCoords at h ⊢
  unfold clearLines
  rw [List.pairwise_map]
  have hfil : (l.filter fun c => decide (c.y ≠ line)).Pairwise
      fun a b => a.x ≠ b.x ∨ a.y ≠ b.y :=
    h.sublist (List.filter_sublist l)
  apply hfil.imp_of_mem
  intro a b ha hb hab
  have hay : a.y ≠ line := by
    have := (List.mem_filter.mp ha).2
    simpa using this
  have hby : b.y ≠ line := by
    have := (List.mem_filter.mp hb).2
    simpa using this
  have hxproj : ∀ u : Cube,
      (if u.y ≤ line then
        ({ x := u.x, y := u.y + 1, colour := u.colour,
           id := "x" ++ toString u.x ++ "y" ++ toString (u.y + 1) } : Cube)
      else u).x = u.x := by
    intro u
    split_ifs <;> rfl
  have hyproj : ∀ u : Cube,
      (if u.y ≤ line then
        ({ x := u.x, y := u.y + 1, colour := u.colour,
           id := "x" ++ toString u.x ++ "y" ++ toString (u.y + 1) } : Cube)
      else u).y = if u.y ≤ line then u.y + 1 else u.y := by
    intro u
    split_ifs <;> rfl
  rcases hab with hx | hy
  · left
    rw [hxproj, hxproj]
    exact hx
  · right
    rw [hyproj, hyproj]
    split_ifs <;> omega

lemma rowAt_clearLines_gt (l : List Cube) (line y : ℤ) (h : line < y) :
    rowAt (clearLines l line) y = rowAt l y := by
  induction l with
  | nil => rfl
  | cons c t ih =>
    rw [clearLines_cons, rowAt_cons]
    by_cases h1 : c.y = line
    · rw [if_pos h1, if_neg (by omega), ih]
    · rw [if_neg h1]
      by_cases h2 : c.y ≤ line
      · rw [if_pos h2, rowAt_cons, if_neg (by simp [shiftCube]; omega),
          if_neg (by omega), ih]
      · rw [if_neg h2, rowAt_cons]
        by_cases h3 : c.y = y
        · rw [if_pos h3, if_pos h3, ih]
        · rw [if_neg h3, if_neg h3, ih]

lemma clearLines_mem (l : List Cube) (line : ℤ) (d : Cube) :
    d ∈ clearLines l line ↔
      (∃ c ∈ l, c.y < line ∧ d = shiftCube c) ∨ (∃ c ∈ l, line < c.y ∧ d = c) := by
  unfold clearLines
  rw [List.mem_map]
  constructor
  · rintro ⟨c, hc, rfl⟩
    obtain ⟨hcl, hne⟩ := List.mem_filter.mp hc
    rw [decide_eq_true_eq] at hne
    by_cases hy : c.y ≤ line
    · left
      exact ⟨c, hcl, lt_of_le_of_ne hy hne, by rw [if_pos hy]; rfl⟩
    · right
      exact ⟨c, hcl, not_le.mp hy, by rw [if_neg hy]⟩
  · rintro (⟨c, hc, hlt, rfl⟩ | ⟨c, hc, hlt, rfl⟩)
    · refine ⟨c, List.mem_filter.mpr ⟨hc, by simp only [decide_eq_true_eq]; omega⟩, ?_⟩
      rw [if_pos hlt.le]
      rfl
    · refine ⟨d, List.mem_filter.mpr ⟨hc, by simp only [decide_eq_true_eq]; omega⟩, ?_⟩
      rw [if_neg (not_le.mpr hlt)]

lemma clear_fold (lines : List ℤ) : ∀ grid : List Cube,
    List.Pairwise (· < ·) lines → PairwiseCoords grid →
    (∀ l ∈ lines, (rowAt grid l).length = 10) →
    (lines.foldl clearLines grid).length + 10 * lines.length = grid.length ∧
    PairwiseCoords (lines.foldl clearLines grid) := by
  induction lines with
  | nil =>
    intro grid _ hnd _
    exact ⟨by simp, hnd⟩
  | cons l0 rest ih =>
    intro grid hp hnd hrows
    have h10 := hrows l0 (List.mem_cons_self l0 rest)
    have hlen := clearLines_length grid l0
    have hnd' := clearLines_pairwiseCoords grid l0 hnd
    have hrows' : ∀ l ∈ rest, (rowAt (clearLines grid l0) l).length = 10 := by
      intro l hl
      rw [rowAt_clearLines_gt grid l0 l ((List.pairwise_cons.mp hp).1 l hl)]
      exact hrows l (List.mem_cons_of_mem l0 hl)
    obtain ⟨ihlen, ihnd⟩ :=
      ih (clearLines grid l0) (List.pairwise_cons.mp hp).2 hnd' hrows'
    rw [List.foldl_cons]
    refine ⟨?_, ihnd⟩
    simp only [List.length_cons]
    omega


theorem claim4_thm (settled : List Cube) (hnd : PairwiseCoords settled) (y0 : ℤ)
    (hfull : y0 ∈ findLinesToClear (convertTo2D settled)) :
    (∀ d : Cube, d ∈ clearLines settled y0 ↔
      (∃ c ∈ settled, c.y < y0 ∧ d = shiftCube c) ∨
      (∃ c ∈ settled, y0 < c.y ∧ d = c)) ∧
    (clearLines settled y0).length + 10 = settled.length ∧
    PairwiseCoords (clearLines settled y0) ∧
    ((findLinesToClear (convertTo2D settled)).foldl clearLines settled).length +
      10 * (findLinesToClear (convertTo2D settled)).length = settled.length ∧
    PairwiseCoords ((findLinesToClear (convertTo2D settled)).foldl clearLines settled) := by
  obtain ⟨h0, h20, hlen⟩ := (mem_findLinesToClear settled y0).mp hfull
  have hfold := clear_fold (findLinesToClear (convertTo2D settled)) settled
    (sorted_findLinesToClear settled) hnd
    (fun l hl => ((mem_findLinesToClear settled l).mp hl).2.2)
  refine ⟨clearLines_mem settled y0, ?_,
    clearLines_pairwiseCoords settled y0 hnd, hfold.1, hfold.2⟩
  have hcl := clearLines_length settled y0
  omega

theorem claim4_witness :
    (clearLines ((List.range 10).map fun (i : ℕ) =>
        (⟨(i : ℤ), 19, Colour.red, "w"⟩ : Cube)) 19).length + 10 =
      ((List.range 10).map fun (i : ℕ) => (⟨(i : ℤ), 19, Colour.red, "w"⟩ : Cube)).length ∧
    PairwiseCoords (clearLines ((List.range 10).map fun (i : ℕ) =>
      (⟨(i : ℤ), 19, Colour.red, "w"⟩ : Cube)) 19) :=
  ⟨(claim4_thm ((List.range 10).map fun (i : ℕ) =>
      (⟨(i : ℤ), 19, Colour.red, "w"⟩ : Cube)) (by decide) 19 (by decide)).2.1,
   (claim4_thm ((List.range 10).map fun (i : ℕ) =>
      (⟨(i : ℤ), 19, Colour.red, "w"⟩ : Cube)) (by decide) 19 (by decide)).2.2.1⟩


end Tetris

namespace Tetris

inductive CleanReach (seed : ℤ) : State → Prop where
  | init : CleanReach seed (initialState seed)
  | step {s : State} (a : Action) :
      CleanReach seed s → s.gameEnd = false → CleanReach seed (applyAction a s)

lemma reach_foldl (seed : ℤ) (acts : List Action) (s : State) (h : Reach seed s) :
    Reach seed (acts.foldl (fun t a => applyAction a t) s) := by
  induction acts generalizing s with
  | nil => exact h
  | cons a t ih => exact ih (applyAction a s) (h.step a)

/-- The 53-action script that drives seed 1745162's all-cyan opening into a
game over (a flat cyan resting on a full-height column at `y = -1`) and then,
during the game over, hard-drops the next piece into the one empty column of
the bottom row: the phantom merge completes row 19, the phantom clear shifts
the `y = -1` cells to `y = 0`, and `gameEnd` is recomputed as false while the
*real* settled grid still holds the `y = -1` cells. -/
def flipTrace : List Action :=
  ([.hardDrop] : List Action) ++
  (List.replicate 5
    ([.rotate, .moveRight, .moveRight, .moveRight, .moveRight, .moveRight,
      .hardDrop] : List Action)).flatten ++
  [.moveLeft, .moveLeft, .moveLeft, .moveDown, .hardDrop] ++
  [.moveRight, .moveRight, .moveDown, .hardDrop] ++
  [.moveRight, .moveRight, .moveRight, .hardDrop] ++
  [.rotate, .rotate, .rotate, .hardDrop]

def flipState : State :=
  flipTrace.foldl (fun t a => applyAction a t) (initialState 1745162)

set_option maxRecDepth 200000 in
/-- C7 (counterexample): a reachable state whose settled grid holds cells at
`y = -1` while `gameEnd` is false.  (After a game over, a `HardDrop`
recomputes `gameEnd` from a phantom merge-and-clear of the falling piece
into the frozen grid; a line clear there shifts the `y = -1` cells to
non-negative rows and flips `gameEnd` back to false, while `mainGridCubes`
is left untouched.) -/
theorem claim7_cex :
    Reach 1745162 flipState ∧
    flipState.gameEnd = false ∧
    ∃ c ∈ flipState.mainGridCubes, c.y < 0 :=
  ⟨reach_foldl 1745162 flipTrace (initialState 1745162) Reach.init,
   by decide, by decide⟩


/-! ### C7 invariant: predicates -/

/-- Every cell's `x` lies on the board. -/
def XBounds (l : List Cube) : Prop :=
  ∀ c ∈ l, 0 ≤ c.x ∧ c.x < Constants.GRID_WIDTH

/-- Any two cells of the piece are within 3 of each other in both axes
(true of every tetromino and preserved by the engine's piece motions). -/
def SpanOK (l : List Cube) : Prop :=
  ∀ c1 ∈ l, ∀ c2 ∈ l, c1.x - c2.x ≤ 3 ∧ c1.y - c2.y ≤ 3

/-- Columns of the piece are vertically contiguous. -/
def ColContig (l : List Cube) : Prop :=
  ∀ c1 ∈ l, ∀ c2 ∈ l, ∀ y : ℤ, c1.x = c2.x → c1.y ≤ y → y ≤ c2.y →
    ∃ c ∈ l, c.x = c1.x ∧ c.y = y

/-- Rows of the piece are horizontally contiguous. -/
def RowContig (l : List Cube) : Prop :=
  ∀ c1 ∈ l, ∀ c2 ∈ l, ∀ x : ℤ, c1.y = c2.y → c1.x ≤ x → x ≤ c2.x →
    ∃ c ∈ l, c.y = c1.y ∧ c.x = x

/-- Every column of the piece's `[minX, maxX]` range is occupied. -/
def XProj (l : List Cube) : Prop :=
  ∀ x : ℤ, minXOf l ≤ x → x ≤ maxXOf l → ∃ c ∈ l, c.x = x

/-- The true minimum of the `y` coordinates of a non-empty cell list. -/
def minYOf : List Cube → ℤ
  | [] => 0
  | c :: t => t.foldl (fun a d => min a d.y) c.y

/-- The true maximum of the `y` coordinates of a non-empty cell list. -/
def maxYOf : List Cube → ℤ
  | [] => -1
  | c :: t => t.foldl (fun a d => max a d.y) c.y

/-- Every row of the piece's `[minY, maxY]` range is occupied. -/
def YProj (l : List Cube) : Prop :=
  ∀ y : ℤ, minYOf l ≤ y → y ≤ maxYOf l → ∃ c ∈ l, c.y = y

/-- The settled grid of an in-play state: coordinate-distinct cells, all on
the board vertically, and no full row left uncleared. -/
def SettledOK (settled : List Cube) : Prop :=
  PairwiseCoords settled ∧
  (∀ c ∈ settled, 0 ≤ c.y ∧ c.y < Constants.GRID_HEIGHT) ∧
  findLinesToClear (convertTo2D settled) = []

/-- The active piece of an in-play state: coordinate-distinct, disjoint from
the settled grid, contiguous per column and per row, with full projections
onto both axes, above the floor, and at most four cells. -/
def PieceOK (cur settled : List Cube) : Prop :=
  PairwiseCoords cur ∧
  (∀ c ∈ cur, ∀ m ∈ settled, c.x ≠ m.x ∨ c.y ≠ m.y) ∧
  ColContig cur ∧ RowContig cur ∧ XProj cur ∧ YProj cur ∧
  (∀ c ∈ cur, c.y < Constants.GRID_HEIGHT) ∧
  cur.length ≤ 4

/-- The part of the invariant that holds of *every* reachable state, game
over or not: horizontal bounds of both cell sets and the piece's span. -/
def XInv (s : State) : Prop :=
  XBounds s.mainGridCubes ∧ XBounds s.currentCubes ∧ SpanOK s.currentCubes

/-- The full invariant of in-play (`gameEnd = false`) states. -/
def CleanInv (s : State) : Prop :=
  SettledOK s.mainGridCubes ∧ PieceOK s.currentCubes s.mainGridCubes

/-! ### C7: small fold and list facts -/

lemma zfoldl_min_ge (l : List ℤ) (a t : ℤ) (ha : t ≤ a) (hl : ∀ x ∈ l, t ≤ x) :
    t ≤ l.foldl min a := by
  induction l generalizing a with
  | nil => exact ha
  | cons d r ih =>
    exact ih _ (le_min ha (hl d (List.mem_cons_self d r)))
      (fun x hx => hl x (List.mem_cons_of_mem d hx))

lemma zfoldl_max_ge_mem (l : List ℤ) (a : ℤ) : ∀ x ∈ l, x ≤ l.foldl max a := by
  induction l generalizing a with
  | nil => intro x hx; cases hx
  | cons d r ih =>
    intro x hx
    rcases List.mem_cons.mp hx with rfl | hx
    · exact le_trans (le_max_right _ _) (le_zfoldl_max r _)
    · exact ih _ x hx

lemma zfoldl_max_mem (l : List ℤ) (a : ℤ) :
    l.foldl max a = a ∨ l.foldl max a ∈ l := by
  induction l generalizing a with
  | nil => exact Or.inl rfl
  | cons d t ih =>
    rcases ih (max a d) with h | h
    · rw [List.foldl_cons, h]
      rcases le_or_lt d a with had | had
      · exact Or.inl (max_eq_left had)
      · right
        rw [max_eq_right had.le]
        exact List.mem_cons_self d t
    · exact Or.inr (List.mem_cons_of_mem d h)

lemma zmaxOf_attained (l : List ℤ) (h : l ≠ []) : zmaxOf l ∈ l := by
  cases l with
  | nil => exact absurd rfl h
  | cons y t =>
    show t.foldl max y ∈ y :: t
    rcases zfoldl_max_mem t y with h1 | h1
    · rw [h1]
      exact List.mem_cons_self y t
    · exact List.mem_cons_of_mem y h1

lemma mem_le_zmaxOf (l : List ℤ) : ∀ x ∈ l, x ≤ zmaxOf l := by
  cases l with
  | nil => intro x hx; cases hx
  | cons y t =>
    intro x hx
    show x ≤ t.foldl max y
    rcases List.mem_cons.mp hx with rfl | hx
    · exact le_zfoldl_max t x
    · exact zfoldl_max_ge_mem t y x hx

lemma foldl_miny_attained (t : List Cube) (a : ℤ) :
    t.foldl (fun y d => min y d.y) a = a ∨
      ∃ c ∈ t, t.foldl (fun y d => min y d.y) a = c.y := by
  induction t generalizing a with
  | nil => exact Or.inl rfl
  | cons d t ih =>
    rw [List.foldl_cons]
    rcases ih (min a d.y) with h | ⟨c, hc, hcy⟩
    · rw [h]
      rcases le_or_lt a d.y with had | had
      · exact Or.inl (min_eq_left had)
      · exact Or.inr ⟨d, List.mem_cons_self d t, min_eq_right had.le⟩
    · exact Or.inr ⟨c, List.mem_cons_of_mem d hc, hcy⟩

lemma foldl_maxy_attained (t : List Cube) (a : ℤ) :
    t.foldl (fun y d => max y d.y) a = a ∨
      ∃ c ∈ t, t.foldl (fun y d => max y d.y) a = c.y := by
  induction t generalizing a with
  | nil => exact Or.inl rfl
  | cons d t ih =>
    rw [List.foldl_cons]
    rcases ih (max a d.y) with h | ⟨c, hc, hcy⟩
    · rw [h]
      rcases le_or_lt d.y a with had | had
      · exact Or.inl (max_eq_left had)
      · exact Or.inr ⟨d, List.mem_cons_self d t, max_eq_right had.le⟩
    · exact Or.inr ⟨c, List.mem_cons_of_mem d hc, hcy⟩

lemma foldl_miny_le (l : List Cube) (a : ℤ) :
    l.foldl (fun y c => min y c.y) a ≤ a := by
  induction l generalizing a with
  | nil => exact le_refl a
  | cons d t ih => exact le_trans (ih _) (min_le_left _ _)

lemma le_foldl_maxy (l : List Cube) (a : ℤ) :
    a ≤ l.foldl (fun y c => max y c.y) a := by
  induction l generalizing a with
  | nil => exact le_refl a
  | cons d t ih => exact le_trans (le_max_left _ _) (ih _)

lemma foldl_miny_le_mem (t : List Cube) (a : ℤ) :
    ∀ c ∈ t, t.foldl (fun y d => min y d.y) a ≤ c.y := by
  induction t generalizing a with
  | nil => intro c hc; cases hc
  | cons d t ih =>
    intro c hc
    rw [List.foldl_cons]
    rcases List.mem_cons.mp hc with rfl | hc
    · exact le_trans (foldl_miny_le t _) (min_le_right _ _)
    · exact ih _ c hc

lemma foldl_maxy_ge_mem (t : List Cube) (a : ℤ) :
    ∀ c ∈ t, c.y ≤ t.foldl (fun y d => max y d.y) a := by
  induction t generalizing a with
  | nil => intro c hc; cases hc
  | cons d t ih =>
    intro c hc
    rw [List.foldl_cons]
    rcases List.mem_cons.mp hc with rfl | hc
    · exact le_trans (le_max_right _ _) (le_foldl_maxy t _)
    · exact ih _ c hc

lemma minYOf_attained (l : List Cube) (h : l ≠ []) : ∃ c ∈ l, minYOf l = c.y := by
  cases l with
  | nil => exact absurd rfl h
  | cons c t =>
    simp only [minYOf]
    rcases foldl_miny_attained t c.y with h0 | ⟨c1, hc1, hy⟩
    · exact ⟨c, List.mem_cons_self c t, h0⟩
    · exact ⟨c1, List.mem_cons_of_mem c hc1, hy⟩

lemma maxYOf_attained (l : List Cube) (h : l ≠ []) : ∃ c ∈ l, maxYOf l = c.y := by
  cases l with
  | nil => exact absurd rfl h
  | cons c t =>
    simp only [maxYOf]
    rcases foldl_maxy_attained t c.y with h0 | ⟨c1, hc1, hy⟩
    · exact ⟨c, List.mem_cons_self c t, h0⟩
    · exact ⟨c1, List.mem_cons_of_mem c hc1, hy⟩

lemma minYOf_le_mem (l : List Cube) : ∀ c ∈ l, minYOf l ≤ c.y := by
  cases l with
  | nil => intro c hc; cases hc
  | cons c0 t =>
    intro c hc
    simp only [minYOf]
    rcases List.mem_cons.mp hc with rfl | hc
    · exact foldl_miny_le t c.y
    · exact foldl_miny_le_mem t c0.y c hc

lemma mem_le_maxYOf (l : List Cube) : ∀ c ∈ l, c.y ≤ maxYOf l := by
  cases l with
  | nil => intro c hc; cases hc
  | cons c0 t =>
    intro c hc
    simp only [maxYOf]
    rcases List.mem_cons.mp hc with rfl | hc
    · exact le_foldl_maxy t c.y
    · exact foldl_maxy_ge_mem t c0.y c hc

lemma isOutOfBound_eq_false (s : State) :
    isOutOfBound s = false ↔
      ∀ c ∈ s.currentCubes,
        0 ≤ c.x ∧ c.x < Constants.GRID_WIDTH ∧ c.y < Constants.GRID_HEIGHT := by
  rw [isOutOfBound, decide_eq_false_iff_not, length_filter_pos]
  constructor
  · intro h c hc
    by_contra hcon
    apply h
    refine ⟨c, hc, ?_⟩
    simp only [Bool.or_eq_true, decide_eq_true_eq]
    unfold Constants.GRID_WIDTH Constants.GRID_HEIGHT at hcon ⊢
    omega
  · rintro h ⟨c, hc, hp⟩
    have h1 := h c hc
    simp only [Bool.or_eq_true, decide_eq_true_eq] at hp
    unfold Constants.GRID_WIDTH Constants.GRID_HEIGHT at h1 hp
    omega

lemma isCollide_eq_false (s : State) :
    isCollide s = false ↔
      ∀ c ∈ s.currentCubes,
        (∀ m ∈ s.mainGridCubes, m.x ≠ c.x ∨ m.y ≠ c.y) ∧
          c.y < Constants.GRID_HEIGHT := by
  rw [isCollide, decide_eq_false_iff_not, length_filter_pos]
  constructor
  · intro h c hc
    constructor
    · intro m hm
      by_contra hcon
      push_neg at hcon
      apply h
      refine ⟨c, hc, ?_⟩
      simp only [Bool.or_eq_true, decide_eq_true_eq]
      left
      rw [length_filter_pos]
      refine ⟨m, hm, ?_⟩
      simp only [Bool.and_eq_true, beq_iff_eq]
      exact ⟨hcon.1, hcon.2⟩
    · by_contra hcon
      push_neg at hcon
      exact h ⟨c, hc, by
        simp only [Bool.or_eq_true, decide_eq_true_eq]
        right
        exact hcon⟩
  · rintro h ⟨c, hc, hp⟩
    simp only [Bool.or_eq_true, decide_eq_true_eq] at hp
    rcases hp with hov | hfl
    · rw [length_filter_pos] at hov
      obtain ⟨m, hm, hmx⟩ := hov
      simp only [Bool.and_eq_true, beq_iff_eq] at hmx
      rcases (h c hc).1 m hm with hne | hne
      · exact hne hmx.1
      · exact hne hmx.2
    · exact absurd hfl (not_le.mpr (h c hc).2)

lemma generateNewCubes_coords (l : List Cube) (dx dy : ℤ) (b : Bool) :
    ∀ d ∈ generateNewCubes l dx dy b, ∃ c ∈ l, d.x = c.x + dx ∧ d.y = c.y + dy := by
  intro d hd
  obtain ⟨c, hc, rfl⟩ := List.mem_map.mp hd
  exact ⟨c, hc, rfl, rfl⟩

lemma generateNewCubes_image (l : List Cube) (dx dy : ℤ) (b : Bool) :
    ∀ c ∈ l, ∃ d ∈ generateNewCubes l dx dy b, d.x = c.x + dx ∧ d.y = c.y + dy := by
  intro c hc
  exact ⟨_, List.mem_map_of_mem _ hc, rfl, rfl⟩

lemma generateNewCubes_length (l : List Cube) (dx dy : ℤ) (b : Bool) :
    (generateNewCubes l dx dy b).length = l.length := List.length_map l _

lemma generateNewCubes_eq_nil (l : List Cube) (dx dy : ℤ) (b : Bool)
    (h : l = []) : generateNewCubes l dx dy b = [] := by
  rw [h]; rfl

lemma pairwiseCoords_generateNewCubes (l : List Cube) (dx dy : ℤ) (b : Bool)
    (h : PairwiseCoords l) : PairwiseCoords (generateNewCubes l dx dy b) := by
  unfold PairwiseCoords at h ⊢
  unfold generateNewCubes
  rw [List.pairwise_map]
  apply h.imp
  intro a c hac
  rcases hac with hx | hy
  · left; simp only; omega
  · right; simp only; omega

lemma colContig_generateNewCubes (l : List Cube) (dx dy : ℤ) (b : Bool)
    (h : ColContig l) : ColContig (generateNewCubes l dx dy b) := by
  intro d1 h1 d2 h2 y hx hy1 hy2
  obtain ⟨c1, hc1, hx1, hy1'⟩ := generateNewCubes_coords l dx dy b d1 h1
  obtain ⟨c2, hc2, hx2, hy2'⟩ := generateNewCubes_coords l dx dy b d2 h2
  obtain ⟨c, hc, hcx, hcy⟩ := h c1 hc1 c2 hc2 (y - dy) (by omega) (by omega) (by omega)
  obtain ⟨d, hd, hdx, hdy⟩ := generateNewCubes_image l dx dy b c hc
  exact ⟨d, hd, by omega, by omega⟩

lemma rowContig_generateNewCubes (l : List Cube) (dx dy : ℤ) (b : Bool)
    (h : RowContig l) : RowContig (generateNewCubes l dx dy b) := by
  intro d1 h1 d2 h2 x hy hx1 hx2
  obtain ⟨c1, hc1, hx1', hy1'⟩ := generateNewCubes_coords l dx dy b d1 h1
  obtain ⟨c2, hc2, hx2', hy2'⟩ := generateNewCubes_coords l dx dy b d2 h2
  obtain ⟨c, hc, hcy, hcx⟩ := h c1 hc1 c2 hc2 (x - dx) (by omega) (by omega) (by omega)
  obtain ⟨d, hd, hdx, hdy⟩ := generateNewCubes_image l dx dy b c hc
  exact ⟨d, hd, by omega, by omega⟩

lemma xproj_generateNewCubes (l : List Cube) (dx dy : ℤ) (b : Bool)
    (h : XProj l) : XProj (generateNewCubes l dx dy b) := by
  intro x hx1 hx2
  by_cases hne : l = []
  · subst hne
    exfalso
    simp only [generateNewCubes, List.map_nil, minXOf, maxXOf] at hx1 hx2
    unfold Constants.GRID_WIDTH at hx1
    omega
  · have hne' : generateNewCubes l dx dy b ≠ [] := by
      intro hnil
      have hl := generateNewCubes_length l dx dy b
      rw [hnil] at hl
      have hz : l.length = 0 := by rw [← hl]; rfl
      exact hne (List.eq_nil_of_length_eq_zero hz)
    obtain ⟨d0, hd0, hd0x⟩ := minXOf_attained _ hne'
    obtain ⟨d1, hd1, hd1x⟩ := maxXOf_attained _ hne'
    obtain ⟨cm, hcm, hcmx, _⟩ := generateNewCubes_coords l dx dy b d0 hd0
    obtain ⟨cM, hcM, hcMx, _⟩ := generateNewCubes_coords l dx dy b d1 hd1
    have h1 : minXOf l ≤ x - dx := by
      have := minXOf_le_mem l cm hcm
      omega
    have h2 : x - dx ≤ maxXOf l := by
      have := mem_le_maxXOf l cM hcM
      omega
    obtain ⟨c, hc, hcx⟩ := h (x - dx) h1 h2
    obtain ⟨d, hd, hdx, _⟩ := generateNewCubes_image l dx dy b c hc
    exact ⟨d, hd, by omega⟩

lemma yproj_generateNewCubes (l : List Cube) (dx dy : ℤ) (b : Bool)
    (h : YProj l) : YProj (generateNewCubes l dx dy b) := by
  intro y hy1 hy2
  by_cases hne : l = []
  · subst hne
    exfalso
    simp only [generateNewCubes, List.map_nil, minYOf, maxYOf] at hy1 hy2
    omega
  · have hne' : generateNewCubes l dx dy b ≠ [] := by
      intro hnil
      have hl := generateNewCubes_length l dx dy b
      rw [hnil] at hl
      have hz : l.length = 0 := by rw [← hl]; rfl
      exact hne (List.eq_nil_of_length_eq_zero hz)
    obtain ⟨d0, hd0, hd0y⟩ := minYOf_attained _ hne'
    obtain ⟨d1, hd1, hd1y⟩ := maxYOf_attained _ hne'
    obtain ⟨cm, hcm, _, hcmy⟩ := generateNewCubes_coords l dx dy b d0 hd0
    obtain ⟨cM, hcM, _, hcMy⟩ := generateNewCubes_coords l dx dy b d1 hd1
    have h1 : minYOf l ≤ y - dy := by
      have := minYOf_le_mem l cm hcm
      omega
    have h2 : y - dy ≤ maxYOf l := by
      have := mem_le_maxYOf l cM hcM
      omega
    obtain ⟨c, hc, hcy⟩ := h (y - dy) h1 h2
    obtain ⟨d, hd, _, hdy⟩ := generateNewCubes_image l dx dy b c hc
    exact ⟨d, hd, by omega⟩

lemma spanOK_generateNewCubes (l : List Cube) (dx dy : ℤ) (b : Bool)
    (h : SpanOK l) : SpanOK (generateNewCubes l dx dy b) := by
  intro d1 h1 d2 h2
  obtain ⟨c1, hc1, hx1, hy1⟩ := generateNewCubes_coords l dx dy b d1 h1
  obtain ⟨c2, hc2, hx2, hy2⟩ := generateNewCubes_coords l dx dy b d2 h2
  have := h c1 hc1 c2 hc2
  omega


/-! ### C7: the line-clear pipeline -/

lemma rowAt_append (l1 l2 : List Cube) (y : ℤ) :
    rowAt (l1 ++ l2) y = rowAt l1 y ++ rowAt l2 y := by
  unfold rowAt
  exact List.filter_append _ _

lemma rowAt_clearLines_le (l : List Cube) (line y : ℤ) (h : y ≤ line) :
    rowAt (clearLines l line) y = (rowAt l (y - 1)).map shiftCube := by
  induction l with
  | nil => rfl
  | cons c t ih =>
    rw [clearLines_cons, rowAt_cons]
    by_cases h1 : c.y = line
    · rw [if_pos h1, if_neg (by omega), ih]
    · rw [if_neg h1]
      by_cases h2 : c.y ≤ line
      · rw [if_pos h2, rowAt_cons]
        by_cases h3 : c.y = y - 1
        · rw [if_pos (show (shiftCube c).y = y from by show c.y + 1 = y; omega),
            if_pos h3, List.map_cons, ih]
        · rw [if_neg (show ¬(shiftCube c).y = y from by show ¬c.y + 1 = y; omega),
            if_neg h3, ih]
      · rw [if_neg h2, rowAt_cons, if_neg (by omega), if_neg (by omega), ih]

lemma noFullRow_foldl (lines : List ℤ) : ∀ g : List Cube,
    List.Pairwise (· < ·) lines →
    (∀ l ∈ lines, 0 ≤ l ∧ l < 20) →
    (∀ y : ℤ, 0 ≤ y → y < 20 → (rowAt g y).length = 10 → y ∈ lines) →
    (∀ y : ℤ, y < 0 → (rowAt g y).length < 10) →
    ∀ y : ℤ, 0 ≤ y → y < 20 → (rowAt (lines.foldl clearLines g) y).length ≠ 10 := by
  induction lines with
  | nil =>
    intro g _ _ hfull _ y hy0 hy20 hlen
    exact absurd (hfull y hy0 hy20 hlen) (List.not_mem_nil y)
  | cons l0 rest ih =>
    intro g hp hb hfull hneg
    rw [List.foldl_cons]
    have hl0 := hb l0 (List.mem_cons_self l0 rest)
    have hrest_lt : ∀ r ∈ rest, l0 < r := (List.pairwise_cons.mp hp).1
    apply ih (clearLines g l0) (List.pairwise_cons.mp hp).2
      (fun l hl => hb l (List.mem_cons_of_mem _ hl))
    · intro y hy0 hy20 hlen
      by_cases hyl : y ≤ l0
      · rw [rowAt_clearLines_le g l0 y hyl, List.length_map] at hlen
        by_cases hy1 : 0 ≤ y - 1
        · have hmem := hfull (y - 1) hy1 (by omega) hlen
          rcases List.mem_cons.mp hmem with h1 | h1
          · exact absurd h1 (by omega)
          · exact absurd (hrest_lt _ h1) (by omega)
        · exact absurd hlen (by have := hneg (y - 1) (by omega); omega)
      · rw [rowAt_clearLines_gt g l0 y (by omega)] at hlen
        rcases List.mem_cons.mp (hfull y hy0 hy20 hlen) with h1 | h1
        · exact absurd h1 (by omega)
        · exact h1
    · intro y hy
      rw [rowAt_clearLines_le g l0 y (by omega), List.length_map]
      exact hneg (y - 1) (by omega)

lemma noFullRow_after (g : List Cube)
    (hneg : ∀ y : ℤ, y < 0 → (rowAt g y).length < 10) :
    findLinesToClear (convertTo2D
      ((findLinesToClear (convertTo2D g)).foldl clearLines g)) = [] := by
  apply List.eq_nil_iff_forall_not_mem.mpr
  intro y hy
  obtain ⟨hy0, hy20, hlen⟩ := (mem_findLinesToClear _ y).mp hy
  exact noFullRow_foldl (findLinesToClear (convertTo2D g)) g
    (sorted_findLinesToClear g)
    (fun l hl => ⟨((mem_findLinesToClear g l).mp hl).1,
      ((mem_findLinesToClear g l).mp hl).2.1⟩)
    (fun y' hy0' hy20' hfull => (mem_findLinesToClear g y').mpr ⟨hy0', hy20', hfull⟩)
    hneg y hy0 hy20 hlen

lemma foldl_clear_origin (lines : List ℤ) : ∀ g : List Cube,
    ∀ d ∈ lines.foldl clearLines g, ∃ c ∈ g, d.x = c.x ∧ c.y ≤ d.y := by
  induction lines with
  | nil => intro g d hd; exact ⟨d, hd, rfl, le_refl _⟩
  | cons l0 rest ih =>
    intro g d hd
    rw [List.foldl_cons] at hd
    obtain ⟨c', hc', hx, hy⟩ := ih (clearLines g l0) d hd
    rcases (clearLines_mem g l0 c').mp hc' with ⟨c, hc, hlt, rfl⟩ | ⟨c, hc, hlt, rfl⟩
    · refine ⟨c, hc, hx, ?_⟩
      have h1 : (shiftCube c).y = c.y + 1 := rfl
      omega
    · exact ⟨c', hc, hx, hy⟩

lemma foldl_clear_ylt (lines : List ℤ) : ∀ g : List Cube,
    (∀ l ∈ lines, l < 20) → (∀ c ∈ g, c.y < 20) →
    ∀ d ∈ lines.foldl clearLines g, d.y < 20 := by
  induction lines with
  | nil => intro g _ hg d hd; exact hg d hd
  | cons l0 rest ih =>
    intro g hl hg
    rw [List.foldl_cons]
    apply ih (clearLines g l0) (fun l hlm => hl l (List.mem_cons_of_mem _ hlm))
    intro d hd
    rcases (clearLines_mem g l0 d).mp hd with ⟨c, hc, hlt, rfl⟩ | ⟨c, hc, hgt, rfl⟩
    · have h1 : (shiftCube c).y = c.y + 1 := rfl
      have h2 := hl l0 (List.mem_cons_self _ _)
      omega
    · exact hg d hc

/-- The merge-and-clear step shared by `GameTick` and `HardDrop`: the grid
after folding `clearLines` over the detected full rows (or the grid itself
when none are full). -/
def clearFinal (g : List Cube) : List Cube :=
  if 0 < (findLinesToClear (convertTo2D g)).length then
    (findLinesToClear (convertTo2D g)).foldl clearLines g
  else g

lemma afterClear_props (g : List Cube)
    (hnd : PairwiseCoords g) (hylt : ∀ c ∈ g, c.y < 20)
    (hneg : ∀ y : ℤ, y < 0 → (rowAt g y).length < 10) :
    PairwiseCoords (clearFinal g) ∧ (∀ c ∈ clearFinal g, c.y < 20) ∧
    findLinesToClear (convertTo2D (clearFinal g)) = [] ∧
    (∀ d ∈ clearFinal g, ∃ c ∈ g, d.x = c.x ∧ c.y ≤ d.y) := by
  unfold clearFinal
  by_cases hl : 0 < (findLinesToClear (convertTo2D g)).length
  · rw [if_pos hl]
    refine ⟨?_, ?_, ?_, ?_⟩
    · exact (clear_fold (findLinesToClear (convertTo2D g)) g
        (sorted_findLinesToClear g) hnd
        (fun l hml => ((mem_findLinesToClear g l).mp hml).2.2)).2
    · exact foldl_clear_ylt _ g
        (fun l hml => ((mem_findLinesToClear g l).mp hml).2.1) hylt
    · exact noFullRow_after g hneg
    · exact foldl_clear_origin _ g
  · rw [if_neg hl]
    have hnil : findLinesToClear (convertTo2D g) = [] := by
      rcases heq : findLinesToClear (convertTo2D g) with _ | ⟨a, t⟩
      · rfl
      · rw [heq] at hl
        exact absurd (by simp) hl
    exact ⟨hnd, hylt, hnil, fun d hd => ⟨d, hd, rfl, le_refl _⟩⟩

lemma negRows_append (settled piece : List Cube)
    (hs : ∀ c ∈ settled, 0 ≤ c.y) (hp : piece.length ≤ 4) :
    ∀ y : ℤ, y < 0 → (rowAt (settled ++ piece) y).length < 10 := by
  intro y hy
  rw [rowAt_append, List.length_append]
  have h1 : rowAt settled y = [] := by
    apply List.eq_nil_iff_forall_not_mem.mpr
    intro c hc
    rw [rowAt, List.mem_filter] at hc
    have h2 := hs c hc.1
    have h3 : c.y = y := by simpa using hc.2
    omega
  have h2 : (rowAt piece y).length ≤ 4 :=
    le_trans (List.length_filter_le _ _) hp
  rw [h1]
  simp only [List.length_nil]
  omega

lemma pairwiseCoords_append (l1 l2 : List Cube) (h1 : PairwiseCoords l1)
    (h2 : PairwiseCoords l2)
    (h12 : ∀ a ∈ l1, ∀ b ∈ l2, a.x ≠ b.x ∨ a.y ≠ b.y) :
    PairwiseCoords (l1 ++ l2) := by
  unfold PairwiseCoords at *
  rw [List.pairwise_append]
  exact ⟨h1, h2, h12⟩


/-! ### C7: step characterisations of contiguity and projection -/

/-- One-step version of `ColContig`, decidable on concrete lists. -/
def ColStep (l : List Cube) : Prop :=
  ∀ c1 ∈ l, ∀ c2 ∈ l, c1.x = c2.x → c1.y < c2.y →
    ∃ c ∈ l, c.x = c1.x ∧ c.y = c1.y + 1

/-- One-step version of `RowContig`. -/
def RowStep (l : List Cube) : Prop :=
  ∀ c1 ∈ l, ∀ c2 ∈ l, c1.y = c2.y → c1.x < c2.x →
    ∃ c ∈ l, c.y = c1.y ∧ c.x = c1.x + 1

/-- One-step version of `XProj`. -/
def XStep (l : List Cube) : Prop :=
  ∀ c1 ∈ l, ∀ c2 ∈ l, c1.x < c2.x → ∃ c ∈ l, c.x = c1.x + 1

/-- One-step version of `YProj`. -/
def YStep (l : List Cube) : Prop :=
  ∀ c1 ∈ l, ∀ c2 ∈ l, c1.y < c2.y → ∃ c ∈ l, c.y = c1.y + 1

instance ColStep.decidable (l : List Cube) : Decidable (ColStep l) := by
  unfold ColStep; infer_instance

instance RowStep.decidable (l : List Cube) : Decidable (RowStep l) := by
  unfold RowStep; infer_instance

instance XStep.decidable (l : List Cube) : Decidable (XStep l) := by
  unfold XStep; infer_instance

instance YStep.decidable (l : List Cube) : Decidable (YStep l) := by
  unfold YStep; infer_instance

instance XBounds.decidable (l : List Cube) : Decidable (XBounds l) := by
  unfold XBounds; infer_instance

instance SpanOK.decidable (l : List Cube) : Decidable (SpanOK l) := by
  unfold SpanOK; infer_instance

lemma colContig_of_step (l : List Cube) (h : ColStep l) : ColContig l := by
  intro c1 h1 c2 h2 y hx hy1 hy2
  suffices H : ∀ n : ℕ, ∀ d ∈ l, d.x = c2.x → d.y ≤ y → y - d.y ≤ n →
      ∃ c ∈ l, c.x = d.x ∧ c.y = y by
    obtain ⟨c, hc, hcx, hcy⟩ := H (y - c1.y).toNat c1 h1 hx hy1 (by omega)
    exact ⟨c, hc, hcx, hcy⟩
  intro n
  induction n with
  | zero =>
    intro d hd hx' hy' hn
    exact ⟨d, hd, rfl, by omega⟩
  | succ n ih =>
    intro d hd hx' hy' hn
    by_cases heq : d.y = y
    · exact ⟨d, hd, rfl, heq⟩
    · have hlt2 : d.y < c2.y := by omega
      obtain ⟨c, hc, hcx, hcy⟩ := h d hd c2 h2 hx' hlt2
      obtain ⟨e, he, hex, hey⟩ := ih c hc (by omega) (by omega) (by omega)
      exact ⟨e, he, by omega, hey⟩

lemma rowContig_of_step (l : List Cube) (h : RowStep l) : RowContig l := by
  intro c1 h1 c2 h2 x hy hx1 hx2
  suffices H : ∀ n : ℕ, ∀ d ∈ l, d.y = c2.y → d.x ≤ x → x - d.x ≤ n →
      ∃ c ∈ l, c.y = d.y ∧ c.x = x by
    obtain ⟨c, hc, hcy, hcx⟩ := H (x - c1.x).toNat c1 h1 hy hx1 (by omega)
    exact ⟨c, hc, hcy, hcx⟩
  intro n
  induction n with
  | zero =>
    intro d hd hy' hx' hn
    exact ⟨d, hd, rfl, by omega⟩
  | succ n ih =>
    intro d hd hy' hx' hn
    by_cases heq : d.x = x
    · exact ⟨d, hd, rfl, heq⟩
    · have hlt2 : d.x < c2.x := by omega
      obtain ⟨c, hc, hcy, hcx⟩ := h d hd c2 h2 hy' hlt2
      obtain ⟨e, he, hey, hex⟩ := ih c hc (by omega) (by omega) (by omega)
      exact ⟨e, he, by omega, hex⟩

lemma xproj_of_step (l : List Cube) (h : XStep l) : XProj l := by
  intro x hx1 hx2
  by_cases hne : l = []
  · exfalso
    subst hne
    simp only [minXOf, maxXOf] at hx1 hx2
    unfold Constants.GRID_WIDTH at hx1
    omega
  · obtain ⟨cm, hcm, hcmx⟩ := minXOf_attained l hne
    obtain ⟨cM, hcM, hcMx⟩ := maxXOf_attained l hne
    suffices H : ∀ n : ℕ, ∀ d ∈ l, d.x ≤ x → x - d.x ≤ n → ∃ c ∈ l, c.x = x by
      exact H (x - cm.x).toNat cm hcm (by omega) (by omega)
    intro n
    induction n with
    | zero =>
      intro d hd hle hn
      exact ⟨d, hd, by omega⟩
    | succ n ih =>
      intro d hd hle hn
      by_cases heq : d.x = x
      · exact ⟨d, hd, heq⟩
      · have hlt : d.x < cM.x := by omega
        obtain ⟨c, hc, hcx⟩ := h d hd cM hcM hlt
        exact ih c hc (by omega) (by omega)

lemma yproj_of_step (l : List Cube) (h : YStep l) : YProj l := by
  intro y hy1 hy2
  by_cases hne : l = []
  · exfalso
    subst hne
    simp only [minYOf, maxYOf] at hy1 hy2
    omega
  · obtain ⟨cm, hcm, hcmy⟩ := minYOf_attained l hne
    obtain ⟨cM, hcM, hcMy⟩ := maxYOf_attained l hne
    suffices H : ∀ n : ℕ, ∀ d ∈ l, d.y ≤ y → y - d.y ≤ n → ∃ c ∈ l, c.y = y by
      exact H (y - cm.y).toNat cm hcm (by omega) (by omega)
    intro n
    induction n with
    | zero =>
      intro d hd hle hn
      exact ⟨d, hd, by omega⟩
    | succ n ih =>
      intro d hd hle hn
      by_cases heq : d.y = y
      · exact ⟨d, hd, heq⟩
      · have hlt : d.y < cM.y := by omega
        obtain ⟨c, hc, hcy⟩ := h d hd cM hcM hlt
        exact ih c hc (by omega) (by omega)

/-! ### C7: the spawn shapes -/

/-- The shape invariant of a freshly spawned piece. -/
def PieceShapeOK (l : List Cube) : Prop :=
  PairwiseCoords l ∧ ColContig l ∧ RowContig l ∧ XProj l ∧ YProj l ∧
  XBounds l ∧ SpanOK l ∧ (∀ c ∈ l, -2 ≤ c.y ∧ c.y < 0) ∧ l.length = 4

lemma generateTetromino_cases (idx x y : ℤ) (g : String) :
    generateTetromino idx x y g = createYellowTetromino x y g ∨
    generateTetromino idx x y g = createBlueTetromino x y g ∨
    generateTetromino idx x y g = createOrangeTetromino x y g ∨
    generateTetromino idx x y g = createRedTetromino x y g ∨
    generateTetromino idx x y g = createGreenTetromino x y g ∨
    generateTetromino idx x y g = createPurpleTetromino x y g ∨
    generateTetromino idx x y g = createCyanTetromino x y g := by
  have key : ∀ n : ℕ,
      ([createYellowTetromino, createBlueTetromino, createOrangeTetromino,
        createRedTetromino, createGreenTetromino, createPurpleTetromino,
        createCyanTetromino].getD n createYellowTetromino) x y g =
          createYellowTetromino x y g ∨
      ([createYellowTetromino, createBlueTetromino, createOrangeTetromino,
        createRedTetromino, createGreenTetromino, createPurpleTetromino,
        createCyanTetromino].getD n createYellowTetromino) x y g =
          createBlueTetromino x y g ∨
      ([createYellowTetromino, createBlueTetromino, createOrangeTetromino,
        createRedTetromino, createGreenTetromino, createPurpleTetromino,
        createCyanTetromino].getD n createYellowTetromino) x y g =
          createOrangeTetromino x y g ∨
      ([createYellowTetromino, createBlueTetromino, createOrangeTetromino,
        createRedTetromino, createGreenTetromino, createPurpleTetromino,
        createCyanTetromino].getD n createYellowTetromino) x y g =
          createRedTetromino x y g ∨
      ([createYellowTetromino, createBlueTetromino, createOrangeTetromino,
        createRedTetromino, createGreenTetromino, createPurpleTetromino,
        createCyanTetromino].getD n createYellowTetromino) x y g =
          createGreenTetromino x y g ∨
      ([createYellowTetromino, createBlueTetromino, createOrangeTetromino,
        createRedTetromino, createGreenTetromino, createPurpleTetromino,
        createCyanTetromino].getD n createYellowTetromino) x y g =
          createPurpleTetromino x y g ∨
      ([createYellowTetromino, createBlueTetromino, createOrangeTetromino,
        createRedTetromino, createGreenTetromino, createPurpleTetromino,
        createCyanTetromino].getD n createYellowTetromino) x y g =
          createCyanTetromino x y g := by
    intro n
    by_cases h7 : n < 7
    · interval_cases n
      · exact Or.inl rfl
      · exact Or.inr (Or.inl rfl)
      · exact Or.inr (Or.inr (Or.inl rfl))
      · exact Or.inr (Or.inr (Or.inr (Or.inl rfl)))
      · exact Or.inr (Or.inr (Or.inr (Or.inr (Or.inl rfl))))
      · exact Or.inr (Or.inr (Or.inr (Or.inr (Or.inr (Or.inl rfl)))))
      · exact Or.inr (Or.inr (Or.inr (Or.inr (Or.inr (Or.inr rfl)))))
    · left
      rw [List.getD_eq_default _ _ (by
        simp only [List.length_cons, List.length_nil]
        omega)]
  exact key (RNG.scale idx).toNat

lemma shapeOK_yellow (g : String) : PieceShapeOK (createYellowTetromino 4 (-2) g) :=
  ⟨of_decide_eq_true rfl, colContig_of_step _ (of_decide_eq_true rfl),
   rowContig_of_step _ (of_decide_eq_true rfl), xproj_of_step _ (of_decide_eq_true rfl),
   yproj_of_step _ (of_decide_eq_true rfl), of_decide_eq_true rfl,
   of_decide_eq_true rfl, of_decide_eq_true rfl, rfl⟩

lemma shapeOK_blue (g : String) : PieceShapeOK (createBlueTetromino 4 (-2) g) :=
  ⟨of_decide_eq_true rfl, colContig_of_step _ (of_decide_eq_true rfl),
   rowContig_of_step _ (of_decide_eq_true rfl), xproj_of_step _ (of_decide_eq_true rfl),
   yproj_of_step _ (of_decide_eq_true rfl), of_decide_eq_true rfl,
   of_decide_eq_true rfl, of_decide_eq_true rfl, rfl⟩

lemma shapeOK_orange (g : String) : PieceShapeOK (createOrangeTetromino 4 (-2) g) :=
  ⟨of_decide_eq_true rfl, colContig_of_step _ (of_decide_eq_true rfl),
   rowContig_of_step _ (of_decide_eq_true rfl), xproj_of_step _ (of_decide_eq_true rfl),
   yproj_of_step _ (of_decide_eq_true rfl), of_decide_eq_true rfl,
   of_decide_eq_true rfl, of_decide_eq_true rfl, rfl⟩

lemma shapeOK_red (g : String) : PieceShapeOK (createRedTetromino 4 (-2) g) :=
  ⟨of_decide_eq_true rfl, colContig_of_step _ (of_decide_eq_true rfl),
   rowContig_of_step _ (of_decide_eq_true rfl), xproj_of_step _ (of_decide_eq_true rfl),
   yproj_of_step _ (of_decide_eq_true rfl), of_decide_eq_true rfl,
   of_decide_eq_true rfl, of_decide_eq_true rfl, rfl⟩

lemma shapeOK_green (g : String) : PieceShapeOK (createGreenTetromino 4 (-2) g) :=
  ⟨of_decide_eq_true rfl, colContig_of_step _ (of_decide_eq_true rfl),
   rowContig_of_step _ (of_decide_eq_true rfl), xproj_of_step _ (of_decide_eq_true rfl),
   yproj_of_step _ (of_decide_eq_true rfl), of_decide_eq_true rfl,
   of_decide_eq_true rfl, of_decide_eq_true rfl, rfl⟩

lemma shapeOK_purple (g : String) : PieceShapeOK (createPurpleTetromino 4 (-2) g) :=
  ⟨of_decide_eq_true rfl, colContig_of_step _ (of_decide_eq_true rfl),
   rowContig_of_step _ (of_decide_eq_true rfl), xproj_of_step _ (of_decide_eq_true rfl),
   yproj_of_step _ (of_decide_eq_true rfl), of_decide_eq_true rfl,
   of_decide_eq_true rfl, of_decide_eq_true rfl, rfl⟩

lemma shapeOK_cyan (g : String) : PieceShapeOK (createCyanTetromino 4 (-2) g) :=
  ⟨of_decide_eq_true rfl, colContig_of_step _ (of_decide_eq_true rfl),
   rowContig_of_step _ (of_decide_eq_true rfl), xproj_of_step _ (of_decide_eq_true rfl),
   yproj_of_step _ (of_decide_eq_true rfl), of_decide_eq_true rfl,
   of_decide_eq_true rfl, of_decide_eq_true rfl, rfl⟩

lemma spawnShapeOK (idx : ℤ) (g : String) :
    PieceShapeOK
      (generateTetromino idx Constants.MAIN_GRID_X Constants.MAIN_GRID_Y g) := by
  rcases generateTetromino_cases idx Constants.MAIN_GRID_X Constants.MAIN_GRID_Y g with
    h | h | h | h | h | h | h <;> rw [h]
  · exact shapeOK_yellow g
  · exact shapeOK_blue g
  · exact shapeOK_orange g
  · exact shapeOK_red g
  · exact shapeOK_green g
  · exact shapeOK_purple g
  · exact shapeOK_cyan g


/-! ### C7: rotation geometry -/

/-- The per-cell 90° rotation of `Rotate.apply` about the pivot `(px, py)`. -/
def rotCube (px py : ℤ) (c : Cube) : Cube :=
  ⟨px + -(c.y - py), py + (c.x - px), c.colour, c.id⟩

def rotatedCubes (s : State) : List Cube :=
  s.currentCubes.map (rotCube (head0 s.currentCubes).x (head0 s.currentCubes).y)

def rotateKick (s : State) : ℤ :=
  let mm := (rotatedCubes s).foldl (fun acc c => findMinMaxNum acc c.x)
    (Constants.GRID_WIDTH, -1)
  if mm.1 < 0 then -mm.1
  else if mm.2 ≥ Constants.GRID_WIDTH then Constants.GRID_WIDTH - mm.2 - 1
  else 0

def rotateAdjusted (s : State) : List Cube :=
  generateNewCubes (rotatedCubes s) (rotateKick s) 0

lemma rotate_apply_eq (s : State) :
    Rotate.apply s =
      if s.currentCubes.length = 0 ∨ (head0 s.currentCubes).colour = Colour.yellow
      then s
      else
        { s with
          currentCubes :=
            if isCollide { s with currentCubes := rotateAdjusted s } then
              s.currentCubes
            else rotateAdjusted s
          updateGrid := false } :=
  rfl

lemma pairwiseCoords_rot (px py : ℤ) (l : List Cube) (h : PairwiseCoords l) :
    PairwiseCoords (l.map (rotCube px py)) := by
  unfold PairwiseCoords at h ⊢
  rw [List.pairwise_map]
  apply h.imp
  intro a b hab
  show px + -(a.y - py) ≠ px + -(b.y - py) ∨ py + (a.x - px) ≠ py + (b.x - px)
  omega

lemma colContig_rot (px py : ℤ) (l : List Cube) (h : RowContig l) :
    ColContig (l.map (rotCube px py)) := by
  intro d1 h1 d2 h2 y hx hy1 hy2
  obtain ⟨c1, hc1, rfl⟩ := List.mem_map.mp h1
  obtain ⟨c2, hc2, rfl⟩ := List.mem_map.mp h2
  have hx' : px + -(c1.y - py) = px + -(c2.y - py) := hx
  have hy1' : py + (c1.x - px) ≤ y := hy1
  have hy2' : y ≤ py + (c2.x - px) := hy2
  obtain ⟨c, hc, hcy, hcx⟩ :=
    h c1 hc1 c2 hc2 (y - py + px) (by omega) (by omega) (by omega)
  refine ⟨rotCube px py c, List.mem_map_of_mem _ hc, ?_, ?_⟩
  · show px + -(c.y - py) = px + -(c1.y - py)
    omega
  · show py + (c.x - px) = y
    omega

lemma rowContig_rot (px py : ℤ) (l : List Cube) (h : ColContig l) :
    RowContig (l.map (rotCube px py)) := by
  intro d1 h1 d2 h2 x hy hx1 hx2
  obtain ⟨c1, hc1, rfl⟩ := List.mem_map.mp h1
  obtain ⟨c2, hc2, rfl⟩ := List.mem_map.mp h2
  have hy' : py + (c1.x - px) = py + (c2.x - px) := hy
  have hx1' : px + -(c1.y - py) ≤ x := hx1
  have hx2' : x ≤ px + -(c2.y - py) := hx2
  obtain ⟨c, hc, hcx, hcy⟩ :=
    h c2 hc2 c1 hc1 (px + py - x) (by omega) (by omega) (by omega)
  refine ⟨rotCube px py c, List.mem_map_of_mem _ hc, ?_, ?_⟩
  · show py + (c.x - px) = py + (c1.x - px)
    omega
  · show px + -(c.y - py) = x
    omega

lemma xproj_rot (px py : ℤ) (l : List Cube) (h : YProj l) :
    XProj (l.map (rotCube px py)) := by
  intro x hx1 hx2
  by_cases hne : l = []
  · exfalso
    subst hne
    simp only [List.map_nil, minXOf, maxXOf] at hx1 hx2
    unfold Constants.GRID_WIDTH at hx1
    omega
  · have hne' : l.map (rotCube px py) ≠ [] := by
      intro hnil
      exact hne (List.map_eq_nil_iff.mp hnil)
    obtain ⟨d0, hd0, hd0x⟩ := minXOf_attained _ hne'
    obtain ⟨d1, hd1, hd1x⟩ := maxXOf_attained _ hne'
    obtain ⟨c0, hc0, rfl⟩ := List.mem_map.mp hd0
    obtain ⟨c1, hc1, rfl⟩ := List.mem_map.mp hd1
    have he0 : minXOf (l.map (rotCube px py)) = px + -(c0.y - py) := hd0x
    have he1 : maxXOf (l.map (rotCube px py)) = px + -(c1.y - py) := hd1x
    have hb0 : minYOf l ≤ c1.y := minYOf_le_mem l c1 hc1
    have hb1 : c0.y ≤ maxYOf l := mem_le_maxYOf l c0 hc0
    obtain ⟨c, hc, hcy⟩ := h (px + py - x) (by omega) (by omega)
    refine ⟨rotCube px py c, List.mem_map_of_mem _ hc, ?_⟩
    show px + -(c.y - py) = x
    omega

lemma yproj_rot (px py : ℤ) (l : List Cube) (h : XProj l) :
    YProj (l.map (rotCube px py)) := by
  intro y hy1 hy2
  by_cases hne : l = []
  · exfalso
    subst hne
    simp only [List.map_nil, minYOf, maxYOf] at hy1 hy2
    omega
  · have hne' : l.map (rotCube px py) ≠ [] := by
      intro hnil
      exact hne (List.map_eq_nil_iff.mp hnil)
    obtain ⟨d0, hd0, hd0y⟩ := minYOf_attained _ hne'
    obtain ⟨d1, hd1, hd1y⟩ := maxYOf_attained _ hne'
    obtain ⟨c0, hc0, rfl⟩ := List.mem_map.mp hd0
    obtain ⟨c1, hc1, rfl⟩ := List.mem_map.mp hd1
    have he0 : minYOf (l.map (rotCube px py)) = py + (c0.x - px) := hd0y
    have he1 : maxYOf (l.map (rotCube px py)) = py + (c1.x - px) := hd1y
    have hb0 : minXOf l ≤ c0.x := minXOf_le_mem l c0 hc0
    have hb1 : c1.x ≤ maxXOf l := mem_le_maxXOf l c1 hc1
    obtain ⟨c, hc, hcx⟩ := h (y - py + px) (by omega) (by omega)
    refine ⟨rotCube px py c, List.mem_map_of_mem _ hc, ?_⟩
    show py + (c.x - px) = y
    omega

lemma spanOK_rot (px py : ℤ) (l : List Cube) (h : SpanOK l) :
    SpanOK (l.map (rotCube px py)) := by
  intro d1 h1 d2 h2
  obtain ⟨c1, hc1, rfl⟩ := List.mem_map.mp h1
  obtain ⟨c2, hc2, rfl⟩ := List.mem_map.mp h2
  have h12 := h c1 hc1 c2 hc2
  have h21 := h c2 hc2 c1 hc1
  constructor
  · show px + -(c1.y - py) - (px + -(c2.y - py)) ≤ 3
    omega
  · show py + (c1.x - px) - (py + (c2.x - px)) ≤ 3
    omega

lemma rotateAdjusted_xbounds (s : State) (hne : s.currentCubes ≠ [])
    (hspan : SpanOK s.currentCubes) : XBounds (rotateAdjusted s) := by
  have hRne : rotatedCubes s ≠ [] := by
    unfold rotatedCubes
    exact fun hnil => hne (List.map_eq_nil_iff.mp hnil)
  obtain ⟨d0, hd0, hd0x⟩ := minXOf_attained _ hRne
  obtain ⟨d1, hd1, hd1x⟩ := maxXOf_attained _ hRne
  have hMm : maxXOf (rotatedCubes s) - minXOf (rotatedCubes s) ≤ 3 := by
    unfold rotatedCubes at hd0 hd1
    obtain ⟨c0, hc0, rfl⟩ := List.mem_map.mp hd0
    obtain ⟨c1, hc1, rfl⟩ := List.mem_map.mp hd1
    have hsp := hspan c0 hc0 c1 hc1
    have he0 : minXOf (rotatedCubes s) =
        (head0 s.currentCubes).x + -(c0.y - (head0 s.currentCubes).y) := hd0x
    have he1 : maxXOf (rotatedCubes s) =
        (head0 s.currentCubes).x + -(c1.y - (head0 s.currentCubes).y) := hd1x
    have hsp2 := hspan c1 hc1 c0 hc0
    omega
  intro d hd
  obtain ⟨r, hr, hrx, hry⟩ := generateNewCubes_coords _ _ _ _ d hd
  have hrm : minXOf (rotatedCubes s) ≤ r.x := minXOf_le_mem _ r hr
  have hrM : r.x ≤ maxXOf (rotatedCubes s) := mem_le_maxXOf _ r hr
  have hkick : rotateKick s =
      if min Constants.GRID_WIDTH (minXOf (rotatedCubes s)) < 0 then
        -(min Constants.GRID_WIDTH (minXOf (rotatedCubes s)))
      else if max (-1 : ℤ) (maxXOf (rotatedCubes s)) ≥ Constants.GRID_WIDTH then
        Constants.GRID_WIDTH - max (-1 : ℤ) (maxXOf (rotatedCubes s)) - 1
      else 0 := by
    unfold rotateKick
    rw [foldl_findMinMaxNum]
    dsimp only
    rw [foldl_min_init, foldl_max_init, if_neg hRne, if_neg hRne]
  rw [hkick] at hrx
  rcases min_cases Constants.GRID_WIDTH (minXOf (rotatedCubes s)) with
    ⟨hm1, hm2⟩ | ⟨hm1, hm2⟩ <;>
    rcases max_cases (-1 : ℤ) (maxXOf (rotatedCubes s)) with
      ⟨hM1, hM2⟩ | ⟨hM1, hM2⟩ <;>
    rw [hm1, hM1] at hrx <;>
    unfold Constants.GRID_WIDTH at hrx hm2 ⊢ <;>
    split_ifs at hrx <;>
    constructor <;>
    omega


/-! ### C7: the hard-drop distance, characterised without hypotheses -/

/-- The value the highs fold computes for a column: the column's lowest
piece cell, floored at the fold seed `MAIN_GRID_Y`. -/
def colHigh (s : State) (x : ℤ) : ℤ :=
  max Constants.MAIN_GRID_Y (columnBottom s.currentCubes x)

lemma hardDropHighs_eq2 (s : State) (tm tM : ℤ) :
    hardDropHighs s tm tM = (range tm tM).map fun x => colHigh s x := by
  unfold hardDropHighs
  rw [List.map_map]
  apply List.map_congr_left
  intro x _
  show (s.currentCubes.filter fun cube => decide (cube.x = x)).foldl
      (fun acc c => if c.y > acc then c.y else acc) Constants.MAIN_GRID_Y =
    colHigh s x
  rw [foldl_if_max, zfoldl_max_init]
  unfold colHigh columnBottom
  by_cases hnil : (s.currentCubes.filter fun c => decide (c.x = x)).map Cube.y = []
  · rw [if_pos hnil, hnil]
    show Constants.MAIN_GRID_Y = max Constants.MAIN_GRID_Y Constants.MAIN_GRID_Y
    rw [max_self]
  · rw [if_neg hnil]

/-- The value the lows fold computes for a column: the least settled `y`
strictly below the fold's high for the column, floored at `GRID_HEIGHT`. -/
def stopVal2 (s : State) (x : ℤ) : ℤ :=
  ((s.mainGridCubes.filter fun c =>
      decide (c.x = x ∧ colHigh s x < c.y)).map Cube.y).foldl min
    Constants.GRID_HEIGHT

lemma hardDropLows_eq2 (s : State) (tm tM : ℤ) :
    hardDropLows s tm tM = (range tm tM).map fun x => stopVal2 s x := by
  unfold hardDropLows
  rw [List.map_map]
  apply List.map_congr_left
  intro x hx
  have hx' := (mem_range_iff tm tM x).mp hx
  show (s.mainGridCubes.filter fun cube => decide (cube.x = x)).foldl _
      Constants.GRID_HEIGHT = stopVal2 s x
  have hstep : ∀ a : ℤ, ∀ c ∈ (s.mainGridCubes.filter fun cube => decide (cube.x = x)),
      (match jsIndex? (hardDropHighs s tm tM) (c.x - tm) with
        | some h => if c.y < a ∧ c.y > h then c.y else a
        | none => a) =
      (if c.y < a ∧ c.y > colHigh s x then c.y else a) := by
    intro a c hc
    have hcx : c.x = x := by
      have := (List.mem_filter.mp hc).2
      simpa using this
    rw [hcx, hardDropHighs_eq2 s tm tM, jsIndex?_range_map _ tm tM x hx'.1 hx'.2]
  rw [List.foldl_ext _
    (fun a c => if c.y < a ∧ c.y > colHigh s x then c.y else a)
    Constants.GRID_HEIGHT hstep]
  rw [foldl_stop, List.filter_filter]
  rw [stopVal2]
  congr 2
  apply List.filter_congr
  intro c _
  rw [Bool.decide_and, Bool.and_comm]

/-- The per-column drop distance the code's zip-fold evaluates. -/
def colDist2 (s : State) (x : ℤ) : ℤ := stopVal2 s x - colHigh s x - 1

lemma hardDropRelativeY_eq2 (s : State) (h1 : s.currentCubes ≠ [])
    (h4 : XBounds s.currentCubes) :
    hardDropRelativeY s =
      ((range (minXOf s.currentCubes) (maxXOf s.currentCubes)).map
        (fun x => colDist2 s x)).foldl min Constants.GRID_HEIGHT := by
  obtain ⟨cm, hcm, hcmx⟩ := minXOf_attained s.currentCubes h1
  obtain ⟨cM, hcM, hcMx⟩ := maxXOf_attained s.currentCubes h1
  have htm : min Constants.GRID_WIDTH (minXOf s.currentCubes) =
      minXOf s.currentCubes := by
    apply min_eq_right
    have h9 := (h4 cm hcm).2
    rw [hcmx]
    unfold Constants.GRID_WIDTH at h9 ⊢
    omega
  have htM : max (-1 : ℤ) (maxXOf s.currentCubes) = maxXOf s.currentCubes := by
    apply max_eq_right
    have h0 := (h4 cM hcM).1
    rw [hcMx]
    omega
  unfold hardDropRelativeY
  rw [foldl_findMinMaxNum]
  dsimp only
  rw [foldl_min_init, foldl_max_init, if_neg h1, if_neg h1, htm, htM]
  rw [hardDropLows_eq2 s _ _, hardDropHighs_eq2 s _ _]
  rw [List.zip_map', foldl_zipstep, List.map_map]
  have hcong : ∀ x ∈ range (minXOf s.currentCubes) (maxXOf s.currentCubes),
      ((fun p : ℤ × ℤ => p.1 - p.2 - 1) ∘ fun x => (stopVal2 s x, colHigh s x)) x =
        colDist2 s x := fun x _ => rfl
  rw [List.map_congr_left hcong]

lemma zminOf_le_mem (l : List ℤ) : ∀ v ∈ l, zminOf l ≤ v := by
  cases l with
  | nil => intro v hv; cases hv
  | cons y t =>
    intro v hv
    show t.foldl min y ≤ v
    rcases List.mem_cons.mp hv with rfl | hv
    · exact zfoldl_min_le t v
    · exact zfoldl_min_le_mem t y v hv

lemma zminOf_mem (l : List ℤ) (h : l ≠ []) : zminOf l ∈ l := by
  cases l with
  | nil => exact absurd rfl h
  | cons y t =>
    show t.foldl min y ∈ y :: t
    rcases zfoldl_min_mem t y with h1 | h1
    · rw [h1]
      exact List.mem_cons_self y t
    · exact List.mem_cons_of_mem y h1

/-- The highest cell (least `y`) of the piece in column `x`. -/
def colTop (piece : List Cube) (x : ℤ) : ℤ :=
  zminOf ((piece.filter fun c => decide (c.x = x)).map Cube.y)

lemma colTop_le_mem (piece : List Cube) (x : ℤ) :
    ∀ c ∈ piece, c.x = x → colTop piece x ≤ c.y := by
  intro c hc hcx
  apply zminOf_le_mem
  exact List.mem_map.mpr ⟨c, List.mem_filter.mpr ⟨hc, by simpa using hcx⟩, rfl⟩

lemma colTop_mem (piece : List Cube) (x : ℤ) (hocc : ∃ c ∈ piece, c.x = x) :
    ∃ c ∈ piece, c.x = x ∧ c.y = colTop piece x := by
  obtain ⟨c0, hc0, hc0x⟩ := hocc
  have hne : (piece.filter fun c => decide (c.x = x)).map Cube.y ≠ [] := by
    intro hnil
    have hmem : c0.y ∈ (piece.filter fun c => decide (c.x = x)).map Cube.y :=
      List.mem_map.mpr ⟨c0, List.mem_filter.mpr ⟨hc0, by simpa using hc0x⟩, rfl⟩
    rw [hnil] at hmem
    cases hmem
  obtain ⟨c, hcf, hcy⟩ := List.mem_map.mp (zminOf_mem _ hne)
  obtain ⟨hcp, hcx⟩ := List.mem_filter.mp hcf
  exact ⟨c, hcp, by simpa using hcx, hcy⟩

lemma columnBottom_mem (piece : List Cube) (x : ℤ) (hocc : ∃ c ∈ piece, c.x = x) :
    ∃ c ∈ piece, c.x = x ∧ c.y = columnBottom piece x := by
  obtain ⟨c0, hc0, hc0x⟩ := hocc
  have hne : (piece.filter fun c => decide (c.x = x)).map Cube.y ≠ [] := by
    intro hnil
    have hmem : c0.y ∈ (piece.filter fun c => decide (c.x = x)).map Cube.y :=
      List.mem_map.mpr ⟨c0, List.mem_filter.mpr ⟨hc0, by simpa using hc0x⟩, rfl⟩
    rw [hnil] at hmem
    cases hmem
  obtain ⟨c, hcf, hcy⟩ := List.mem_map.mp (zmaxOf_attained _ hne)
  obtain ⟨hcp, hcx⟩ := List.mem_filter.mp hcf
  exact ⟨c, hcp, by simpa using hcx, hcy⟩

lemma piece_le_colHigh (s : State) : ∀ c ∈ s.currentCubes, c.y ≤ colHigh s c.x := by
  intro c hc
  have hb : c.y ≤ columnBottom s.currentCubes c.x := by
    unfold columnBottom
    apply mem_le_zmaxOf
    exact List.mem_map.mpr ⟨c, List.mem_filter.mpr ⟨hc, by simp⟩, rfl⟩
  exact le_trans hb (le_max_right _ _)

lemma colHigh_lt20 (s : State) (x : ℤ)
    (hylt : ∀ c ∈ s.currentCubes, c.y < Constants.GRID_HEIGHT) :
    colHigh s x < 20 := by
  show max Constants.MAIN_GRID_Y (columnBottom s.currentCubes x) < 20
  unfold columnBottom
  rcases hnil : (s.currentCubes.filter fun c => decide (c.x = x)).map Cube.y with
    _ | ⟨y0, t⟩
  · rw [hnil]
    decide
  · have hat := zmaxOf_attained (y0 :: t) (by simp)
    rw [← hnil] at hat
    obtain ⟨c, hcf, hcy⟩ := List.mem_map.mp hat
    have hlt := hylt c (List.mem_filter.mp hcf).1
    unfold Constants.GRID_HEIGHT at hlt
    rcases max_cases Constants.MAIN_GRID_Y
        (zmaxOf ((s.currentCubes.filter fun c => decide (c.x = x)).map Cube.y)) with
      ⟨he, _⟩ | ⟨he, _⟩ <;> rw [he]
    · decide
    · omega

lemma stopVal2_le (s : State) (x : ℤ) : stopVal2 s x ≤ Constants.GRID_HEIGHT := by
  unfold stopVal2
  exact zfoldl_min_le _ _

lemma stopVal2_ge (s : State) (x : ℤ)
    (hylt : ∀ c ∈ s.currentCubes, c.y < Constants.GRID_HEIGHT) :
    colHigh s x + 1 ≤ stopVal2 s x := by
  have h20 := colHigh_lt20 s x hylt
  unfold stopVal2
  apply zfoldl_min_ge
  · show colHigh s x + 1 ≤ Constants.GRID_HEIGHT
    unfold Constants.GRID_HEIGHT
    omega
  · intro v hv
    obtain ⟨mc, hmc, rfl⟩ := List.mem_map.mp hv
    have hp := (List.mem_filter.mp hmc).2
    simp only [decide_eq_true_eq] at hp
    omega

lemma relY_le_colDist (s : State) (h1 : s.currentCubes ≠ [])
    (h4 : XBounds s.currentCubes) (x : ℤ)
    (hx1 : minXOf s.currentCubes ≤ x) (hx2 : x ≤ maxXOf s.currentCubes) :
    hardDropRelativeY s ≤ colDist2 s x := by
  rw [hardDropRelativeY_eq2 s h1 h4]
  apply zfoldl_min_le_mem
  exact List.mem_map.mpr ⟨x, (mem_range_iff _ _ x).mpr ⟨hx1, hx2⟩, rfl⟩

lemma relY_nonneg (s : State) (h1 : s.currentCubes ≠ [])
    (h4 : XBounds s.currentCubes)
    (hylt : ∀ c ∈ s.currentCubes, c.y < Constants.GRID_HEIGHT) :
    0 ≤ hardDropRelativeY s := by
  rw [hardDropRelativeY_eq2 s h1 h4]
  apply zfoldl_min_ge
  · decide
  · intro v hv
    obtain ⟨x, _, rfl⟩ := List.mem_map.mp hv
    have hstop := stopVal2_ge s x hylt
    show 0 ≤ stopVal2 s x - colHigh s x - 1
    omega

lemma hardDropNewCubes_ylt (s : State) (h1 : s.currentCubes ≠ [])
    (h4 : XBounds s.currentCubes)
    (_hylt : ∀ c ∈ s.currentCubes, c.y < Constants.GRID_HEIGHT) :
    ∀ d ∈ hardDropNewCubes s, d.y < Constants.GRID_HEIGHT := by
  intro d hd
  obtain ⟨c, hc, hdx, hdy⟩ := generateNewCubes_coords _ _ _ _ d hd
  have hrle := relY_le_colDist s h1 h4 c.x (minXOf_le_mem _ c hc) (mem_le_maxXOf _ c hc)
  have hcb := piece_le_colHigh s c hc
  have hstople := stopVal2_le s c.x
  have hcd : colDist2 s c.x = stopVal2 s c.x - colHigh s c.x - 1 := rfl
  show d.y < Constants.GRID_HEIGHT
  unfold Constants.GRID_HEIGHT at hstople ⊢
  omega

lemma hardDrop_disjoint (s : State) (h1 : s.currentCubes ≠ [])
    (h4 : XBounds s.currentCubes)
    (hylt : ∀ c ∈ s.currentCubes, c.y < Constants.GRID_HEIGHT)
    (hcol : ColContig s.currentCubes)
    (hdisj : ∀ c ∈ s.currentCubes, ∀ m ∈ s.mainGridCubes, c.x ≠ m.x ∨ c.y ≠ m.y)
    (hsy : ∀ m ∈ s.mainGridCubes, 0 ≤ m.y) :
    ∀ d ∈ hardDropNewCubes s, ∀ m ∈ s.mainGridCubes, d.x ≠ m.x ∨ d.y ≠ m.y := by
  intro d hd m hm
  obtain ⟨c, hc, hdx, hdy⟩ := generateNewCubes_coords _ _ _ _ d hd
  by_contra hcon
  push_neg at hcon
  obtain ⟨hex, hey⟩ := hcon
  have hmx : m.x = c.x := by omega
  have hcb := piece_le_colHigh s c hc
  have hrel0 := relY_nonneg s h1 h4 hylt
  have hrle := relY_le_colDist s h1 h4 c.x (minXOf_le_mem _ c hc) (mem_le_maxXOf _ c hc)
  have hcd : colDist2 s c.x = stopVal2 s c.x - colHigh s c.x - 1 := rfl
  rcases lt_or_le (colHigh s c.x) m.y with hgt | hle
  · have hms : stopVal2 s c.x ≤ m.y := by
      unfold stopVal2
      apply zfoldl_min_le_mem
      refine List.mem_map.mpr ⟨m, List.mem_filter.mpr ⟨hm, ?_⟩, rfl⟩
      simp only [decide_eq_true_eq]
      exact ⟨hmx, hgt⟩
    omega
  · have hm0 := hsy m hm
    have hch : colHigh s c.x = max (-2) (columnBottom s.currentCubes c.x) := rfl
    rcases le_or_lt m.y (columnBottom s.currentCubes c.x) with hmb | hmb
    · rcases le_or_lt (colTop s.currentCubes c.x) m.y with htop | htop
      · obtain ⟨ct, hct, hctx, hcty⟩ := colTop_mem s.currentCubes c.x ⟨c, hc, rfl⟩
        obtain ⟨cb, hcb2, hcbx, hcby⟩ := columnBottom_mem s.currentCubes c.x ⟨c, hc, rfl⟩
        obtain ⟨p, hp, hpx, hpy⟩ :=
          hcol ct hct cb hcb2 m.y (by rw [hctx, hcbx]) (by omega) (by omega)
        rcases hdisj p hp m hm with hne | hne
        · exact hne (by omega)
        · exact hne (by omega)
      · have hctle := colTop_le_mem s.currentCubes c.x c hc rfl
        omega
    · rcases max_cases (-2 : ℤ) (columnBottom s.currentCubes c.x) with
        ⟨he, hle2⟩ | ⟨he, hle2⟩ <;> omega


/-! ### C7: `GameTick`, `Tick` and the horizontal invariant -/

def tickNewCubes (s : State) : List Cube := generateNewCubes s.currentCubes 0 1

def tickCollide (s : State) : Bool := isCollide { s with currentCubes := tickNewCubes s }

def tickMerged (s : State) : List Cube :=
  if tickCollide s then s.mainGridCubes ++ generateNewCubes s.currentCubes 0 0 true
  else s.mainGridCubes

def tickLines (s : State) : List ℤ := findLinesToClear (convertTo2D (tickMerged s))

def tickFinal (s : State) : List Cube :=
  if 0 < (tickLines s).length then (tickLines s).foldl clearLines (tickMerged s)
  else tickMerged s

def tickSpawn (s : State) : List Cube :=
  generateTetromino (findIndexByColour (head0 s.previewGridCubes).colour)
    Constants.MAIN_GRID_X Constants.MAIN_GRID_Y "c"

def tickShould (s : State) : Bool :=
  shouldUpdateGrid { s with currentCubes := tickNewCubes s }

lemma gameTick_apply_eq (s : State) :
    GameTick.apply s =
      { s with
        gameTick := s.gameTick + 1
        currentCubes := if tickShould s then tickSpawn s else tickNewCubes s
        mainGridCubes := if s.gameEnd then s.mainGridCubes else tickFinal s
        previousMainGridCubes := s.mainGridCubes
        previewGridCubes :=
          if tickShould s then
            generateTetromino (RNG.scale s.rng) Constants.PREVIEW_GRID_X
              Constants.PREVIEW_GRID_Y "p"
          else s.previewGridCubes
        holdOnCooldown := if tickShould s then false else s.holdOnCooldown
        updateGrid := tickShould s
        rng := if tickShould s then RNG.hash s.rng else s.rng
        level := Int.fdiv (s.score + ((tickLines s).length : ℤ) * 100)
          Constants.MAX_SCORE_PER_LEVEL + 1
        score := s.score + ((tickLines s).length : ℤ) * 100
        linesCleared := s.linesCleared + ((tickLines s).length : ℤ)
        highScore :=
          if s.highScore < s.score + ((tickLines s).length : ℤ) * 100 then
            s.score + ((tickLines s).length : ℤ) * 100
          else s.highScore
        gameEnd :=
          decide (0 < ((tickFinal s).filter fun cube => decide (cube.y < 0)).length) } :=
  rfl

lemma tickFinal_eq_clearFinal (s : State) : tickFinal s = clearFinal (tickMerged s) := rfl

lemma hardDropFinal_eq_clearFinal (s : State) :
    hardDropFinal s = clearFinal (hardDropMerged s) := rfl

lemma tick_apply_cases (s : State) :
    Tick.apply s =
      GameTick.apply
        { s with
          currentTick := 0
          dropTick := calculateDropTick s.level
          updateGrid := false } ∨
    Tick.apply s = { s with currentTick := s.currentTick + 1, updateGrid := false } := by
  simp only [Tick.apply]
  by_cases h0 : (if s.currentTick + 1 = s.dropTick then (0 : ℤ) else s.currentTick + 1) = 0
  · left
    rw [if_pos h0, if_pos h0, h0]
  · right
    rw [if_neg h0, if_neg h0]
    have h2 : (if s.currentTick + 1 = s.dropTick then (0 : ℤ) else s.currentTick + 1) =
        s.currentTick + 1 := by
      by_cases hc : s.currentTick + 1 = s.dropTick
      · rw [if_pos hc] at h0 ⊢
        exact absurd rfl h0
      · rw [if_neg hc]
    rw [h2]

lemma isValid_parts (s : State) (h : isValid s = true) :
    isCollide s = false ∧ isOutOfBound s = false ∧ s.gameEnd = false := by
  unfold isValid at h
  simp only [Bool.and_eq_true, Bool.not_eq_true'] at h
  exact ⟨h.1.1, h.1.2, h.2⟩

lemma xbounds_clearFinal (g : List Cube) (h : XBounds g) : XBounds (clearFinal g) := by
  unfold clearFinal
  by_cases hl : 0 < (findLinesToClear (convertTo2D g)).length
  · rw [if_pos hl]
    intro d hd
    obtain ⟨c, hc, hdx, _⟩ := foldl_clear_origin _ _ d hd
    have hb := h c hc
    constructor <;> omega
  · rw [if_neg hl]
    exact h

lemma xbounds_tickMerged (s : State) (hxs : XBounds s.mainGridCubes)
    (hxc : XBounds s.currentCubes) : XBounds (tickMerged s) := by
  unfold tickMerged
  by_cases hcoll : tickCollide s = true
  · rw [if_pos hcoll]
    intro d hd
    rcases List.mem_append.mp hd with hd | hd
    · exact hxs d hd
    · obtain ⟨c, hc, hdx, _⟩ := generateNewCubes_coords _ _ _ _ d hd
      have hb := hxc c hc
      constructor <;> omega
  · rw [if_neg hcoll]
    exact hxs

lemma xinv_gameTick (s : State) (hx : XInv s) : XInv (GameTick.apply s) := by
  obtain ⟨hxs, hxc, hsp⟩ := hx
  rw [gameTick_apply_eq]
  refine ⟨?_, ?_, ?_⟩
  · show XBounds (if s.gameEnd then s.mainGridCubes else tickFinal s)
    by_cases hge : s.gameEnd = true
    · rw [if_pos hge]
      exact hxs
    · rw [if_neg hge]
      rw [tickFinal_eq_clearFinal]
      exact xbounds_clearFinal _ (xbounds_tickMerged s hxs hxc)
  · show XBounds (if tickShould s then tickSpawn s else tickNewCubes s)
    by_cases hsu : tickShould s = true
    · rw [if_pos hsu]
      exact (spawnShapeOK _ _).2.2.2.2.2.1
    · rw [if_neg hsu]
      intro d hd
      obtain ⟨c, hc, hdx, _⟩ := generateNewCubes_coords _ _ _ _ d hd
      have hb := hxc c hc
      constructor <;> omega
  · show SpanOK (if tickShould s then tickSpawn s else tickNewCubes s)
    by_cases hsu : tickShould s = true
    · rw [if_pos hsu]
      exact (spawnShapeOK _ _).2.2.2.2.2.2.1
    · rw [if_neg hsu]
      exact spanOK_generateNewCubes _ _ _ _ hsp

lemma xinv_step (s : State) (a : Action) (hx : XInv s) : XInv (applyAction a s) := by
  obtain ⟨hxs, hxc, hsp⟩ := hx
  cases a with
  | tick =>
    show XInv (Tick.apply s)
    rcases tick_apply_cases s with h | h <;> rw [h]
    · exact xinv_gameTick _ ⟨hxs, hxc, hsp⟩
    · exact ⟨hxs, hxc, hsp⟩
  | moveLeft =>
    show XInv (MoveLeft.apply s)
    refine ⟨hxs, ?_, ?_⟩
    · show XBounds (if isValid { s with
          currentCubes := generateNewCubes s.currentCubes (-1) 0 } then
        generateNewCubes s.currentCubes (-1) 0 else s.currentCubes)
      by_cases hv : isValid { s with
          currentCubes := generateNewCubes s.currentCubes (-1) 0 } = true
      · rw [if_pos hv]
        have hoob := (isValid_parts _ hv).2.1
        rw [isOutOfBound_eq_false] at hoob
        intro d hd
        exact ⟨(hoob d hd).1, (hoob d hd).2.1⟩
      · rw [if_neg hv]
        exact hxc
    · show SpanOK (if isValid { s with
          currentCubes := generateNewCubes s.currentCubes (-1) 0 } then
        generateNewCubes s.currentCubes (-1) 0 else s.currentCubes)
      by_cases hv : isValid { s with
          currentCubes := generateNewCubes s.currentCubes (-1) 0 } = true
      · rw [if_pos hv]
        exact spanOK_generateNewCubes _ _ _ _ hsp
      · rw [if_neg hv]
        exact hsp
  | moveRight =>
    show XInv (MoveRight.apply s)
    refine ⟨hxs, ?_, ?_⟩
    · show XBounds (if isValid { s with
          currentCubes := generateNewCubes s.currentCubes 1 0 } then
        generateNewCubes s.currentCubes 1 0 else s.currentCubes)
      by_cases hv : isValid { s with
          currentCubes := generateNewCubes s.currentCubes 1 0 } = true
      · rw [if_pos hv]
        have hoob := (isValid_parts _ hv).2.1
        rw [isOutOfBound_eq_false] at hoob
        intro d hd
        exact ⟨(hoob d hd).1, (hoob d hd).2.1⟩
      · rw [if_neg hv]
        exact hxc
    · show SpanOK (if isValid { s with
          currentCubes := generateNewCubes s.currentCubes 1 0 } then
        generateNewCubes s.currentCubes 1 0 else s.currentCubes)
      by_cases hv : isValid { s with
          currentCubes := generateNewCubes s.currentCubes 1 0 } = true
      · rw [if_pos hv]
        exact spanOK_generateNewCubes _ _ _ _ hsp
      · rw [if_neg hv]
        exact hsp
  | moveDown =>
    show XInv (MoveDown.apply s)
    refine ⟨hxs, ?_, ?_⟩
    · show XBounds (if isValid { s with
          currentCubes := generateNewCubes s.currentCubes 0 1 } then
        generateNewCubes s.currentCubes 0 1 else s.currentCubes)
      by_cases hv : isValid { s with
          currentCubes := generateNewCubes s.currentCubes 0 1 } = true
      · rw [if_pos hv]
        have hoob := (isValid_parts _ hv).2.1
        rw [isOutOfBound_eq_false] at hoob
        intro d hd
        exact ⟨(hoob d hd).1, (hoob d hd).2.1⟩
      · rw [if_neg hv]
        exact hxc
    · show SpanOK (if isValid { s with
          currentCubes := generateNewCubes s.currentCubes 0 1 } then
        generateNewCubes s.currentCubes 0 1 else s.currentCubes)
      by_cases hv : isValid { s with
          currentCubes := generateNewCubes s.currentCubes 0 1 } = true
      · rw [if_pos hv]
        exact spanOK_generateNewCubes _ _ _ _ hsp
      · rw [if_neg hv]
        exact hsp
  | rotate =>
    show XInv (Rotate.apply s)
    rw [rotate_apply_eq]
    by_cases hex : s.currentCubes.length = 0 ∨
        (head0 s.currentCubes).colour = Colour.yellow
    · rw [if_pos hex]
      exact ⟨hxs, hxc, hsp⟩
    · rw [if_neg hex]
      push_neg at hex
      have hne : s.currentCubes ≠ [] := by
        intro hnil
        exact hex.1 (by rw [hnil]; rfl)
      refine ⟨hxs, ?_, ?_⟩
      · show XBounds (if isCollide { s with currentCubes := rotateAdjusted s } then
          s.currentCubes else rotateAdjusted s)
        by_cases hcoll : isCollide { s with currentCubes := rotateAdjusted s } = true
        · rw [if_pos hcoll]
          exact hxc
        · rw [if_neg hcoll]
          exact rotateAdjusted_xbounds s hne hsp
      · show SpanOK (if isCollide { s with currentCubes := rotateAdjusted s } then
          s.currentCubes else rotateAdjusted s)
        by_cases hcoll : isCollide { s with currentCubes := rotateAdjusted s } = true
        · rw [if_pos hcoll]
          exact hsp
        · rw [if_neg hcoll]
          exact spanOK_generateNewCubes _ _ _ _
            (spanOK_rot _ _ _ hsp)
  | hardDrop =>
    show XInv (HardDrop.apply s)
    rw [hardDrop_apply_eq]
    refine ⟨?_, ?_, ?_⟩
    · show XBounds (if s.gameEnd then s.mainGridCubes else hardDropFinal s)
      by_cases hge : s.gameEnd = true
      · rw [if_pos hge]
        exact hxs
      · rw [if_neg hge]
        rw [hardDropFinal_eq_clearFinal]
        apply xbounds_clearFinal
        intro d hd
        rcases List.mem_append.mp hd with hd | hd
        · exact hxs d hd
        · obtain ⟨c, hc, hdx, _⟩ := generateNewCubes_coords _ _ _ _ d hd
          have hb := hxc c hc
          constructor <;> omega
    · exact (spawnShapeOK _ _).2.2.2.2.2.1
    · exact (spawnShapeOK _ _).2.2.2.2.2.2.1
  | reset =>
    show XInv (Reset.apply s)
    unfold Reset.apply
    by_cases hge : s.gameEnd = true
    · rw [if_pos hge]
      refine ⟨?_, ?_, ?_⟩
      · intro d hd
        cases hd
      · intro d hd
        cases hd
      · intro d hd
        cases hd
    · rw [if_neg hge]
      exact ⟨hxs, hxc, hsp⟩


/-! ### C7: the clean-state step -/

/-- What one action from an in-play invariant state guarantees: the new
settled grid is coordinate-distinct, any settled cell above the board forces
`gameEnd`, and if the game is still running the full invariant holds again. -/
def StepOK (t : State) : Prop :=
  (PairwiseCoords t.mainGridCubes ∧
    (∀ c ∈ t.mainGridCubes, c.y < 0 → t.gameEnd = true)) ∧
  (t.gameEnd = false → CleanInv t)

lemma gameEnd_true_of (final : List Cube) (c : Cube) (hc : c ∈ final) (hy : c.y < 0) :
    decide (0 < (final.filter fun cube => decide (cube.y < 0)).length) = true := by
  rw [decide_eq_true_eq, length_filter_pos]
  exact ⟨c, hc, by simpa using hy⟩

lemma gameEnd_false_y (final : List Cube)
    (h : decide (0 < (final.filter fun cube => decide (cube.y < 0)).length) = false) :
    ∀ c ∈ final, 0 ≤ c.y := by
  intro c hc
  by_contra hcon
  push_neg at hcon
  have h2 := gameEnd_true_of final c hc (by omega)
  rw [h] at h2
  exact absurd h2 Bool.false_ne_true

lemma merged_clean (settled piece : List Cube)
    (hsOK : SettledOK settled)
    (hpw : PairwiseCoords piece)
    (hdisj : ∀ c ∈ piece, ∀ m ∈ settled, c.x ≠ m.x ∨ c.y ≠ m.y)
    (hlen : piece.length ≤ 4)
    (hylt : ∀ c ∈ piece, c.y < Constants.GRID_HEIGHT) :
    PairwiseCoords (clearFinal (settled ++ piece)) ∧
    (∀ c ∈ clearFinal (settled ++ piece), c.y < Constants.GRID_HEIGHT) ∧
    findLinesToClear (convertTo2D (clearFinal (settled ++ piece))) = [] := by
  obtain ⟨hsnd, hsy, _⟩ := hsOK
  have hnd : PairwiseCoords (settled ++ piece) := by
    apply pairwiseCoords_append _ _ hsnd hpw
    intro a ha b hb
    rcases hdisj b hb a ha with h | h
    · exact Or.inl fun he => h he.symm
    · exact Or.inr fun he => h he.symm
  have hylt2 : ∀ c ∈ settled ++ piece, c.y < 20 := by
    intro c hcm
    rcases List.mem_append.mp hcm with h | h
    · exact (hsy c h).2
    · exact hylt c h
  have hneg := negRows_append settled piece (fun c h => (hsy c h).1) hlen
  have hac := afterClear_props (settled ++ piece) hnd hylt2 hneg
  exact ⟨hac.1, hac.2.1, hac.2.2.1⟩

lemma clean_gameTick (s : State) (hge : s.gameEnd = false) (hx : XInv s)
    (hc : CleanInv s) : StepOK (GameTick.apply s) := by
  obtain ⟨⟨hsnd, hsy, hsnf⟩, hppw, hpdisj, hpcol, hprow, hpxp, hpyp, hpylt, hplen⟩ := hc
  obtain ⟨hxs, hxc, hsp⟩ := hx
  have hset : (GameTick.apply s).mainGridCubes = tickFinal s := by
    have h0 : (GameTick.apply s).mainGridCubes =
        if s.gameEnd then s.mainGridCubes else tickFinal s := rfl
    rw [h0, hge]
    rfl
  have hcur : (GameTick.apply s).currentCubes =
      if tickShould s then tickSpawn s else tickNewCubes s := rfl
  have hgame : (GameTick.apply s).gameEnd =
      decide (0 < ((tickFinal s).filter fun c => decide (c.y < 0)).length) := rfl
  unfold StepOK CleanInv SettledOK PieceOK
  rw [hset, hcur, hgame]
  by_cases hcoll : tickCollide s = true
  · -- the piece lands: merge, clear, respawn
    have hsu : tickShould s = true := by
      unfold tickShould shouldUpdateGrid
      show ((isCollide { s with currentCubes := tickNewCubes s } ||
        decide ((tickNewCubes s).length = 0)) && !s.gameEnd) = true
      rw [show isCollide { s with currentCubes := tickNewCubes s } = true from hcoll, hge]
      rfl
    have hfin : tickFinal s =
        clearFinal (s.mainGridCubes ++ generateNewCubes s.currentCubes 0 0 true) := by
      rw [tickFinal_eq_clearFinal]
      unfold tickMerged
      rw [if_pos hcoll]
    have hpw0 : PairwiseCoords (generateNewCubes s.currentCubes 0 0 true) :=
      pairwiseCoords_generateNewCubes _ _ _ _ hppw
    have hdisj0 : ∀ c ∈ generateNewCubes s.currentCubes 0 0 true,
        ∀ m ∈ s.mainGridCubes, c.x ≠ m.x ∨ c.y ≠ m.y := by
      intro d hd m hm
      obtain ⟨c, hcm, hdx, hdy⟩ := generateNewCubes_coords _ _ _ _ d hd
      rcases hpdisj c hcm m hm with h | h
      · exact Or.inl (by omega)
      · exact Or.inr (by omega)
    have hlen0 : (generateNewCubes s.currentCubes 0 0 true).length ≤ 4 := by
      rw [generateNewCubes_length]
      exact hplen
    have hylt0 : ∀ c ∈ generateNewCubes s.currentCubes 0 0 true,
        c.y < Constants.GRID_HEIGHT := by
      intro d hd
      obtain ⟨c, hcm, _, hdy⟩ := generateNewCubes_coords _ _ _ _ d hd
      have h9 := hpylt c hcm
      unfold Constants.GRID_HEIGHT at h9 ⊢
      omega
    obtain ⟨hfnd, hfylt, hfnf⟩ := merged_clean s.mainGridCubes
      (generateNewCubes s.currentCubes 0 0 true) ⟨hsnd, hsy, hsnf⟩ hpw0 hdisj0 hlen0 hylt0
    rw [hfin, if_pos hsu]
    have hP := spawnShapeOK
      (findIndexByColour (head0 s.previewGridCubes).colour) "c"
    obtain ⟨hQnd, hQcol, hQrow, hQxp, hQyp, _, _, hQy, hQlen⟩ := hP
    refine ⟨⟨hfnd, ?_⟩, ?_⟩
    · intro c hcf hneg
      exact gameEnd_true_of _ c hcf hneg
    · intro hgf
      have hy0 := gameEnd_false_y _ hgf
      refine ⟨⟨hfnd, fun c hcf => ⟨hy0 c hcf, hfylt c hcf⟩, hfnf⟩,
        hQnd, ?_, hQcol, hQrow, hQxp, hQyp, ?_, ?_⟩
      · intro c hcs m hmf
        have h1 := (hQy c hcs).2
        have h2 := hy0 m hmf
        exact Or.inr (by omega)
      · intro c hcs
        have h1 := (hQy c hcs).2
        unfold Constants.GRID_HEIGHT
        omega
      · have hlen4 : (tickSpawn s).length = 4 := hQlen
        omega
  · -- no landing: the grid is untouched
    have hcoll' : tickCollide s = false := Bool.eq_false_iff.mpr hcoll
    have hmg : tickMerged s = s.mainGridCubes := by
      unfold tickMerged
      rw [if_neg hcoll]
    have hlines : tickLines s = [] := by
      unfold tickLines
      rw [hmg]
      exact hsnf
    have hfin : tickFinal s = s.mainGridCubes := by
      unfold tickFinal
      rw [hlines, hmg]
      rfl
    rw [hfin]
    have hgf : decide
        (0 < (s.mainGridCubes.filter fun c => decide (c.y < 0)).length) = false := by
      rw [decide_eq_false_iff_not, length_filter_pos]
      rintro ⟨c, hcm, hcp⟩
      simp only [decide_eq_true_eq] at hcp
      have h9 := (hsy c hcm).1
      omega
    refine ⟨⟨hsnd, ?_⟩, ?_⟩
    · intro c hcm hneg
      have h9 := (hsy c hcm).1
      exact absurd hneg (by omega)
    · intro _
      refine ⟨⟨hsnd, hsy, hsnf⟩, ?_⟩
      have hsu : tickShould s = decide (s.currentCubes.length = 0) := by
        unfold tickShould shouldUpdateGrid
        show ((isCollide { s with currentCubes := tickNewCubes s } ||
          decide ((tickNewCubes s).length = 0)) && !s.gameEnd) =
            decide (s.currentCubes.length = 0)
        rw [show isCollide { s with currentCubes := tickNewCubes s } = false from
          hcoll', hge]
        show ((false || decide ((tickNewCubes s).length = 0)) && !false) =
          decide (s.currentCubes.length = 0)
        rw [Bool.false_or, Bool.not_false, Bool.and_true]
        rw [show (tickNewCubes s).length = s.currentCubes.length from
          generateNewCubes_length _ _ _ _]
      by_cases hcur0 : s.currentCubes.length = 0
      · have hsu' : tickShould s = true := by
          rw [hsu]
          simp [hcur0]
        rw [if_pos hsu']
        have hP := spawnShapeOK
          (findIndexByColour (head0 s.previewGridCubes).colour) "c"
        obtain ⟨hQnd, hQcol, hQrow, hQxp, hQyp, _, _, hQy, hQlen⟩ := hP
        refine ⟨hQnd, ?_, hQcol, hQrow, hQxp, hQyp, ?_, ?_⟩
        · intro c hcs m hmf
          have h1 := (hQy c hcs).2
          have h2 := (hsy m hmf).1
          exact Or.inr (by omega)
        · intro c hcs
          have h1 := (hQy c hcs).2
          unfold Constants.GRID_HEIGHT
          omega
        · have hlen4 : (tickSpawn s).length = 4 := hQlen
          omega
      · have hsu' : tickShould s = false := by
          rw [hsu]
          simp [hcur0]
        rw [if_neg (by rw [hsu']; exact Bool.false_ne_true)]
        have hnocol := (isCollide_eq_false { s with currentCubes := tickNewCubes s }).mp hcoll'
        refine ⟨pairwiseCoords_generateNewCubes _ _ _ _ hppw, ?_,
          colContig_generateNewCubes _ _ _ _ hpcol,
          rowContig_generateNewCubes _ _ _ _ hprow,
          xproj_generateNewCubes _ _ _ _ hpxp,
          yproj_generateNewCubes _ _ _ _ hpyp, ?_, ?_⟩
        · intro c hcs m hmf
          rcases (hnocol c hcs).1 m hmf with h | h
          · exact Or.inl fun he => h he.symm
          · exact Or.inr fun he => h he.symm
        · intro c hcs
          exact (hnocol c hcs).2
        · rw [show (tickNewCubes s).length = s.currentCubes.length from
            generateNewCubes_length _ _ _ _]
          exact hplen


lemma clean_hardDrop (s : State) (hge : s.gameEnd = false) (hx : XInv s)
    (hc : CleanInv s) : StepOK (HardDrop.apply s) := by
  obtain ⟨⟨hsnd, hsy, hsnf⟩, hppw, hpdisj, hpcol, hprow, hpxp, hpyp, hpylt, hplen⟩ := hc
  obtain ⟨hxs, hxc, hsp⟩ := hx
  have hset : (HardDrop.apply s).mainGridCubes = hardDropFinal s := by
    have h0 : (HardDrop.apply s).mainGridCubes =
        if s.gameEnd then s.mainGridCubes else hardDropFinal s := rfl
    rw [h0, hge]
    rfl
  have hcur : (HardDrop.apply s).currentCubes =
      generateTetromino (findIndexByColour (head0 s.previewGridCubes).colour)
        Constants.MAIN_GRID_X Constants.MAIN_GRID_Y "c" := rfl
  have hgame : (HardDrop.apply s).gameEnd =
      decide (0 < ((hardDropFinal s).filter fun c => decide (c.y < 0)).length) := rfl
  unfold StepOK CleanInv SettledOK PieceOK
  rw [hset, hcur, hgame]
  have hP := spawnShapeOK (findIndexByColour (head0 s.previewGridCubes).colour) "c"
  obtain ⟨hQnd, hQcol, hQrow, hQxp, hQyp, _, _, hQy, hQlen⟩ := hP
  by_cases hcur0 : s.currentCubes = []
  · have hnc : hardDropNewCubes s = [] := by
      unfold hardDropNewCubes
      rw [hcur0]
      rfl
    have hmg : hardDropMerged s = s.mainGridCubes := by
      unfold hardDropMerged
      rw [hnc]
      exact List.append_nil _
    have hlines : hardDropLines s = [] := by
      unfold hardDropLines
      rw [hmg]
      exact hsnf
    have hfin : hardDropFinal s = s.mainGridCubes := by
      unfold hardDropFinal
      rw [hlines, hmg]
      rfl
    rw [hfin]
    refine ⟨⟨hsnd, ?_⟩, ?_⟩
    · intro c hcm hneg
      have h9 := (hsy c hcm).1
      exact absurd hneg (by omega)
    · intro _
      refine ⟨⟨hsnd, hsy, hsnf⟩, hQnd, ?_, hQcol, hQrow, hQxp, hQyp, ?_, ?_⟩
      · intro c hcs m hmf
        have h1 := (hQy c hcs).2
        have h2 := (hsy m hmf).1
        exact Or.inr (by omega)
      · intro c hcs
        have h1 := (hQy c hcs).2
        unfold Constants.GRID_HEIGHT
        omega
      · have hlen4 : (generateTetromino (findIndexByColour
            (head0 s.previewGridCubes).colour) Constants.MAIN_GRID_X
            Constants.MAIN_GRID_Y "c").length = 4 := hQlen
        omega
  · have hfin : hardDropFinal s =
        clearFinal (s.mainGridCubes ++ hardDropNewCubes s) := by
      rw [hardDropFinal_eq_clearFinal]
      rfl
    have hpw0 : PairwiseCoords (hardDropNewCubes s) :=
      pairwiseCoords_generateNewCubes _ _ _ _ hppw
    have hdisj0 := hardDrop_disjoint s hcur0 hxc hpylt hpcol hpdisj
      (fun m hm => (hsy m hm).1)
    have hlen0 : (hardDropNewCubes s).length ≤ 4 := by
      unfold hardDropNewCubes
      rw [generateNewCubes_length]
      exact hplen
    have hylt0 := hardDropNewCubes_ylt s hcur0 hxc hpylt
    obtain ⟨hfnd, hfylt, hfnf⟩ := merged_clean s.mainGridCubes (hardDropNewCubes s)
      ⟨hsnd, hsy, hsnf⟩ hpw0 hdisj0 hlen0 hylt0
    rw [hfin]
    refine ⟨⟨hfnd, ?_⟩, ?_⟩
    · intro c hcf hneg
      exact gameEnd_true_of _ c hcf hneg
    · intro hgf
      have hy0 := gameEnd_false_y _ hgf
      refine ⟨⟨hfnd, fun c hcf => ⟨hy0 c hcf, hfylt c hcf⟩, hfnf⟩,
        hQnd, ?_, hQcol, hQrow, hQxp, hQyp, ?_, ?_⟩
      · intro c hcs m hmf
        have h1 := (hQy c hcs).2
        have h2 := hy0 m hmf
        exact Or.inr (by omega)
      · intro c hcs
        have h1 := (hQy c hcs).2
        unfold Constants.GRID_HEIGHT
        omega
      · have hlen4 : (generateTetromino (findIndexByColour
            (head0 s.previewGridCubes).colour) Constants.MAIN_GRID_X
            Constants.MAIN_GRID_Y "c").length = 4 := hQlen
        omega

lemma pieceOK_move (s : State) (dx dy : ℤ)
    (hp : PieceOK s.currentCubes s.mainGridCubes) :
    PieceOK
      (if isValid { s with currentCubes := generateNewCubes s.currentCubes dx dy }
        then generateNewCubes s.currentCubes dx dy else s.currentCubes)
      s.mainGridCubes := by
  by_cases hv : isValid { s with
      currentCubes := generateNewCubes s.currentCubes dx dy } = true
  · rw [if_pos hv]
    obtain ⟨hppw, hpdisj, hpcol, hprow, hpxp, hpyp, hpylt, hplen⟩ := hp
    obtain ⟨hcoll, hoob, _⟩ := isValid_parts _ hv
    have hnocol := (isCollide_eq_false _).mp hcoll
    refine ⟨pairwiseCoords_generateNewCubes _ _ _ _ hppw, ?_,
      colContig_generateNewCubes _ _ _ _ hpcol,
      rowContig_generateNewCubes _ _ _ _ hprow,
      xproj_generateNewCubes _ _ _ _ hpxp,
      yproj_generateNewCubes _ _ _ _ hpyp, ?_, ?_⟩
    · intro c hcs m hmf
      rcases (hnocol c hcs).1 m hmf with h | h
      · exact Or.inl fun he => h he.symm
      · exact Or.inr fun he => h he.symm
    · intro c hcs
      exact (hnocol c hcs).2
    · rw [generateNewCubes_length]
      exact hplen
  · rw [if_neg hv]
    exact hp

lemma clean_move (s : State) (dx dy : ℤ) (hc : CleanInv s) :
    StepOK { s with
      currentCubes :=
        if isValid { s with currentCubes := generateNewCubes s.currentCubes dx dy }
          then generateNewCubes s.currentCubes dx dy
        else s.currentCubes
      updateGrid := false } := by
  obtain ⟨⟨hsnd, hsy, hsnf⟩, hp⟩ := hc
  refine ⟨⟨hsnd, ?_⟩, fun _ => ⟨⟨hsnd, hsy, hsnf⟩, pieceOK_move s dx dy hp⟩⟩
  intro c hcm hneg
  have h9 := (hsy c hcm).1
  exact absurd hneg (by omega)

lemma clean_rotate (s : State) (hc : CleanInv s) : StepOK (Rotate.apply s) := by
  obtain ⟨⟨hsnd, hsy, hsnf⟩, hppw, hpdisj, hpcol, hprow, hpxp, hpyp, hpylt, hplen⟩ := hc
  rw [rotate_apply_eq]
  by_cases hex : s.currentCubes.length = 0 ∨
      (head0 s.currentCubes).colour = Colour.yellow
  · rw [if_pos hex]
    refine ⟨⟨hsnd, ?_⟩, fun _ =>
      ⟨⟨hsnd, hsy, hsnf⟩, hppw, hpdisj, hpcol, hprow, hpxp, hpyp, hpylt, hplen⟩⟩
    intro c hcm hneg
    have h9 := (hsy c hcm).1
    exact absurd hneg (by omega)
  · rw [if_neg hex]
    refine ⟨⟨hsnd, ?_⟩, fun _ => ⟨⟨hsnd, hsy, hsnf⟩, ?_⟩⟩
    · intro c hcm hneg
      have h9 := (hsy c hcm).1
      exact absurd hneg (by omega)
    · show PieceOK
        (if isCollide { s with currentCubes := rotateAdjusted s } then
          s.currentCubes else rotateAdjusted s) s.mainGridCubes
      by_cases hcoll : isCollide { s with currentCubes := rotateAdjusted s } = true
      · rw [if_pos hcoll]
        exact ⟨hppw, hpdisj, hpcol, hprow, hpxp, hpyp, hpylt, hplen⟩
      · rw [if_neg hcoll]
        have hcoll' : isCollide { s with currentCubes := rotateAdjusted s } = false :=
          Bool.eq_false_iff.mpr hcoll
        have hnocol := (isCollide_eq_false _).mp hcoll'
        refine ⟨pairwiseCoords_generateNewCubes _ _ _ _
            (pairwiseCoords_rot _ _ _ hppw), ?_,
          colContig_generateNewCubes _ _ _ _ (colContig_rot _ _ _ hprow),
          rowContig_generateNewCubes _ _ _ _ (rowContig_rot _ _ _ hpcol),
          xproj_generateNewCubes _ _ _ _ (xproj_rot _ _ _ hpyp),
          yproj_generateNewCubes _ _ _ _ (yproj_rot _ _ _ hpxp), ?_, ?_⟩
        · intro c hcs m hmf
          rcases (hnocol c hcs).1 m hmf with h | h
          · exact Or.inl fun he => h he.symm
          · exact Or.inr fun he => h he.symm
        · intro c hcs
          exact (hnocol c hcs).2
        · show (rotateAdjusted s).length ≤ 4
          unfold rotateAdjusted
          rw [generateNewCubes_length]
          unfold rotatedCubes
          rw [List.length_map]
          exact hplen

lemma clean_step (s : State) (a : Action) (hge : s.gameEnd = false)
    (hx : XInv s) (hc : CleanInv s) : StepOK (applyAction a s) := by
  cases a with
  | tick =>
    show StepOK (Tick.apply s)
    rcases tick_apply_cases s with h | h <;> rw [h]
    · exact clean_gameTick _ hge hx hc
    · obtain ⟨⟨hsnd, hsy, hsnf⟩, hp⟩ := hc
      exact ⟨⟨hsnd, fun c hcm hneg =>
          absurd hneg (by have h9 := (hsy c hcm).1; omega)⟩,
        fun _ => ⟨⟨hsnd, hsy, hsnf⟩, hp⟩⟩
  | moveLeft => exact clean_move s (-1) 0 hc
  | moveRight => exact clean_move s 1 0 hc
  | moveDown => exact clean_move s 0 1 hc
  | rotate => exact clean_rotate s hc
  | hardDrop => exact clean_hardDrop s hge hx hc
  | reset =>
    show StepOK (Reset.apply s)
    unfold Reset.apply
    rw [if_neg (show ¬s.gameEnd = true by rw [hge]; exact Bool.false_ne_true)]
    obtain ⟨⟨hsnd, hsy, hsnf⟩, hp⟩ := hc
    exact ⟨⟨hsnd, fun c hcm hneg =>
        absurd hneg (by have h9 := (hsy c hcm).1; omega)⟩,
      fun _ => ⟨⟨hsnd, hsy, hsnf⟩, hp⟩⟩


lemma gameTick_recognize (s : State) (hge : s.gameEnd = false) :
    ∀ c ∈ (GameTick.apply s).mainGridCubes, c.y < 0 →
      (GameTick.apply s).gameEnd = true := by
  have hset : (GameTick.apply s).mainGridCubes = tickFinal s := by
    have h0 : (GameTick.apply s).mainGridCubes =
        if s.gameEnd then s.mainGridCubes else tickFinal s := rfl
    rw [h0, hge]
    rfl
  have hgame : (GameTick.apply s).gameEnd =
      decide (0 < ((tickFinal s).filter fun c => decide (c.y < 0)).length) := rfl
  rw [hset, hgame]
  intro c hc hneg
  exact gameEnd_true_of _ c hc hneg

lemma recognize_step (s : State) (a : Action) (hge : s.gameEnd = false)
    (hsy : ∀ c ∈ s.mainGridCubes, 0 ≤ c.y) :
    ∀ c ∈ (applyAction a s).mainGridCubes, c.y < 0 →
      (applyAction a s).gameEnd = true := by
  cases a with
  | tick =>
    show ∀ c ∈ (Tick.apply s).mainGridCubes, c.y < 0 → (Tick.apply s).gameEnd = true
    rcases tick_apply_cases s with h | h <;> rw [h]
    · exact gameTick_recognize _ hge
    · intro c hc hneg
      exact absurd hneg (by have h9 := hsy c hc; omega)
  | moveLeft =>
    intro c hc hneg
    exact absurd hneg (by have h9 := hsy c hc; omega)
  | moveRight =>
    intro c hc hneg
    exact absurd hneg (by have h9 := hsy c hc; omega)
  | moveDown =>
    intro c hc hneg
    exact absurd hneg (by have h9 := hsy c hc; omega)
  | rotate =>
    show ∀ c ∈ (Rotate.apply s).mainGridCubes, c.y < 0 →
      (Rotate.apply s).gameEnd = true
    rw [rotate_apply_eq]
    by_cases hex : s.currentCubes.length = 0 ∨
        (head0 s.currentCubes).colour = Colour.yellow
    · rw [if_pos hex]
      intro c hc hneg
      exact absurd hneg (by have h9 := hsy c hc; omega)
    · rw [if_neg hex]
      intro c hc hneg
      exact absurd hneg (by have h9 := hsy c hc; omega)
  | hardDrop =>
    show ∀ c ∈ (HardDrop.apply s).mainGridCubes, c.y < 0 →
      (HardDrop.apply s).gameEnd = true
    have hset : (HardDrop.apply s).mainGridCubes = hardDropFinal s := by
      have h0 : (HardDrop.apply s).mainGridCubes =
          if s.gameEnd then s.mainGridCubes else hardDropFinal s := rfl
      rw [h0, hge]
      rfl
    have hgame : (HardDrop.apply s).gameEnd =
        decide (0 < ((hardDropFinal s).filter fun c => decide (c.y < 0)).length) := rfl
    rw [hset, hgame]
    intro c hc hneg
    exact gameEnd_true_of _ c hc hneg
  | reset =>
    show ∀ c ∈ (Reset.apply s).mainGridCubes, c.y < 0 → (Reset.apply s).gameEnd = true
    unfold Reset.apply
    rw [if_neg (show ¬s.gameEnd = true by rw [hge]; exact Bool.false_ne_true)]
    intro c hc hneg
    exact absurd hneg (by have h9 := hsy c hc; omega)

lemma reach_xinv (seed : ℤ) (s : State) (h : Reach seed s) : XInv s := by
  induction h with
  | init =>
    refine ⟨?_, ?_, ?_⟩
    · intro c hc
      cases hc
    · intro c hc
      cases hc
    · intro c hc
      cases hc
  | step a hprev ih => exact xinv_step _ a ih

lemma cleanReach_reach (seed : ℤ) (s : State) (h : CleanReach seed s) :
    Reach seed s := by
  induction h with
  | init => exact Reach.init
  | step a hcr hge ih => exact ih.step a

lemma cleanReach_invariant (seed : ℤ) (s : State) (h : CleanReach seed s) :
    (PairwiseCoords s.mainGridCubes ∧
      (∀ c ∈ s.mainGridCubes, c.y < 0 → s.gameEnd = true)) ∧
    (s.gameEnd = false → CleanInv s) := by
  induction h with
  | init =>
    refine ⟨⟨List.Pairwise.nil, ?_⟩, fun _ =>
      ⟨⟨List.Pairwise.nil, ?_, ?_⟩, List.Pairwise.nil, ?_, ?_, ?_, ?_, ?_, ?_, ?_⟩⟩
    · intro c hc
      cases hc
    · intro c hc
      cases hc
    · show findLinesToClear (convertTo2D []) = []
      rfl
    · intro c hc
      cases hc
    · intro c hc
      cases hc
    · intro c hc
      cases hc
    · intro x hx1 hx2
      exact absurd (le_trans hx1 hx2) (of_decide_eq_true rfl)
    · intro y hy1 hy2
      exact absurd (le_trans hy1 hy2) (of_decide_eq_true rfl)
    · intro c hc
      cases hc
    · exact of_decide_eq_true rfl
  | step a hcr hge ih =>
    have hx := reach_xinv seed _ (cleanReach_reach seed _ hcr)
    exact clean_step _ a hge hx (ih.2 hge)

/-- The single-cube state used to witness the same-step recognition part of
claim C7 at a concrete input. -/
def recogState : State :=
  { initialState 0 with
    currentCubes := [⟨0, -1, Colour.cyan, "a"⟩]
    mainGridCubes := [⟨0, 0, Colour.red, "m"⟩] }

/-- C7 (amended): the original claim is corrected in two ways forced by the
counterexample `claim7_cex`.  What does hold: (1) locally, a step from any
in-play state whose settled cells all lie at `y ≥ 0` that leaves a settled
cell at `y < 0` sets `gameEnd` in that same step; (2) the horizontal part of
the invariant — every settled cell of *every* reachable state satisfies
`0 ≤ x < GRID_WIDTH`; (3) along any action sequence in which every action is
applied to an in-play (`gameEnd = false`) state — i.e. up to and including
the move that ends the game — the settled grid is coordinate-distinct and a
settled cell has `y < 0` only when `gameEnd` is true.  Beyond the first
game-over state the claim fails: the counterexample continues playing after
the game over and reaches a state with `gameEnd = false` whose settled grid
still holds cells at `y = -1`. -/
theorem claim7_thm :
    (∀ (s : State) (a : Action), s.gameEnd = false →
      (∀ c ∈ s.mainGridCubes, 0 ≤ c.y) →
      ∀ c ∈ (applyAction a s).mainGridCubes, c.y < 0 →
        (applyAction a s).gameEnd = true) ∧
    (∀ (seed : ℤ) (s : State), Reach seed s →
      ∀ c ∈ s.mainGridCubes, 0 ≤ c.x ∧ c.x < Constants.GRID_WIDTH) ∧
    (∀ (seed : ℤ) (s : State), CleanReach seed s →
      PairwiseCoords s.mainGridCubes ∧
      (∀ c ∈ s.mainGridCubes, c.y < 0 → s.gameEnd = true)) :=
  ⟨fun s a hge hsy => recognize_step s a hge hsy,
   fun seed s h => (reach_xinv seed s h).1,
   fun seed s h => (cleanReach_invariant seed s h).1⟩

theorem claim7_witness :
    (applyAction Action.hardDrop recogState).gameEnd = true ∧
    XBounds (applyAction Action.hardDrop
      (applyAction Action.hardDrop (initialState 0))).mainGridCubes ∧
    PairwiseCoords (applyAction Action.hardDrop
      (applyAction Action.hardDrop (initialState 0))).mainGridCubes :=
  ⟨claim7_thm.1 recogState Action.hardDrop (by decide) (by decide)
      ⟨0, -1, Colour.cyan, "x0y-1"⟩ (by decide) (by decide),
   claim7_thm.2.1 0 _ (Reach.step Action.hardDrop
     (Reach.step Action.hardDrop Reach.init)),
   (claim7_thm.2.2 0 _ (CleanReach.step Action.hardDrop
     (CleanReach.step Action.hardDrop CleanReach.init (by decide))
     (by decide))).1⟩

end Tetris
